import Mathlib

/-!
Verification of the onvif-to-rtsp announcement service (`src/app/main.py`).

The program is embedded shallowly: strings are `List Char`, Python's
`urllib.parse` functions (`urlparse`, `urlunparse`, `parse_qs`) and
`html.unescape`/`html.escape` are modelled as executable Lean functions on
`List Char` (CPython 3.11 semantics), protobuf messages become Lean
structures, and the announcement loop of `main` becomes explicit state
passing over the configured profile indices, with the ONVIF device client
and the make87 delivery channel as function parameters.

Modelling notes, applying throughout:
* Python strings are modelled as `List Char`; `str.lower` is modelled for
  the ASCII range (`asciiLower`).
* Calls that raise an exception the program does not catch are modelled as
  `none`: `urlsplit`'s `ValueError("Invalid IPv6 URL")`, the `ValueError`
  of the `port` property on a non-digit or out-of-range port, and their
  propagation through `parse_url`, `rtsp_uri_to_request_message` and
  `inject_rtsp_auth`.
* Two raising paths of CPython's `urlsplit` are not modelled, and the
  theorems below fence them off by hypothesis wherever a URI is
  quantified: the validation of a balanced bracketed host
  (`_check_bracketed_host`, which runs `ipaddress` parsing and can raise
  for a netloc containing `[`...`]`), and the NFKC check of `_checknetloc`
  (which can raise for a netloc containing non-ASCII characters).
  UTF-8 recombination of percent-escapes in `unquote` is likewise not
  modelled (percent-free query strings are unaffected).
* Timestamps (`Header.timestamp.GetCurrentTime()`) are an impure input and
  are passed as an explicit `ts : Nat` parameter.
-/

set_option maxRecDepth 100000

namespace OnvifRtsp

/-! ## ASCII character classes (Python `scheme_chars`, `str.isdigit`, ...) -/

def isDigitChar (c : Char) : Bool :=
  decide (48 ≤ c.toNat ∧ c.toNat ≤ 57)

def isAsciiAlpha (c : Char) : Bool :=
  decide ((65 ≤ c.toNat ∧ c.toNat ≤ 90) ∨ (97 ≤ c.toNat ∧ c.toNat ≤ 122))

def isAlphaNumChar (c : Char) : Bool :=
  isAsciiAlpha c || isDigitChar c

/-- Characters allowed in a URL scheme (`urllib.parse.scheme_chars`). -/
def isSchemeChar (c : Char) : Bool :=
  isAlphaNumChar c || c = '+' || c = '-' || c = '.'

/-- ASCII lower-casing of a single character (model of `str.lower`). -/
def asciiLower (c : Char) : Char :=
  if 65 ≤ c.toNat ∧ c.toNat ≤ 90 then Char.ofNat (c.toNat + 32) else c

def isHexChar (c : Char) : Bool :=
  isDigitChar c || decide (97 ≤ c.toNat ∧ c.toNat ≤ 102) || decide (65 ≤ c.toNat ∧ c.toNat ≤ 70)

def hexVal (c : Char) : Nat :=
  if isDigitChar c then c.toNat - 48
  else if 97 ≤ c.toNat then c.toNat - 87
  else c.toNat - 55

/-- `int(s, 10)` on a digit string. -/
def digitsToNat (s : List Char) : Nat :=
  s.foldl (fun a c => 10 * a + (c.toNat - 48)) 0

/-- `int(s, 16)` on a hex-digit string. -/
def hexToNat (s : List Char) : Nat :=
  s.foldl (fun a c => 16 * a + hexVal c) 0

/-! ## List-of-characters splitting helpers -/

/-- Split at the first occurrence of `c` (model of `str.split(c, 1)` /
`str.partition(c)` when the separator occurs). -/
def splitFirst (c : Char) : List Char → Option (List Char × List Char)
  | [] => none
  | x :: rest =>
      if x = c then some ([], rest)
      else (splitFirst c rest).map (fun p => (x :: p.1, p.2))

/-- Split at the last occurrence of `c` (model of `str.rpartition(c)` when
the separator occurs; `none` when it does not). -/
def splitLast (c : Char) (s : List Char) : Option (List Char × List Char) :=
  (splitFirst c s.reverse).map (fun p => (p.2.reverse, p.1.reverse))

/-! ## Model of `urllib.parse.urlparse` and `urlunparse` (CPython 3.11) -/

structure PyUrl where
  scheme : List Char
  netloc : List Char
  path : List Char
  params : List Char
  query : List Char
  fragment : List Char
deriving DecidableEq

/-- A character of `_WHATWG_C0_CONTROL_OR_SPACE`, stripped from the left
of the URL by `urlsplit`. -/
def isC0ControlOrSpace (c : Char) : Bool :=
  decide (c.toNat ≤ 32)

/-- A character of `_UNSAFE_URL_BYTES_TO_REMOVE` (tab, CR, LF), removed
everywhere in the URL by `urlsplit`. -/
def isUnsafeUrlByte (c : Char) : Bool :=
  decide (c = '\t' ∨ c = '\r' ∨ c = '\n')

/-- The input sanitisation `urlsplit` performs before parsing:
`url.lstrip(_WHATWG_C0_CONTROL_OR_SPACE)` followed by removal of every
tab, CR and LF. -/
def sanitizeUrl (s : List Char) : List Char :=
  (s.dropWhile isC0ControlOrSpace).filter (fun c => !isUnsafeUrlByte c)

/-- A character ending the netloc component (`urllib.parse._splitnetloc`
scans for the earliest of `/`, `?`, `#`). -/
def isNetlocEnd (c : Char) : Bool :=
  decide (c = '/' ∨ c = '?' ∨ c = '#')

/-- Scheme recognition of `urlsplit`: a leading `:` -delimited prefix that
starts with an ASCII letter and consists of scheme characters. -/
def splitScheme (s : List Char) : List Char × List Char :=
  match splitFirst ':' s with
  | some (pre, post) =>
      if (match pre.head? with | some c => isAsciiAlpha c | none => false)
          && pre.all isSchemeChar then
        (pre.map asciiLower, post)
      else ([], s)
  | none => ([], s)

/-- `_splitnetloc`: if the remainder starts with `//` (`url[:2] == '//'`),
the netloc extends to the first `/`, `?` or `#`. -/
def splitNetloc (s : List Char) : List Char × List Char :=
  if s.take 2 = ['/', '/'] then
    ((s.drop 2).takeWhile (fun c => !isNetlocEnd c),
      (s.drop 2).dropWhile (fun c => !isNetlocEnd c))
  else ([], s)

/-- `url.split('#', 1)` when `'#' in url`, else no fragment. -/
def splitFragment (s : List Char) : List Char × List Char :=
  match splitFirst '#' s with
  | some (a, b) => (a, b)
  | none => (s, [])

/-- `url.split('?', 1)` when `'?' in url`, else no query. -/
def splitQuery (s : List Char) : List Char × List Char :=
  match splitFirst '?' s with
  | some (a, b) => (a, b)
  | none => (s, [])

/-- `urllib.parse._splitparams`: parameters are split at the first `;`
occurring after the last `/` (`urlparse` guards the call with `';' in url`;
the guarded composition equals this total function). -/
def splitParams (s : List Char) : List Char × List Char :=
  match splitLast '/' s with
  | some (pre, post) =>
      match splitFirst ';' post with
      | some (p1, p2) => (pre ++ '/' :: p1, p2)
      | none => (s, [])
  | none =>
      match splitFirst ';' s with
      | some (p1, p2) => (p1, p2)
      | none => (s, [])

/-- `urllib.parse.uses_params`: the schemes whose path carries `;`
parameters. -/
def usesParams : List (List Char) :=
  ["", "ftp", "hdl", "prospero", "http", "imap", "https", "shttp", "rtsp",
    "rtsps", "rtspu", "sip", "sips", "mms", "sftp", "tel"].map String.toList

/-- `urllib.parse.uses_netloc`: the schemes for which `urlunsplit` adds
`//` in front of an empty netloc. -/
def usesNetloc : List (List Char) :=
  ["", "ftp", "http", "gopher", "nntp", "telnet", "imap", "wais", "file",
    "mms", "https", "shttp", "snews", "prospero", "rtsp", "rtsps", "rtspu",
    "rsync", "svn", "svn+ssh", "sftp", "nfs", "git", "git+ssh", "ws",
    "wss"].map String.toList

/-- `urlparse`'s params step: `_splitparams` runs only for a scheme of
`uses_params`. -/
def paramsSplit (scheme s : List Char) : List Char × List Char :=
  if scheme ∈ usesParams then splitParams s else (s, [])

/-- The stages of `urlsplit`/`urlparse` on an already-sanitised URL,
without the raising checks. -/
def urlparseCore (url : List Char) : PyUrl :=
  let sp := splitScheme url
  let nl := splitNetloc sp.2
  let fr := splitFragment nl.2
  let qu := splitQuery fr.1
  let pp := paramsSplit sp.1 qu.1
  ⟨sp.1, nl.1, pp.1, pp.2, qu.2, fr.2⟩

/-- `urlsplit` raises `ValueError("Invalid IPv6 URL")` for a netloc with
an unbalanced bracket. -/
def invalidIPv6 (netloc : List Char) : Bool :=
  (decide ('[' ∈ netloc) && !decide (']' ∈ netloc)) ||
    (decide (']' ∈ netloc) && !decide ('[' ∈ netloc))

/-- `urllib.parse.urlparse`; `none` models a raised `ValueError`.
CPython 3.11 additionally validates a balanced bracketed host through
`ipaddress` (`_check_bracketed_host`) and non-ASCII netlocs through NFKC
normalisation (`_checknetloc`); those raising paths are not modelled, and
every theorem quantifying over URIs below excludes bracketed and
non-ASCII netlocs by hypothesis. -/
def urlparse (s : List Char) : Option PyUrl :=
  if invalidIPv6 (splitNetloc (splitScheme (sanitizeUrl s)).2).1 then none
  else some (urlparseCore (sanitizeUrl s))

/-- `netloc.rpartition('@')[2]`: the host-and-port part of the netloc. -/
def hostinfo (netloc : List Char) : List Char :=
  match splitLast '@' netloc with
  | some (_, post) => post
  | none => netloc

/-- `_NetlocResultMixinStr._hostinfo`: hostname and port strings of the
netloc, with the bracketed-host (IPv6 literal) branch; an empty port
string becomes `None`. -/
def pyHostinfo (netloc : List Char) : List Char × Option (List Char) :=
  if '[' ∈ hostinfo netloc then
    match splitFirst ']' (match splitFirst '[' (hostinfo netloc) with
        | some p => p.2
        | none => hostinfo netloc) with
    | some hp =>
        (hp.1, match splitFirst ':' hp.2 with
          | some q => if q.2 = [] then none else some q.2
          | none => none)
    | none =>
        (match splitFirst '[' (hostinfo netloc) with
          | some p => p.2
          | none => hostinfo netloc, none)
  else
    match splitFirst ':' (hostinfo netloc) with
    | some p => (p.1, if p.2 = [] then none else some p.2)
    | none => (hostinfo netloc, none)

/-- `ParseResult.hostname`: `None` when empty, otherwise lower-cased up to
a `%` (a scoped-IPv6 zone id is kept verbatim). -/
def pyHostname (u : PyUrl) : Option (List Char) :=
  if (pyHostinfo u.netloc).1 = [] then none
  else
    match splitFirst '%' (pyHostinfo u.netloc).1 with
    | some p => some (p.1.map asciiLower ++ '%' :: p.2)
    | none => some ((pyHostinfo u.netloc).1.map asciiLower)

/-- `ParseResult.port`: `some none` when the netloc has no port,
`some (some n)` for an all-digit port `n ≤ 65535`, and `none` for the
`ValueError` the property raises on a non-digit or out-of-range port. -/
def pyPort (u : PyUrl) : Option (Option Nat) :=
  match (pyHostinfo u.netloc).2 with
  | none => some none
  | some p =>
      if p ≠ [] ∧ p.all isDigitChar then
        if digitsToNat p ≤ 65535 then some (some (digitsToNat p)) else none
      else none

def urlunsplit (scheme netloc url query fragment : List Char) : List Char :=
  let url1 :=
    if netloc ≠ [] ∨ (scheme ≠ [] ∧ scheme ∈ usesNetloc ∧ url.take 2 ≠ ['/', '/']) then
      '/' :: '/' :: (netloc ++ (if url ≠ [] ∧ url.head? ≠ some '/' then '/' :: url else url))
    else url
  let url2 := if scheme ≠ [] then scheme ++ ':' :: url1 else url1
  let url3 := if query ≠ [] then url2 ++ '?' :: query else url2
  if fragment ≠ [] then url3 ++ '#' :: fragment else url3

def urlunparse (u : PyUrl) : List Char :=
  urlunsplit u.scheme u.netloc
    (if u.params ≠ [] then u.path ++ ';' :: u.params else u.path) u.query u.fragment

/-! ## Model of `urllib.parse.parse_qs` -/

/-- Scanner for `unquote_plus`, with fuel; one unit of fuel is spent per
consumed leading character, so `s.length` fuel always suffices. -/
def uqAux : Nat → List Char → List Char
  | 0, s => s
  | _ + 1, [] => []
  | n + 1, c :: rest =>
      if c = '+' then ' ' :: uqAux n rest
      else if c = '%' then
        match rest with
        | h1 :: h2 :: rest2 =>
            if isHexChar h1 && isHexChar h2 then
              Char.ofNat (16 * hexVal h1 + hexVal h2) :: uqAux n rest2
            else '%' :: uqAux n rest
        | _ => '%' :: uqAux n rest
      else c :: uqAux n rest

/-- `urllib.parse.unquote_plus`: `+` becomes space and `%hh` percent-escapes
are decoded (modelled byte-wise, faithful on the ASCII range; multi-byte
UTF-8 recombination is not modelled). -/
def unquotePlus (s : List Char) : List Char := uqAux s.length s

/-- `qs.split('&')` (since Python 3.10 only `&` separates). -/
def splitOnChar (c : Char) : List Char → List (List Char)
  | [] => [[]]
  | x :: rest =>
      if x = c then [] :: splitOnChar c rest
      else
        match splitOnChar c rest with
        | [] => [[x]]
        | g :: gs => (x :: g) :: gs

/-- `urllib.parse.parse_qsl` with the default arguments of `parse_qs`:
empty chunks are skipped, chunks without `=` are skipped
(`strict_parsing=False`), blank values are dropped
(`keep_blank_values=False`), names and values are unquoted. -/
def parseQsl (qs : List Char) : List (List Char × List Char) :=
  (splitOnChar '&' qs).filterMap fun nv =>
    if nv = [] then none
    else
      match splitFirst '=' nv with
      | none => none
      | some (n, v) =>
          if v = [] then none else some (unquotePlus n, unquotePlus v)

def firstWinsAux : List (List Char × List Char) → List (List Char) → List (List Char × List Char)
  | [], _ => []
  | (k, v) :: rest, seen =>
      if k ∈ seen then firstWinsAux rest seen
      else (k, v) :: firstWinsAux rest (k :: seen)

/-- `{k: v[0] for k, v in parse_qs(q).items()}` — `parse_qs` groups the
`parse_qsl` pairs by key in first-occurrence order, and the comprehension
keeps `v[0]`, the first value of each key. -/
def firstWins (l : List (List Char × List Char)) : List (List Char × List Char) :=
  firstWinsAux l []

/-! ## Model of `html.unescape` / `html.escape` (CPython 3.11)

`html.unescape` substitutes the regex
`&(#[0-9]+;?|#[xX][0-9a-fA-F]+;?|[^\t\n\f <&#;]{1,32};?)` through
`_replace_charref`: numeric references decode through `_invalid_charrefs`
and `_invalid_codepoints`, named references resolve through the full
`html.entities.html5` table, falling back to the longest resolvable
prefix of length at least 2; an unresolvable group is left unchanged
(modelled as no match, which yields the same output since a group never
contains `&`). -/

/-- The full `html.entities.html5` table of CPython (2231 entries):
entity name (with or without trailing semicolon) to replacement text.
The entities emitted by `html.escape` are listed first. -/
def html5Table : List (String × String) := [
  ("amp;", "&"), ("lt;", "<"), ("gt;", ">"), ("quot;", "\""),
  ("amp", "&"), ("lt", "<"), ("gt", ">"), ("quot", "\""),
  ("AElig", "Æ"), ("AElig;", "Æ"), ("AMP", "&"), ("AMP;", "&"),
  ("Aacute", "Á"), ("Aacute;", "Á"), ("Abreve;", "Ă"), ("Acirc", "Â"),
  ("Acirc;", "Â"), ("Acy;", "А"), ("Afr;", "𝔄"), ("Agrave", "À"),
  ("Agrave;", "À"), ("Alpha;", "Α"), ("Amacr;", "Ā"), ("And;", "⩓"),
  ("Aogon;", "Ą"), ("Aopf;", "𝔸"), ("ApplyFunction;", "⁡"), ("Aring", "Å"),
  ("Aring;", "Å"), ("Ascr;", "𝒜"), ("Assign;", "≔"), ("Atilde", "Ã"),
  ("Atilde;", "Ã"), ("Auml", "Ä"), ("Auml;", "Ä"), ("Backslash;", "∖"),
  ("Barv;", "⫧"), ("Barwed;", "⌆"), ("Bcy;", "Б"), ("Because;", "∵"),
  ("Bernoullis;", "ℬ"), ("Beta;", "Β"), ("Bfr;", "𝔅"), ("Bopf;", "𝔹"),
  ("Breve;", "˘"), ("Bscr;", "ℬ"), ("Bumpeq;", "≎"), ("CHcy;", "Ч"),
  ("COPY", "©"), ("COPY;", "©"), ("Cacute;", "Ć"), ("Cap;", "⋒"),
  ("CapitalDifferentialD;", "ⅅ"), ("Cayleys;", "ℭ"), ("Ccaron;", "Č"), ("Ccedil", "Ç"),
  ("Ccedil;", "Ç"), ("Ccirc;", "Ĉ"), ("Cconint;", "∰"), ("Cdot;", "Ċ"),
  ("Cedilla;", "¸"), ("CenterDot;", "·"), ("Cfr;", "ℭ"), ("Chi;", "Χ"),
  ("CircleDot;", "⊙"), ("CircleMinus;", "⊖"), ("CirclePlus;", "⊕"), ("CircleTimes;", "⊗"),
  ("ClockwiseContourIntegral;", "∲"), ("CloseCurlyDoubleQuote;", "”"), ("CloseCurlyQuote;", "’"), ("Colon;", "∷"),
  ("Colone;", "⩴"), ("Congruent;", "≡"), ("Conint;", "∯"), ("ContourIntegral;", "∮"),
  ("Copf;", "ℂ"), ("Coproduct;", "∐"), ("CounterClockwiseContourIntegral;", "∳"), ("Cross;", "⨯"),
  ("Cscr;", "𝒞"), ("Cup;", "⋓"), ("CupCap;", "≍"), ("DD;", "ⅅ"),
  ("DDotrahd;", "⤑"), ("DJcy;", "Ђ"), ("DScy;", "Ѕ"), ("DZcy;", "Џ"),
  ("Dagger;", "‡"), ("Darr;", "↡"), ("Dashv;", "⫤"), ("Dcaron;", "Ď"),
  ("Dcy;", "Д"), ("Del;", "∇"), ("Delta;", "Δ"), ("Dfr;", "𝔇"),
  ("DiacriticalAcute;", "´"), ("DiacriticalDot;", "˙"), ("DiacriticalDoubleAcute;", "˝"), ("DiacriticalGrave;", "`"),
  ("DiacriticalTilde;", "˜"), ("Diamond;", "⋄"), ("DifferentialD;", "ⅆ"), ("Dopf;", "𝔻"),
  ("Dot;", "¨"), ("DotDot;", "⃜"), ("DotEqual;", "≐"), ("DoubleContourIntegral;", "∯"),
  ("DoubleDot;", "¨"), ("DoubleDownArrow;", "⇓"), ("DoubleLeftArrow;", "⇐"), ("DoubleLeftRightArrow;", "⇔"),
  ("DoubleLeftTee;", "⫤"), ("DoubleLongLeftArrow;", "⟸"), ("DoubleLongLeftRightArrow;", "⟺"), ("DoubleLongRightArrow;", "⟹"),
  ("DoubleRightArrow;", "⇒"), ("DoubleRightTee;", "⊨"), ("DoubleUpArrow;", "⇑"), ("DoubleUpDownArrow;", "⇕"),
  ("DoubleVerticalBar;", "∥"), ("DownArrow;", "↓"), ("DownArrowBar;", "⤓"), ("DownArrowUpArrow;", "⇵"),
  ("DownBreve;", "̑"), ("DownLeftRightVector;", "⥐"), ("DownLeftTeeVector;", "⥞"), ("DownLeftVector;", "↽"),
  ("DownLeftVectorBar;", "⥖"), ("DownRightTeeVector;", "⥟"), ("DownRightVector;", "⇁"), ("DownRightVectorBar;", "⥗"),
  ("DownTee;", "⊤"), ("DownTeeArrow;", "↧"), ("Downarrow;", "⇓"), ("Dscr;", "𝒟"),
  ("Dstrok;", "Đ"), ("ENG;", "Ŋ"), ("ETH", "Ð"), ("ETH;", "Ð"),
  ("Eacute", "É"), ("Eacute;", "É"), ("Ecaron;", "Ě"), ("Ecirc", "Ê"),
  ("Ecirc;", "Ê"), ("Ecy;", "Э"), ("Edot;", "Ė"), ("Efr;", "𝔈"),
  ("Egrave", "È"), ("Egrave;", "È"), ("Element;", "∈"), ("Emacr;", "Ē"),
  ("EmptySmallSquare;", "◻"), ("EmptyVerySmallSquare;", "▫"), ("Eogon;", "Ę"), ("Eopf;", "𝔼"),
  ("Epsilon;", "Ε"), ("Equal;", "⩵"), ("EqualTilde;", "≂"), ("Equilibrium;", "⇌"),
  ("Escr;", "ℰ"), ("Esim;", "⩳"), ("Eta;", "Η"), ("Euml", "Ë"),
  ("Euml;", "Ë"), ("Exists;", "∃"), ("ExponentialE;", "ⅇ"), ("Fcy;", "Ф"),
  ("Ffr;", "𝔉"), ("FilledSmallSquare;", "◼"), ("FilledVerySmallSquare;", "▪"), ("Fopf;", "𝔽"),
  ("ForAll;", "∀"), ("Fouriertrf;", "ℱ"), ("Fscr;", "ℱ"), ("GJcy;", "Ѓ"),
  ("GT", ">"), ("GT;", ">"), ("Gamma;", "Γ"), ("Gammad;", "Ϝ"),
  ("Gbreve;", "Ğ"), ("Gcedil;", "Ģ"), ("Gcirc;", "Ĝ"), ("Gcy;", "Г"),
  ("Gdot;", "Ġ"), ("Gfr;", "𝔊"), ("Gg;", "⋙"), ("Gopf;", "𝔾"),
  ("GreaterEqual;", "≥"), ("GreaterEqualLess;", "⋛"), ("GreaterFullEqual;", "≧"), ("GreaterGreater;", "⪢"),
  ("GreaterLess;", "≷"), ("GreaterSlantEqual;", "⩾"), ("GreaterTilde;", "≳"), ("Gscr;", "𝒢"),
  ("Gt;", "≫"), ("HARDcy;", "Ъ"), ("Hacek;", "ˇ"), ("Hat;", "^"),
  ("Hcirc;", "Ĥ"), ("Hfr;", "ℌ"), ("HilbertSpace;", "ℋ"), ("Hopf;", "ℍ"),
  ("HorizontalLine;", "─"), ("Hscr;", "ℋ"), ("Hstrok;", "Ħ"), ("HumpDownHump;", "≎"),
  ("HumpEqual;", "≏"), ("IEcy;", "Е"), ("IJlig;", "Ĳ"), ("IOcy;", "Ё"),
  ("Iacute", "Í"), ("Iacute;", "Í"), ("Icirc", "Î"), ("Icirc;", "Î"),
  ("Icy;", "И"), ("Idot;", "İ"), ("Ifr;", "ℑ"), ("Igrave", "Ì"),
  ("Igrave;", "Ì"), ("Im;", "ℑ"), ("Imacr;", "Ī"), ("ImaginaryI;", "ⅈ"),
  ("Implies;", "⇒"), ("Int;", "∬"), ("Integral;", "∫"), ("Intersection;", "⋂"),
  ("InvisibleComma;", "⁣"), ("InvisibleTimes;", "⁢"), ("Iogon;", "Į"), ("Iopf;", "𝕀"),
  ("Iota;", "Ι"), ("Iscr;", "ℐ"), ("Itilde;", "Ĩ"), ("Iukcy;", "І"),
  ("Iuml", "Ï"), ("Iuml;", "Ï"), ("Jcirc;", "Ĵ"), ("Jcy;", "Й"),
  ("Jfr;", "𝔍"), ("Jopf;", "𝕁"), ("Jscr;", "𝒥"), ("Jsercy;", "Ј"),
  ("Jukcy;", "Є"), ("KHcy;", "Х"), ("KJcy;", "Ќ"), ("Kappa;", "Κ"),
  ("Kcedil;", "Ķ"), ("Kcy;", "К"), ("Kfr;", "𝔎"), ("Kopf;", "𝕂"),
  ("Kscr;", "𝒦"), ("LJcy;", "Љ"), ("LT", "<"), ("LT;", "<"),
  ("Lacute;", "Ĺ"), ("Lambda;", "Λ"), ("Lang;", "⟪"), ("Laplacetrf;", "ℒ"),
  ("Larr;", "↞"), ("Lcaron;", "Ľ"), ("Lcedil;", "Ļ"), ("Lcy;", "Л"),
  ("LeftAngleBracket;", "⟨"), ("LeftArrow;", "←"), ("LeftArrowBar;", "⇤"), ("LeftArrowRightArrow;", "⇆"),
  ("LeftCeiling;", "⌈"), ("LeftDoubleBracket;", "⟦"), ("LeftDownTeeVector;", "⥡"), ("LeftDownVector;", "⇃"),
  ("LeftDownVectorBar;", "⥙"), ("LeftFloor;", "⌊"), ("LeftRightArrow;", "↔"), ("LeftRightVector;", "⥎"),
  ("LeftTee;", "⊣"), ("LeftTeeArrow;", "↤"), ("LeftTeeVector;", "⥚"), ("LeftTriangle;", "⊲"),
  ("LeftTriangleBar;", "⧏"), ("LeftTriangleEqual;", "⊴"), ("LeftUpDownVector;", "⥑"), ("LeftUpTeeVector;", "⥠"),
  ("LeftUpVector;", "↿"), ("LeftUpVectorBar;", "⥘"), ("LeftVector;", "↼"), ("LeftVectorBar;", "⥒"),
  ("Leftarrow;", "⇐"), ("Leftrightarrow;", "⇔"), ("LessEqualGreater;", "⋚"), ("LessFullEqual;", "≦"),
  ("LessGreater;", "≶"), ("LessLess;", "⪡"), ("LessSlantEqual;", "⩽"), ("LessTilde;", "≲"),
  ("Lfr;", "𝔏"), ("Ll;", "⋘"), ("Lleftarrow;", "⇚"), ("Lmidot;", "Ŀ"),
  ("LongLeftArrow;", "⟵"), ("LongLeftRightArrow;", "⟷"), ("LongRightArrow;", "⟶"), ("Longleftarrow;", "⟸"),
  ("Longleftrightarrow;", "⟺"), ("Longrightarrow;", "⟹"), ("Lopf;", "𝕃"), ("LowerLeftArrow;", "↙"),
  ("LowerRightArrow;", "↘"), ("Lscr;", "ℒ"), ("Lsh;", "↰"), ("Lstrok;", "Ł"),
  ("Lt;", "≪"), ("Map;", "⤅"), ("Mcy;", "М"), ("MediumSpace;", " "),
  ("Mellintrf;", "ℳ"), ("Mfr;", "𝔐"), ("MinusPlus;", "∓"), ("Mopf;", "𝕄"),
  ("Mscr;", "ℳ"), ("Mu;", "Μ"), ("NJcy;", "Њ"), ("Nacute;", "Ń"),
  ("Ncaron;", "Ň"), ("Ncedil;", "Ņ"), ("Ncy;", "Н"), ("NegativeMediumSpace;", "​"),
  ("NegativeThickSpace;", "​"), ("NegativeThinSpace;", "​"), ("NegativeVeryThinSpace;", "​"), ("NestedGreaterGreater;", "≫"),
  ("NestedLessLess;", "≪"), ("NewLine;", "\x0a"), ("Nfr;", "𝔑"), ("NoBreak;", "⁠"),
  ("NonBreakingSpace;", " "), ("Nopf;", "ℕ"), ("Not;", "⫬"), ("NotCongruent;", "≢"),
  ("NotCupCap;", "≭"), ("NotDoubleVerticalBar;", "∦"), ("NotElement;", "∉"), ("NotEqual;", "≠"),
  ("NotEqualTilde;", "≂̸"), ("NotExists;", "∄"), ("NotGreater;", "≯"), ("NotGreaterEqual;", "≱"),
  ("NotGreaterFullEqual;", "≧̸"), ("NotGreaterGreater;", "≫̸"), ("NotGreaterLess;", "≹"), ("NotGreaterSlantEqual;", "⩾̸"),
  ("NotGreaterTilde;", "≵"), ("NotHumpDownHump;", "≎̸"), ("NotHumpEqual;", "≏̸"), ("NotLeftTriangle;", "⋪"),
  ("NotLeftTriangleBar;", "⧏̸"), ("NotLeftTriangleEqual;", "⋬"), ("NotLess;", "≮"), ("NotLessEqual;", "≰"),
  ("NotLessGreater;", "≸"), ("NotLessLess;", "≪̸"), ("NotLessSlantEqual;", "⩽̸"), ("NotLessTilde;", "≴"),
  ("NotNestedGreaterGreater;", "⪢̸"), ("NotNestedLessLess;", "⪡̸"), ("NotPrecedes;", "⊀"), ("NotPrecedesEqual;", "⪯̸"),
  ("NotPrecedesSlantEqual;", "⋠"), ("NotReverseElement;", "∌"), ("NotRightTriangle;", "⋫"), ("NotRightTriangleBar;", "⧐̸"),
  ("NotRightTriangleEqual;", "⋭"), ("NotSquareSubset;", "⊏̸"), ("NotSquareSubsetEqual;", "⋢"), ("NotSquareSuperset;", "⊐̸"),
  ("NotSquareSupersetEqual;", "⋣"), ("NotSubset;", "⊂⃒"), ("NotSubsetEqual;", "⊈"), ("NotSucceeds;", "⊁"),
  ("NotSucceedsEqual;", "⪰̸"), ("NotSucceedsSlantEqual;", "⋡"), ("NotSucceedsTilde;", "≿̸"), ("NotSuperset;", "⊃⃒"),
  ("NotSupersetEqual;", "⊉"), ("NotTilde;", "≁"), ("NotTildeEqual;", "≄"), ("NotTildeFullEqual;", "≇"),
  ("NotTildeTilde;", "≉"), ("NotVerticalBar;", "∤"), ("Nscr;", "𝒩"), ("Ntilde", "Ñ"),
  ("Ntilde;", "Ñ"), ("Nu;", "Ν"), ("OElig;", "Œ"), ("Oacute", "Ó"),
  ("Oacute;", "Ó"), ("Ocirc", "Ô"), ("Ocirc;", "Ô"), ("Ocy;", "О"),
  ("Odblac;", "Ő"), ("Ofr;", "𝔒"), ("Ograve", "Ò"), ("Ograve;", "Ò"),
  ("Omacr;", "Ō"), ("Omega;", "Ω"), ("Omicron;", "Ο"), ("Oopf;", "𝕆"),
  ("OpenCurlyDoubleQuote;", "“"), ("OpenCurlyQuote;", "‘"), ("Or;", "⩔"), ("Oscr;", "𝒪"),
  ("Oslash", "Ø"), ("Oslash;", "Ø"), ("Otilde", "Õ"), ("Otilde;", "Õ"),
  ("Otimes;", "⨷"), ("Ouml", "Ö"), ("Ouml;", "Ö"), ("OverBar;", "‾"),
  ("OverBrace;", "⏞"), ("OverBracket;", "⎴"), ("OverParenthesis;", "⏜"), ("PartialD;", "∂"),
  ("Pcy;", "П"), ("Pfr;", "𝔓"), ("Phi;", "Φ"), ("Pi;", "Π"),
  ("PlusMinus;", "±"), ("Poincareplane;", "ℌ"), ("Popf;", "ℙ"), ("Pr;", "⪻"),
  ("Precedes;", "≺"), ("PrecedesEqual;", "⪯"), ("PrecedesSlantEqual;", "≼"), ("PrecedesTilde;", "≾"),
  ("Prime;", "″"), ("Product;", "∏"), ("Proportion;", "∷"), ("Proportional;", "∝"),
  ("Pscr;", "𝒫"), ("Psi;", "Ψ"), ("QUOT", "\""), ("QUOT;", "\""),
  ("Qfr;", "𝔔"), ("Qopf;", "ℚ"), ("Qscr;", "𝒬"), ("RBarr;", "⤐"),
  ("REG", "®"), ("REG;", "®"), ("Racute;", "Ŕ"), ("Rang;", "⟫"),
  ("Rarr;", "↠"), ("Rarrtl;", "⤖"), ("Rcaron;", "Ř"), ("Rcedil;", "Ŗ"),
  ("Rcy;", "Р"), ("Re;", "ℜ"), ("ReverseElement;", "∋"), ("ReverseEquilibrium;", "⇋"),
  ("ReverseUpEquilibrium;", "⥯"), ("Rfr;", "ℜ"), ("Rho;", "Ρ"), ("RightAngleBracket;", "⟩"),
  ("RightArrow;", "→"), ("RightArrowBar;", "⇥"), ("RightArrowLeftArrow;", "⇄"), ("RightCeiling;", "⌉"),
  ("RightDoubleBracket;", "⟧"), ("RightDownTeeVector;", "⥝"), ("RightDownVector;", "⇂"), ("RightDownVectorBar;", "⥕"),
  ("RightFloor;", "⌋"), ("RightTee;", "⊢"), ("RightTeeArrow;", "↦"), ("RightTeeVector;", "⥛"),
  ("RightTriangle;", "⊳"), ("RightTriangleBar;", "⧐"), ("RightTriangleEqual;", "⊵"), ("RightUpDownVector;", "⥏"),
  ("RightUpTeeVector;", "⥜"), ("RightUpVector;", "↾"), ("RightUpVectorBar;", "⥔"), ("RightVector;", "⇀"),
  ("RightVectorBar;", "⥓"), ("Rightarrow;", "⇒"), ("Ropf;", "ℝ"), ("RoundImplies;", "⥰"),
  ("Rrightarrow;", "⇛"), ("Rscr;", "ℛ"), ("Rsh;", "↱"), ("RuleDelayed;", "⧴"),
  ("SHCHcy;", "Щ"), ("SHcy;", "Ш"), ("SOFTcy;", "Ь"), ("Sacute;", "Ś"),
  ("Sc;", "⪼"), ("Scaron;", "Š"), ("Scedil;", "Ş"), ("Scirc;", "Ŝ"),
  ("Scy;", "С"), ("Sfr;", "𝔖"), ("ShortDownArrow;", "↓"), ("ShortLeftArrow;", "←"),
  ("ShortRightArrow;", "→"), ("ShortUpArrow;", "↑"), ("Sigma;", "Σ"), ("SmallCircle;", "∘"),
  ("Sopf;", "𝕊"), ("Sqrt;", "√"), ("Square;", "□"), ("SquareIntersection;", "⊓"),
  ("SquareSubset;", "⊏"), ("SquareSubsetEqual;", "⊑"), ("SquareSuperset;", "⊐"), ("SquareSupersetEqual;", "⊒"),
  ("SquareUnion;", "⊔"), ("Sscr;", "𝒮"), ("Star;", "⋆"), ("Sub;", "⋐"),
  ("Subset;", "⋐"), ("SubsetEqual;", "⊆"), ("Succeeds;", "≻"), ("SucceedsEqual;", "⪰"),
  ("SucceedsSlantEqual;", "≽"), ("SucceedsTilde;", "≿"), ("SuchThat;", "∋"), ("Sum;", "∑"),
  ("Sup;", "⋑"), ("Superset;", "⊃"), ("SupersetEqual;", "⊇"), ("Supset;", "⋑"),
  ("THORN", "Þ"), ("THORN;", "Þ"), ("TRADE;", "™"), ("TSHcy;", "Ћ"),
  ("TScy;", "Ц"), ("Tab;", "\x09"), ("Tau;", "Τ"), ("Tcaron;", "Ť"),
  ("Tcedil;", "Ţ"), ("Tcy;", "Т"), ("Tfr;", "𝔗"), ("Therefore;", "∴"),
  ("Theta;", "Θ"), ("ThickSpace;", "  "), ("ThinSpace;", " "), ("Tilde;", "∼"),
  ("TildeEqual;", "≃"), ("TildeFullEqual;", "≅"), ("TildeTilde;", "≈"), ("Topf;", "𝕋"),
  ("TripleDot;", "⃛"), ("Tscr;", "𝒯"), ("Tstrok;", "Ŧ"), ("Uacute", "Ú"),
  ("Uacute;", "Ú"), ("Uarr;", "↟"), ("Uarrocir;", "⥉"), ("Ubrcy;", "Ў"),
  ("Ubreve;", "Ŭ"), ("Ucirc", "Û"), ("Ucirc;", "Û"), ("Ucy;", "У"),
  ("Udblac;", "Ű"), ("Ufr;", "𝔘"), ("Ugrave", "Ù"), ("Ugrave;", "Ù"),
  ("Umacr;", "Ū"), ("UnderBar;", "_"), ("UnderBrace;", "⏟"), ("UnderBracket;", "⎵"),
  ("UnderParenthesis;", "⏝"), ("Union;", "⋃"), ("UnionPlus;", "⊎"), ("Uogon;", "Ų"),
  ("Uopf;", "𝕌"), ("UpArrow;", "↑"), ("UpArrowBar;", "⤒"), ("UpArrowDownArrow;", "⇅"),
  ("UpDownArrow;", "↕"), ("UpEquilibrium;", "⥮"), ("UpTee;", "⊥"), ("UpTeeArrow;", "↥"),
  ("Uparrow;", "⇑"), ("Updownarrow;", "⇕"), ("UpperLeftArrow;", "↖"), ("UpperRightArrow;", "↗"),
  ("Upsi;", "ϒ"), ("Upsilon;", "Υ"), ("Uring;", "Ů"), ("Uscr;", "𝒰"),
  ("Utilde;", "Ũ"), ("Uuml", "Ü"), ("Uuml;", "Ü"), ("VDash;", "⊫"),
  ("Vbar;", "⫫"), ("Vcy;", "В"), ("Vdash;", "⊩"), ("Vdashl;", "⫦"),
  ("Vee;", "⋁"), ("Verbar;", "‖"), ("Vert;", "‖"), ("VerticalBar;", "∣"),
  ("VerticalLine;", "|"), ("VerticalSeparator;", "❘"), ("VerticalTilde;", "≀"), ("VeryThinSpace;", " "),
  ("Vfr;", "𝔙"), ("Vopf;", "𝕍"), ("Vscr;", "𝒱"), ("Vvdash;", "⊪"),
  ("Wcirc;", "Ŵ"), ("Wedge;", "⋀"), ("Wfr;", "𝔚"), ("Wopf;", "𝕎"),
  ("Wscr;", "𝒲"), ("Xfr;", "𝔛"), ("Xi;", "Ξ"), ("Xopf;", "𝕏"),
  ("Xscr;", "𝒳"), ("YAcy;", "Я"), ("YIcy;", "Ї"), ("YUcy;", "Ю"),
  ("Yacute", "Ý"), ("Yacute;", "Ý"), ("Ycirc;", "Ŷ"), ("Ycy;", "Ы"),
  ("Yfr;", "𝔜"), ("Yopf;", "𝕐"), ("Yscr;", "𝒴"), ("Yuml;", "Ÿ"),
  ("ZHcy;", "Ж"), ("Zacute;", "Ź"), ("Zcaron;", "Ž"), ("Zcy;", "З"),
  ("Zdot;", "Ż"), ("ZeroWidthSpace;", "​"), ("Zeta;", "Ζ"), ("Zfr;", "ℨ"),
  ("Zopf;", "ℤ"), ("Zscr;", "𝒵"), ("aacute", "á"), ("aacute;", "á"),
  ("abreve;", "ă"), ("ac;", "∾"), ("acE;", "∾̳"), ("acd;", "∿"),
  ("acirc", "â"), ("acirc;", "â"), ("acute", "´"), ("acute;", "´"),
  ("acy;", "а"), ("aelig", "æ"), ("aelig;", "æ"), ("af;", "⁡"),
  ("afr;", "𝔞"), ("agrave", "à"), ("agrave;", "à"), ("alefsym;", "ℵ"),
  ("aleph;", "ℵ"), ("alpha;", "α"), ("amacr;", "ā"), ("amalg;", "⨿"),
  ("and;", "∧"), ("andand;", "⩕"), ("andd;", "⩜"), ("andslope;", "⩘"),
  ("andv;", "⩚"), ("ang;", "∠"), ("ange;", "⦤"), ("angle;", "∠"),
  ("angmsd;", "∡"), ("angmsdaa;", "⦨"), ("angmsdab;", "⦩"), ("angmsdac;", "⦪"),
  ("angmsdad;", "⦫"), ("angmsdae;", "⦬"), ("angmsdaf;", "⦭"), ("angmsdag;", "⦮"),
  ("angmsdah;", "⦯"), ("angrt;", "∟"), ("angrtvb;", "⊾"), ("angrtvbd;", "⦝"),
  ("angsph;", "∢"), ("angst;", "Å"), ("angzarr;", "⍼"), ("aogon;", "ą"),
  ("aopf;", "𝕒"), ("ap;", "≈"), ("apE;", "⩰"), ("apacir;", "⩯"),
  ("ape;", "≊"), ("apid;", "≋"), ("apos;", "\x27"), ("approx;", "≈"),
  ("approxeq;", "≊"), ("aring", "å"), ("aring;", "å"), ("ascr;", "𝒶"),
  ("ast;", "*"), ("asymp;", "≈"), ("asympeq;", "≍"), ("atilde", "ã"),
  ("atilde;", "ã"), ("auml", "ä"), ("auml;", "ä"), ("awconint;", "∳"),
  ("awint;", "⨑"), ("bNot;", "⫭"), ("backcong;", "≌"), ("backepsilon;", "϶"),
  ("backprime;", "‵"), ("backsim;", "∽"), ("backsimeq;", "⋍"), ("barvee;", "⊽"),
  ("barwed;", "⌅"), ("barwedge;", "⌅"), ("bbrk;", "⎵"), ("bbrktbrk;", "⎶"),
  ("bcong;", "≌"), ("bcy;", "б"), ("bdquo;", "„"), ("becaus;", "∵"),
  ("because;", "∵"), ("bemptyv;", "⦰"), ("bepsi;", "϶"), ("bernou;", "ℬ"),
  ("beta;", "β"), ("beth;", "ℶ"), ("between;", "≬"), ("bfr;", "𝔟"),
  ("bigcap;", "⋂"), ("bigcirc;", "◯"), ("bigcup;", "⋃"), ("bigodot;", "⨀"),
  ("bigoplus;", "⨁"), ("bigotimes;", "⨂"), ("bigsqcup;", "⨆"), ("bigstar;", "★"),
  ("bigtriangledown;", "▽"), ("bigtriangleup;", "△"), ("biguplus;", "⨄"), ("bigvee;", "⋁"),
  ("bigwedge;", "⋀"), ("bkarow;", "⤍"), ("blacklozenge;", "⧫"), ("blacksquare;", "▪"),
  ("blacktriangle;", "▴"), ("blacktriangledown;", "▾"), ("blacktriangleleft;", "◂"), ("blacktriangleright;", "▸"),
  ("blank;", "␣"), ("blk12;", "▒"), ("blk14;", "░"), ("blk34;", "▓"),
  ("block;", "█"), ("bne;", "=⃥"), ("bnequiv;", "≡⃥"), ("bnot;", "⌐"),
  ("bopf;", "𝕓"), ("bot;", "⊥"), ("bottom;", "⊥"), ("bowtie;", "⋈"),
  ("boxDL;", "╗"), ("boxDR;", "╔"), ("boxDl;", "╖"), ("boxDr;", "╓"),
  ("boxH;", "═"), ("boxHD;", "╦"), ("boxHU;", "╩"), ("boxHd;", "╤"),
  ("boxHu;", "╧"), ("boxUL;", "╝"), ("boxUR;", "╚"), ("boxUl;", "╜"),
  ("boxUr;", "╙"), ("boxV;", "║"), ("boxVH;", "╬"), ("boxVL;", "╣"),
  ("boxVR;", "╠"), ("boxVh;", "╫"), ("boxVl;", "╢"), ("boxVr;", "╟"),
  ("boxbox;", "⧉"), ("boxdL;", "╕"), ("boxdR;", "╒"), ("boxdl;", "┐"),
  ("boxdr;", "┌"), ("boxh;", "─"), ("boxhD;", "╥"), ("boxhU;", "╨"),
  ("boxhd;", "┬"), ("boxhu;", "┴"), ("boxminus;", "⊟"), ("boxplus;", "⊞"),
  ("boxtimes;", "⊠"), ("boxuL;", "╛"), ("boxuR;", "╘"), ("boxul;", "┘"),
  ("boxur;", "└"), ("boxv;", "│"), ("boxvH;", "╪"), ("boxvL;", "╡"),
  ("boxvR;", "╞"), ("boxvh;", "┼"), ("boxvl;", "┤"), ("boxvr;", "├"),
  ("bprime;", "‵"), ("breve;", "˘"), ("brvbar", "¦"), ("brvbar;", "¦"),
  ("bscr;", "𝒷"), ("bsemi;", "⁏"), ("bsim;", "∽"), ("bsime;", "⋍"),
  ("bsol;", "\\"), ("bsolb;", "⧅"), ("bsolhsub;", "⟈"), ("bull;", "•"),
  ("bullet;", "•"), ("bump;", "≎"), ("bumpE;", "⪮"), ("bumpe;", "≏"),
  ("bumpeq;", "≏"), ("cacute;", "ć"), ("cap;", "∩"), ("capand;", "⩄"),
  ("capbrcup;", "⩉"), ("capcap;", "⩋"), ("capcup;", "⩇"), ("capdot;", "⩀"),
  ("caps;", "∩︀"), ("caret;", "⁁"), ("caron;", "ˇ"), ("ccaps;", "⩍"),
  ("ccaron;", "č"), ("ccedil", "ç"), ("ccedil;", "ç"), ("ccirc;", "ĉ"),
  ("ccups;", "⩌"), ("ccupssm;", "⩐"), ("cdot;", "ċ"), ("cedil", "¸"),
  ("cedil;", "¸"), ("cemptyv;", "⦲"), ("cent", "¢"), ("cent;", "¢"),
  ("centerdot;", "·"), ("cfr;", "𝔠"), ("chcy;", "ч"), ("check;", "✓"),
  ("checkmark;", "✓"), ("chi;", "χ"), ("cir;", "○"), ("cirE;", "⧃"),
  ("circ;", "ˆ"), ("circeq;", "≗"), ("circlearrowleft;", "↺"), ("circlearrowright;", "↻"),
  ("circledR;", "®"), ("circledS;", "Ⓢ"), ("circledast;", "⊛"), ("circledcirc;", "⊚"),
  ("circleddash;", "⊝"), ("cire;", "≗"), ("cirfnint;", "⨐"), ("cirmid;", "⫯"),
  ("cirscir;", "⧂"), ("clubs;", "♣"), ("clubsuit;", "♣"), ("colon;", ":"),
  ("colone;", "≔"), ("coloneq;", "≔"), ("comma;", ","), ("commat;", "@"),
  ("comp;", "∁"), ("compfn;", "∘"), ("complement;", "∁"), ("complexes;", "ℂ"),
  ("cong;", "≅"), ("congdot;", "⩭"), ("conint;", "∮"), ("copf;", "𝕔"),
  ("coprod;", "∐"), ("copy", "©"), ("copy;", "©"), ("copysr;", "℗"),
  ("crarr;", "↵"), ("cross;", "✗"), ("cscr;", "𝒸"), ("csub;", "⫏"),
  ("csube;", "⫑"), ("csup;", "⫐"), ("csupe;", "⫒"), ("ctdot;", "⋯"),
  ("cudarrl;", "⤸"), ("cudarrr;", "⤵"), ("cuepr;", "⋞"), ("cuesc;", "⋟"),
  ("cularr;", "↶"), ("cularrp;", "⤽"), ("cup;", "∪"), ("cupbrcap;", "⩈"),
  ("cupcap;", "⩆"), ("cupcup;", "⩊"), ("cupdot;", "⊍"), ("cupor;", "⩅"),
  ("cups;", "∪︀"), ("curarr;", "↷"), ("curarrm;", "⤼"), ("curlyeqprec;", "⋞"),
  ("curlyeqsucc;", "⋟"), ("curlyvee;", "⋎"), ("curlywedge;", "⋏"), ("curren", "¤"),
  ("curren;", "¤"), ("curvearrowleft;", "↶"), ("curvearrowright;", "↷"), ("cuvee;", "⋎"),
  ("cuwed;", "⋏"), ("cwconint;", "∲"), ("cwint;", "∱"), ("cylcty;", "⌭"),
  ("dArr;", "⇓"), ("dHar;", "⥥"), ("dagger;", "†"), ("daleth;", "ℸ"),
  ("darr;", "↓"), ("dash;", "‐"), ("dashv;", "⊣"), ("dbkarow;", "⤏"),
  ("dblac;", "˝"), ("dcaron;", "ď"), ("dcy;", "д"), ("dd;", "ⅆ"),
  ("ddagger;", "‡"), ("ddarr;", "⇊"), ("ddotseq;", "⩷"), ("deg", "°"),
  ("deg;", "°"), ("delta;", "δ"), ("demptyv;", "⦱"), ("dfisht;", "⥿"),
  ("dfr;", "𝔡"), ("dharl;", "⇃"), ("dharr;", "⇂"), ("diam;", "⋄"),
  ("diamond;", "⋄"), ("diamondsuit;", "♦"), ("diams;", "♦"), ("die;", "¨"),
  ("digamma;", "ϝ"), ("disin;", "⋲"), ("div;", "÷"), ("divide", "÷"),
  ("divide;", "÷"), ("divideontimes;", "⋇"), ("divonx;", "⋇"), ("djcy;", "ђ"),
  ("dlcorn;", "⌞"), ("dlcrop;", "⌍"), ("dollar;", "$"), ("dopf;", "𝕕"),
  ("dot;", "˙"), ("doteq;", "≐"), ("doteqdot;", "≑"), ("dotminus;", "∸"),
  ("dotplus;", "∔"), ("dotsquare;", "⊡"), ("doublebarwedge;", "⌆"), ("downarrow;", "↓"),
  ("downdownarrows;", "⇊"), ("downharpoonleft;", "⇃"), ("downharpoonright;", "⇂"), ("drbkarow;", "⤐"),
  ("drcorn;", "⌟"), ("drcrop;", "⌌"), ("dscr;", "𝒹"), ("dscy;", "ѕ"),
  ("dsol;", "⧶"), ("dstrok;", "đ"), ("dtdot;", "⋱"), ("dtri;", "▿"),
  ("dtrif;", "▾"), ("duarr;", "⇵"), ("duhar;", "⥯"), ("dwangle;", "⦦"),
  ("dzcy;", "џ"), ("dzigrarr;", "⟿"), ("eDDot;", "⩷"), ("eDot;", "≑"),
  ("eacute", "é"), ("eacute;", "é"), ("easter;", "⩮"), ("ecaron;", "ě"),
  ("ecir;", "≖"), ("ecirc", "ê"), ("ecirc;", "ê"), ("ecolon;", "≕"),
  ("ecy;", "э"), ("edot;", "ė"), ("ee;", "ⅇ"), ("efDot;", "≒"),
  ("efr;", "𝔢"), ("eg;", "⪚"), ("egrave", "è"), ("egrave;", "è"),
  ("egs;", "⪖"), ("egsdot;", "⪘"), ("el;", "⪙"), ("elinters;", "⏧"),
  ("ell;", "ℓ"), ("els;", "⪕"), ("elsdot;", "⪗"), ("emacr;", "ē"),
  ("empty;", "∅"), ("emptyset;", "∅"), ("emptyv;", "∅"), ("emsp13;", " "),
  ("emsp14;", " "), ("emsp;", " "), ("eng;", "ŋ"), ("ensp;", " "),
  ("eogon;", "ę"), ("eopf;", "𝕖"), ("epar;", "⋕"), ("eparsl;", "⧣"),
  ("eplus;", "⩱"), ("epsi;", "ε"), ("epsilon;", "ε"), ("epsiv;", "ϵ"),
  ("eqcirc;", "≖"), ("eqcolon;", "≕"), ("eqsim;", "≂"), ("eqslantgtr;", "⪖"),
  ("eqslantless;", "⪕"), ("equals;", "="), ("equest;", "≟"), ("equiv;", "≡"),
  ("equivDD;", "⩸"), ("eqvparsl;", "⧥"), ("erDot;", "≓"), ("erarr;", "⥱"),
  ("escr;", "ℯ"), ("esdot;", "≐"), ("esim;", "≂"), ("eta;", "η"),
  ("eth", "ð"), ("eth;", "ð"), ("euml", "ë"), ("euml;", "ë"),
  ("euro;", "€"), ("excl;", "!"), ("exist;", "∃"), ("expectation;", "ℰ"),
  ("exponentiale;", "ⅇ"), ("fallingdotseq;", "≒"), ("fcy;", "ф"), ("female;", "♀"),
  ("ffilig;", "ﬃ"), ("fflig;", "ﬀ"), ("ffllig;", "ﬄ"), ("ffr;", "𝔣"),
  ("filig;", "ﬁ"), ("fjlig;", "fj"), ("flat;", "♭"), ("fllig;", "ﬂ"),
  ("fltns;", "▱"), ("fnof;", "ƒ"), ("fopf;", "𝕗"), ("forall;", "∀"),
  ("fork;", "⋔"), ("forkv;", "⫙"), ("fpartint;", "⨍"), ("frac12", "½"),
  ("frac12;", "½"), ("frac13;", "⅓"), ("frac14", "¼"), ("frac14;", "¼"),
  ("frac15;", "⅕"), ("frac16;", "⅙"), ("frac18;", "⅛"), ("frac23;", "⅔"),
  ("frac25;", "⅖"), ("frac34", "¾"), ("frac34;", "¾"), ("frac35;", "⅗"),
  ("frac38;", "⅜"), ("frac45;", "⅘"), ("frac56;", "⅚"), ("frac58;", "⅝"),
  ("frac78;", "⅞"), ("frasl;", "⁄"), ("frown;", "⌢"), ("fscr;", "𝒻"),
  ("gE;", "≧"), ("gEl;", "⪌"), ("gacute;", "ǵ"), ("gamma;", "γ"),
  ("gammad;", "ϝ"), ("gap;", "⪆"), ("gbreve;", "ğ"), ("gcirc;", "ĝ"),
  ("gcy;", "г"), ("gdot;", "ġ"), ("ge;", "≥"), ("gel;", "⋛"),
  ("geq;", "≥"), ("geqq;", "≧"), ("geqslant;", "⩾"), ("ges;", "⩾"),
  ("gescc;", "⪩"), ("gesdot;", "⪀"), ("gesdoto;", "⪂"), ("gesdotol;", "⪄"),
  ("gesl;", "⋛︀"), ("gesles;", "⪔"), ("gfr;", "𝔤"), ("gg;", "≫"),
  ("ggg;", "⋙"), ("gimel;", "ℷ"), ("gjcy;", "ѓ"), ("gl;", "≷"),
  ("glE;", "⪒"), ("gla;", "⪥"), ("glj;", "⪤"), ("gnE;", "≩"),
  ("gnap;", "⪊"), ("gnapprox;", "⪊"), ("gne;", "⪈"), ("gneq;", "⪈"),
  ("gneqq;", "≩"), ("gnsim;", "⋧"), ("gopf;", "𝕘"), ("grave;", "`"),
  ("gscr;", "ℊ"), ("gsim;", "≳"), ("gsime;", "⪎"), ("gsiml;", "⪐"),
  ("gtcc;", "⪧"), ("gtcir;", "⩺"), ("gtdot;", "⋗"), ("gtlPar;", "⦕"),
  ("gtquest;", "⩼"), ("gtrapprox;", "⪆"), ("gtrarr;", "⥸"), ("gtrdot;", "⋗"),
  ("gtreqless;", "⋛"), ("gtreqqless;", "⪌"), ("gtrless;", "≷"), ("gtrsim;", "≳"),
  ("gvertneqq;", "≩︀"), ("gvnE;", "≩︀"), ("hArr;", "⇔"), ("hairsp;", " "),
  ("half;", "½"), ("hamilt;", "ℋ"), ("hardcy;", "ъ"), ("harr;", "↔"),
  ("harrcir;", "⥈"), ("harrw;", "↭"), ("hbar;", "ℏ"), ("hcirc;", "ĥ"),
  ("hearts;", "♥"), ("heartsuit;", "♥"), ("hellip;", "…"), ("hercon;", "⊹"),
  ("hfr;", "𝔥"), ("hksearow;", "⤥"), ("hkswarow;", "⤦"), ("hoarr;", "⇿"),
  ("homtht;", "∻"), ("hookleftarrow;", "↩"), ("hookrightarrow;", "↪"), ("hopf;", "𝕙"),
  ("horbar;", "―"), ("hscr;", "𝒽"), ("hslash;", "ℏ"), ("hstrok;", "ħ"),
  ("hybull;", "⁃"), ("hyphen;", "‐"), ("iacute", "í"), ("iacute;", "í"),
  ("ic;", "⁣"), ("icirc", "î"), ("icirc;", "î"), ("icy;", "и"),
  ("iecy;", "е"), ("iexcl", "¡"), ("iexcl;", "¡"), ("iff;", "⇔"),
  ("ifr;", "𝔦"), ("igrave", "ì"), ("igrave;", "ì"), ("ii;", "ⅈ"),
  ("iiiint;", "⨌"), ("iiint;", "∭"), ("iinfin;", "⧜"), ("iiota;", "℩"),
  ("ijlig;", "ĳ"), ("imacr;", "ī"), ("image;", "ℑ"), ("imagline;", "ℐ"),
  ("imagpart;", "ℑ"), ("imath;", "ı"), ("imof;", "⊷"), ("imped;", "Ƶ"),
  ("in;", "∈"), ("incare;", "℅"), ("infin;", "∞"), ("infintie;", "⧝"),
  ("inodot;", "ı"), ("int;", "∫"), ("intcal;", "⊺"), ("integers;", "ℤ"),
  ("intercal;", "⊺"), ("intlarhk;", "⨗"), ("intprod;", "⨼"), ("iocy;", "ё"),
  ("iogon;", "į"), ("iopf;", "𝕚"), ("iota;", "ι"), ("iprod;", "⨼"),
  ("iquest", "¿"), ("iquest;", "¿"), ("iscr;", "𝒾"), ("isin;", "∈"),
  ("isinE;", "⋹"), ("isindot;", "⋵"), ("isins;", "⋴"), ("isinsv;", "⋳"),
  ("isinv;", "∈"), ("it;", "⁢"), ("itilde;", "ĩ"), ("iukcy;", "і"),
  ("iuml", "ï"), ("iuml;", "ï"), ("jcirc;", "ĵ"), ("jcy;", "й"),
  ("jfr;", "𝔧"), ("jmath;", "ȷ"), ("jopf;", "𝕛"), ("jscr;", "𝒿"),
  ("jsercy;", "ј"), ("jukcy;", "є"), ("kappa;", "κ"), ("kappav;", "ϰ"),
  ("kcedil;", "ķ"), ("kcy;", "к"), ("kfr;", "𝔨"), ("kgreen;", "ĸ"),
  ("khcy;", "х"), ("kjcy;", "ќ"), ("kopf;", "𝕜"), ("kscr;", "𝓀"),
  ("lAarr;", "⇚"), ("lArr;", "⇐"), ("lAtail;", "⤛"), ("lBarr;", "⤎"),
  ("lE;", "≦"), ("lEg;", "⪋"), ("lHar;", "⥢"), ("lacute;", "ĺ"),
  ("laemptyv;", "⦴"), ("lagran;", "ℒ"), ("lambda;", "λ"), ("lang;", "⟨"),
  ("langd;", "⦑"), ("langle;", "⟨"), ("lap;", "⪅"), ("laquo", "«"),
  ("laquo;", "«"), ("larr;", "←"), ("larrb;", "⇤"), ("larrbfs;", "⤟"),
  ("larrfs;", "⤝"), ("larrhk;", "↩"), ("larrlp;", "↫"), ("larrpl;", "⤹"),
  ("larrsim;", "⥳"), ("larrtl;", "↢"), ("lat;", "⪫"), ("latail;", "⤙"),
  ("late;", "⪭"), ("lates;", "⪭︀"), ("lbarr;", "⤌"), ("lbbrk;", "❲"),
  ("lbrace;", "\x7b"), ("lbrack;", "["), ("lbrke;", "⦋"), ("lbrksld;", "⦏"),
  ("lbrkslu;", "⦍"), ("lcaron;", "ľ"), ("lcedil;", "ļ"), ("lceil;", "⌈"),
  ("lcub;", "\x7b"), ("lcy;", "л"), ("ldca;", "⤶"), ("ldquo;", "“"),
  ("ldquor;", "„"), ("ldrdhar;", "⥧"), ("ldrushar;", "⥋"), ("ldsh;", "↲"),
  ("le;", "≤"), ("leftarrow;", "←"), ("leftarrowtail;", "↢"), ("leftharpoondown;", "↽"),
  ("leftharpoonup;", "↼"), ("leftleftarrows;", "⇇"), ("leftrightarrow;", "↔"), ("leftrightarrows;", "⇆"),
  ("leftrightharpoons;", "⇋"), ("leftrightsquigarrow;", "↭"), ("leftthreetimes;", "⋋"), ("leg;", "⋚"),
  ("leq;", "≤"), ("leqq;", "≦"), ("leqslant;", "⩽"), ("les;", "⩽"),
  ("lescc;", "⪨"), ("lesdot;", "⩿"), ("lesdoto;", "⪁"), ("lesdotor;", "⪃"),
  ("lesg;", "⋚︀"), ("lesges;", "⪓"), ("lessapprox;", "⪅"), ("lessdot;", "⋖"),
  ("lesseqgtr;", "⋚"), ("lesseqqgtr;", "⪋"), ("lessgtr;", "≶"), ("lesssim;", "≲"),
  ("lfisht;", "⥼"), ("lfloor;", "⌊"), ("lfr;", "𝔩"), ("lg;", "≶"),
  ("lgE;", "⪑"), ("lhard;", "↽"), ("lharu;", "↼"), ("lharul;", "⥪"),
  ("lhblk;", "▄"), ("ljcy;", "љ"), ("ll;", "≪"), ("llarr;", "⇇"),
  ("llcorner;", "⌞"), ("llhard;", "⥫"), ("lltri;", "◺"), ("lmidot;", "ŀ"),
  ("lmoust;", "⎰"), ("lmoustache;", "⎰"), ("lnE;", "≨"), ("lnap;", "⪉"),
  ("lnapprox;", "⪉"), ("lne;", "⪇"), ("lneq;", "⪇"), ("lneqq;", "≨"),
  ("lnsim;", "⋦"), ("loang;", "⟬"), ("loarr;", "⇽"), ("lobrk;", "⟦"),
  ("longleftarrow;", "⟵"), ("longleftrightarrow;", "⟷"), ("longmapsto;", "⟼"), ("longrightarrow;", "⟶"),
  ("looparrowleft;", "↫"), ("looparrowright;", "↬"), ("lopar;", "⦅"), ("lopf;", "𝕝"),
  ("loplus;", "⨭"), ("lotimes;", "⨴"), ("lowast;", "∗"), ("lowbar;", "_"),
  ("loz;", "◊"), ("lozenge;", "◊"), ("lozf;", "⧫"), ("lpar;", "("),
  ("lparlt;", "⦓"), ("lrarr;", "⇆"), ("lrcorner;", "⌟"), ("lrhar;", "⇋"),
  ("lrhard;", "⥭"), ("lrm;", "‎"), ("lrtri;", "⊿"), ("lsaquo;", "‹"),
  ("lscr;", "𝓁"), ("lsh;", "↰"), ("lsim;", "≲"), ("lsime;", "⪍"),
  ("lsimg;", "⪏"), ("lsqb;", "["), ("lsquo;", "‘"), ("lsquor;", "‚"),
  ("lstrok;", "ł"), ("ltcc;", "⪦"), ("ltcir;", "⩹"), ("ltdot;", "⋖"),
  ("lthree;", "⋋"), ("ltimes;", "⋉"), ("ltlarr;", "⥶"), ("ltquest;", "⩻"),
  ("ltrPar;", "⦖"), ("ltri;", "◃"), ("ltrie;", "⊴"), ("ltrif;", "◂"),
  ("lurdshar;", "⥊"), ("luruhar;", "⥦"), ("lvertneqq;", "≨︀"), ("lvnE;", "≨︀"),
  ("mDDot;", "∺"), ("macr", "¯"), ("macr;", "¯"), ("male;", "♂"),
  ("malt;", "✠"), ("maltese;", "✠"), ("map;", "↦"), ("mapsto;", "↦"),
  ("mapstodown;", "↧"), ("mapstoleft;", "↤"), ("mapstoup;", "↥"), ("marker;", "▮"),
  ("mcomma;", "⨩"), ("mcy;", "м"), ("mdash;", "—"), ("measuredangle;", "∡"),
  ("mfr;", "𝔪"), ("mho;", "℧"), ("micro", "µ"), ("micro;", "µ"),
  ("mid;", "∣"), ("midast;", "*"), ("midcir;", "⫰"), ("middot", "·"),
  ("middot;", "·"), ("minus;", "−"), ("minusb;", "⊟"), ("minusd;", "∸"),
  ("minusdu;", "⨪"), ("mlcp;", "⫛"), ("mldr;", "…"), ("mnplus;", "∓"),
  ("models;", "⊧"), ("mopf;", "𝕞"), ("mp;", "∓"), ("mscr;", "𝓂"),
  ("mstpos;", "∾"), ("mu;", "μ"), ("multimap;", "⊸"), ("mumap;", "⊸"),
  ("nGg;", "⋙̸"), ("nGt;", "≫⃒"), ("nGtv;", "≫̸"), ("nLeftarrow;", "⇍"),
  ("nLeftrightarrow;", "⇎"), ("nLl;", "⋘̸"), ("nLt;", "≪⃒"), ("nLtv;", "≪̸"),
  ("nRightarrow;", "⇏"), ("nVDash;", "⊯"), ("nVdash;", "⊮"), ("nabla;", "∇"),
  ("nacute;", "ń"), ("nang;", "∠⃒"), ("nap;", "≉"), ("napE;", "⩰̸"),
  ("napid;", "≋̸"), ("napos;", "ŉ"), ("napprox;", "≉"), ("natur;", "♮"),
  ("natural;", "♮"), ("naturals;", "ℕ"), ("nbsp", " "), ("nbsp;", " "),
  ("nbump;", "≎̸"), ("nbumpe;", "≏̸"), ("ncap;", "⩃"), ("ncaron;", "ň"),
  ("ncedil;", "ņ"), ("ncong;", "≇"), ("ncongdot;", "⩭̸"), ("ncup;", "⩂"),
  ("ncy;", "н"), ("ndash;", "–"), ("ne;", "≠"), ("neArr;", "⇗"),
  ("nearhk;", "⤤"), ("nearr;", "↗"), ("nearrow;", "↗"), ("nedot;", "≐̸"),
  ("nequiv;", "≢"), ("nesear;", "⤨"), ("nesim;", "≂̸"), ("nexist;", "∄"),
  ("nexists;", "∄"), ("nfr;", "𝔫"), ("ngE;", "≧̸"), ("nge;", "≱"),
  ("ngeq;", "≱"), ("ngeqq;", "≧̸"), ("ngeqslant;", "⩾̸"), ("nges;", "⩾̸"),
  ("ngsim;", "≵"), ("ngt;", "≯"), ("ngtr;", "≯"), ("nhArr;", "⇎"),
  ("nharr;", "↮"), ("nhpar;", "⫲"), ("ni;", "∋"), ("nis;", "⋼"),
  ("nisd;", "⋺"), ("niv;", "∋"), ("njcy;", "њ"), ("nlArr;", "⇍"),
  ("nlE;", "≦̸"), ("nlarr;", "↚"), ("nldr;", "‥"), ("nle;", "≰"),
  ("nleftarrow;", "↚"), ("nleftrightarrow;", "↮"), ("nleq;", "≰"), ("nleqq;", "≦̸"),
  ("nleqslant;", "⩽̸"), ("nles;", "⩽̸"), ("nless;", "≮"), ("nlsim;", "≴"),
  ("nlt;", "≮"), ("nltri;", "⋪"), ("nltrie;", "⋬"), ("nmid;", "∤"),
  ("nopf;", "𝕟"), ("not", "¬"), ("not;", "¬"), ("notin;", "∉"),
  ("notinE;", "⋹̸"), ("notindot;", "⋵̸"), ("notinva;", "∉"), ("notinvb;", "⋷"),
  ("notinvc;", "⋶"), ("notni;", "∌"), ("notniva;", "∌"), ("notnivb;", "⋾"),
  ("notnivc;", "⋽"), ("npar;", "∦"), ("nparallel;", "∦"), ("nparsl;", "⫽⃥"),
  ("npart;", "∂̸"), ("npolint;", "⨔"), ("npr;", "⊀"), ("nprcue;", "⋠"),
  ("npre;", "⪯̸"), ("nprec;", "⊀"), ("npreceq;", "⪯̸"), ("nrArr;", "⇏"),
  ("nrarr;", "↛"), ("nrarrc;", "⤳̸"), ("nrarrw;", "↝̸"), ("nrightarrow;", "↛"),
  ("nrtri;", "⋫"), ("nrtrie;", "⋭"), ("nsc;", "⊁"), ("nsccue;", "⋡"),
  ("nsce;", "⪰̸"), ("nscr;", "𝓃"), ("nshortmid;", "∤"), ("nshortparallel;", "∦"),
  ("nsim;", "≁"), ("nsime;", "≄"), ("nsimeq;", "≄"), ("nsmid;", "∤"),
  ("nspar;", "∦"), ("nsqsube;", "⋢"), ("nsqsupe;", "⋣"), ("nsub;", "⊄"),
  ("nsubE;", "⫅̸"), ("nsube;", "⊈"), ("nsubset;", "⊂⃒"), ("nsubseteq;", "⊈"),
  ("nsubseteqq;", "⫅̸"), ("nsucc;", "⊁"), ("nsucceq;", "⪰̸"), ("nsup;", "⊅"),
  ("nsupE;", "⫆̸"), ("nsupe;", "⊉"), ("nsupset;", "⊃⃒"), ("nsupseteq;", "⊉"),
  ("nsupseteqq;", "⫆̸"), ("ntgl;", "≹"), ("ntilde", "ñ"), ("ntilde;", "ñ"),
  ("ntlg;", "≸"), ("ntriangleleft;", "⋪"), ("ntrianglelefteq;", "⋬"), ("ntriangleright;", "⋫"),
  ("ntrianglerighteq;", "⋭"), ("nu;", "ν"), ("num;", "#"), ("numero;", "№"),
  ("numsp;", " "), ("nvDash;", "⊭"), ("nvHarr;", "⤄"), ("nvap;", "≍⃒"),
  ("nvdash;", "⊬"), ("nvge;", "≥⃒"), ("nvgt;", ">⃒"), ("nvinfin;", "⧞"),
  ("nvlArr;", "⤂"), ("nvle;", "≤⃒"), ("nvlt;", "<⃒"), ("nvltrie;", "⊴⃒"),
  ("nvrArr;", "⤃"), ("nvrtrie;", "⊵⃒"), ("nvsim;", "∼⃒"), ("nwArr;", "⇖"),
  ("nwarhk;", "⤣"), ("nwarr;", "↖"), ("nwarrow;", "↖"), ("nwnear;", "⤧"),
  ("oS;", "Ⓢ"), ("oacute", "ó"), ("oacute;", "ó"), ("oast;", "⊛"),
  ("ocir;", "⊚"), ("ocirc", "ô"), ("ocirc;", "ô"), ("ocy;", "о"),
  ("odash;", "⊝"), ("odblac;", "ő"), ("odiv;", "⨸"), ("odot;", "⊙"),
  ("odsold;", "⦼"), ("oelig;", "œ"), ("ofcir;", "⦿"), ("ofr;", "𝔬"),
  ("ogon;", "˛"), ("ograve", "ò"), ("ograve;", "ò"), ("ogt;", "⧁"),
  ("ohbar;", "⦵"), ("ohm;", "Ω"), ("oint;", "∮"), ("olarr;", "↺"),
  ("olcir;", "⦾"), ("olcross;", "⦻"), ("oline;", "‾"), ("olt;", "⧀"),
  ("omacr;", "ō"), ("omega;", "ω"), ("omicron;", "ο"), ("omid;", "⦶"),
  ("ominus;", "⊖"), ("oopf;", "𝕠"), ("opar;", "⦷"), ("operp;", "⦹"),
  ("oplus;", "⊕"), ("or;", "∨"), ("orarr;", "↻"), ("ord;", "⩝"),
  ("order;", "ℴ"), ("orderof;", "ℴ"), ("ordf", "ª"), ("ordf;", "ª"),
  ("ordm", "º"), ("ordm;", "º"), ("origof;", "⊶"), ("oror;", "⩖"),
  ("orslope;", "⩗"), ("orv;", "⩛"), ("oscr;", "ℴ"), ("oslash", "ø"),
  ("oslash;", "ø"), ("osol;", "⊘"), ("otilde", "õ"), ("otilde;", "õ"),
  ("otimes;", "⊗"), ("otimesas;", "⨶"), ("ouml", "ö"), ("ouml;", "ö"),
  ("ovbar;", "⌽"), ("par;", "∥"), ("para", "¶"), ("para;", "¶"),
  ("parallel;", "∥"), ("parsim;", "⫳"), ("parsl;", "⫽"), ("part;", "∂"),
  ("pcy;", "п"), ("percnt;", "%"), ("period;", "."), ("permil;", "‰"),
  ("perp;", "⊥"), ("pertenk;", "‱"), ("pfr;", "𝔭"), ("phi;", "φ"),
  ("phiv;", "ϕ"), ("phmmat;", "ℳ"), ("phone;", "☎"), ("pi;", "π"),
  ("pitchfork;", "⋔"), ("piv;", "ϖ"), ("planck;", "ℏ"), ("planckh;", "ℎ"),
  ("plankv;", "ℏ"), ("plus;", "+"), ("plusacir;", "⨣"), ("plusb;", "⊞"),
  ("pluscir;", "⨢"), ("plusdo;", "∔"), ("plusdu;", "⨥"), ("pluse;", "⩲"),
  ("plusmn", "±"), ("plusmn;", "±"), ("plussim;", "⨦"), ("plustwo;", "⨧"),
  ("pm;", "±"), ("pointint;", "⨕"), ("popf;", "𝕡"), ("pound", "£"),
  ("pound;", "£"), ("pr;", "≺"), ("prE;", "⪳"), ("prap;", "⪷"),
  ("prcue;", "≼"), ("pre;", "⪯"), ("prec;", "≺"), ("precapprox;", "⪷"),
  ("preccurlyeq;", "≼"), ("preceq;", "⪯"), ("precnapprox;", "⪹"), ("precneqq;", "⪵"),
  ("precnsim;", "⋨"), ("precsim;", "≾"), ("prime;", "′"), ("primes;", "ℙ"),
  ("prnE;", "⪵"), ("prnap;", "⪹"), ("prnsim;", "⋨"), ("prod;", "∏"),
  ("profalar;", "⌮"), ("profline;", "⌒"), ("profsurf;", "⌓"), ("prop;", "∝"),
  ("propto;", "∝"), ("prsim;", "≾"), ("prurel;", "⊰"), ("pscr;", "𝓅"),
  ("psi;", "ψ"), ("puncsp;", " "), ("qfr;", "𝔮"), ("qint;", "⨌"),
  ("qopf;", "𝕢"), ("qprime;", "⁗"), ("qscr;", "𝓆"), ("quaternions;", "ℍ"),
  ("quatint;", "⨖"), ("quest;", "?"), ("questeq;", "≟"), ("rAarr;", "⇛"),
  ("rArr;", "⇒"), ("rAtail;", "⤜"), ("rBarr;", "⤏"), ("rHar;", "⥤"),
  ("race;", "∽̱"), ("racute;", "ŕ"), ("radic;", "√"), ("raemptyv;", "⦳"),
  ("rang;", "⟩"), ("rangd;", "⦒"), ("range;", "⦥"), ("rangle;", "⟩"),
  ("raquo", "»"), ("raquo;", "»"), ("rarr;", "→"), ("rarrap;", "⥵"),
  ("rarrb;", "⇥"), ("rarrbfs;", "⤠"), ("rarrc;", "⤳"), ("rarrfs;", "⤞"),
  ("rarrhk;", "↪"), ("rarrlp;", "↬"), ("rarrpl;", "⥅"), ("rarrsim;", "⥴"),
  ("rarrtl;", "↣"), ("rarrw;", "↝"), ("ratail;", "⤚"), ("ratio;", "∶"),
  ("rationals;", "ℚ"), ("rbarr;", "⤍"), ("rbbrk;", "❳"), ("rbrace;", "\x7d"),
  ("rbrack;", "]"), ("rbrke;", "⦌"), ("rbrksld;", "⦎"), ("rbrkslu;", "⦐"),
  ("rcaron;", "ř"), ("rcedil;", "ŗ"), ("rceil;", "⌉"), ("rcub;", "\x7d"),
  ("rcy;", "р"), ("rdca;", "⤷"), ("rdldhar;", "⥩"), ("rdquo;", "”"),
  ("rdquor;", "”"), ("rdsh;", "↳"), ("real;", "ℜ"), ("realine;", "ℛ"),
  ("realpart;", "ℜ"), ("reals;", "ℝ"), ("rect;", "▭"), ("reg", "®"),
  ("reg;", "®"), ("rfisht;", "⥽"), ("rfloor;", "⌋"), ("rfr;", "𝔯"),
  ("rhard;", "⇁"), ("rharu;", "⇀"), ("rharul;", "⥬"), ("rho;", "ρ"),
  ("rhov;", "ϱ"), ("rightarrow;", "→"), ("rightarrowtail;", "↣"), ("rightharpoondown;", "⇁"),
  ("rightharpoonup;", "⇀"), ("rightleftarrows;", "⇄"), ("rightleftharpoons;", "⇌"), ("rightrightarrows;", "⇉"),
  ("rightsquigarrow;", "↝"), ("rightthreetimes;", "⋌"), ("ring;", "˚"), ("risingdotseq;", "≓"),
  ("rlarr;", "⇄"), ("rlhar;", "⇌"), ("rlm;", "‏"), ("rmoust;", "⎱"),
  ("rmoustache;", "⎱"), ("rnmid;", "⫮"), ("roang;", "⟭"), ("roarr;", "⇾"),
  ("robrk;", "⟧"), ("ropar;", "⦆"), ("ropf;", "𝕣"), ("roplus;", "⨮"),
  ("rotimes;", "⨵"), ("rpar;", ")"), ("rpargt;", "⦔"), ("rppolint;", "⨒"),
  ("rrarr;", "⇉"), ("rsaquo;", "›"), ("rscr;", "𝓇"), ("rsh;", "↱"),
  ("rsqb;", "]"), ("rsquo;", "’"), ("rsquor;", "’"), ("rthree;", "⋌"),
  ("rtimes;", "⋊"), ("rtri;", "▹"), ("rtrie;", "⊵"), ("rtrif;", "▸"),
  ("rtriltri;", "⧎"), ("ruluhar;", "⥨"), ("rx;", "℞"), ("sacute;", "ś"),
  ("sbquo;", "‚"), ("sc;", "≻"), ("scE;", "⪴"), ("scap;", "⪸"),
  ("scaron;", "š"), ("sccue;", "≽"), ("sce;", "⪰"), ("scedil;", "ş"),
  ("scirc;", "ŝ"), ("scnE;", "⪶"), ("scnap;", "⪺"), ("scnsim;", "⋩"),
  ("scpolint;", "⨓"), ("scsim;", "≿"), ("scy;", "с"), ("sdot;", "⋅"),
  ("sdotb;", "⊡"), ("sdote;", "⩦"), ("seArr;", "⇘"), ("searhk;", "⤥"),
  ("searr;", "↘"), ("searrow;", "↘"), ("sect", "§"), ("sect;", "§"),
  ("semi;", ";"), ("seswar;", "⤩"), ("setminus;", "∖"), ("setmn;", "∖"),
  ("sext;", "✶"), ("sfr;", "𝔰"), ("sfrown;", "⌢"), ("sharp;", "♯"),
  ("shchcy;", "щ"), ("shcy;", "ш"), ("shortmid;", "∣"), ("shortparallel;", "∥"),
  ("shy", "­"), ("shy;", "­"), ("sigma;", "σ"), ("sigmaf;", "ς"),
  ("sigmav;", "ς"), ("sim;", "∼"), ("simdot;", "⩪"), ("sime;", "≃"),
  ("simeq;", "≃"), ("simg;", "⪞"), ("simgE;", "⪠"), ("siml;", "⪝"),
  ("simlE;", "⪟"), ("simne;", "≆"), ("simplus;", "⨤"), ("simrarr;", "⥲"),
  ("slarr;", "←"), ("smallsetminus;", "∖"), ("smashp;", "⨳"), ("smeparsl;", "⧤"),
  ("smid;", "∣"), ("smile;", "⌣"), ("smt;", "⪪"), ("smte;", "⪬"),
  ("smtes;", "⪬︀"), ("softcy;", "ь"), ("sol;", "/"), ("solb;", "⧄"),
  ("solbar;", "⌿"), ("sopf;", "𝕤"), ("spades;", "♠"), ("spadesuit;", "♠"),
  ("spar;", "∥"), ("sqcap;", "⊓"), ("sqcaps;", "⊓︀"), ("sqcup;", "⊔"),
  ("sqcups;", "⊔︀"), ("sqsub;", "⊏"), ("sqsube;", "⊑"), ("sqsubset;", "⊏"),
  ("sqsubseteq;", "⊑"), ("sqsup;", "⊐"), ("sqsupe;", "⊒"), ("sqsupset;", "⊐"),
  ("sqsupseteq;", "⊒"), ("squ;", "□"), ("square;", "□"), ("squarf;", "▪"),
  ("squf;", "▪"), ("srarr;", "→"), ("sscr;", "𝓈"), ("ssetmn;", "∖"),
  ("ssmile;", "⌣"), ("sstarf;", "⋆"), ("star;", "☆"), ("starf;", "★"),
  ("straightepsilon;", "ϵ"), ("straightphi;", "ϕ"), ("strns;", "¯"), ("sub;", "⊂"),
  ("subE;", "⫅"), ("subdot;", "⪽"), ("sube;", "⊆"), ("subedot;", "⫃"),
  ("submult;", "⫁"), ("subnE;", "⫋"), ("subne;", "⊊"), ("subplus;", "⪿"),
  ("subrarr;", "⥹"), ("subset;", "⊂"), ("subseteq;", "⊆"), ("subseteqq;", "⫅"),
  ("subsetneq;", "⊊"), ("subsetneqq;", "⫋"), ("subsim;", "⫇"), ("subsub;", "⫕"),
  ("subsup;", "⫓"), ("succ;", "≻"), ("succapprox;", "⪸"), ("succcurlyeq;", "≽"),
  ("succeq;", "⪰"), ("succnapprox;", "⪺"), ("succneqq;", "⪶"), ("succnsim;", "⋩"),
  ("succsim;", "≿"), ("sum;", "∑"), ("sung;", "♪"), ("sup1", "¹"),
  ("sup1;", "¹"), ("sup2", "²"), ("sup2;", "²"), ("sup3", "³"),
  ("sup3;", "³"), ("sup;", "⊃"), ("supE;", "⫆"), ("supdot;", "⪾"),
  ("supdsub;", "⫘"), ("supe;", "⊇"), ("supedot;", "⫄"), ("suphsol;", "⟉"),
  ("suphsub;", "⫗"), ("suplarr;", "⥻"), ("supmult;", "⫂"), ("supnE;", "⫌"),
  ("supne;", "⊋"), ("supplus;", "⫀"), ("supset;", "⊃"), ("supseteq;", "⊇"),
  ("supseteqq;", "⫆"), ("supsetneq;", "⊋"), ("supsetneqq;", "⫌"), ("supsim;", "⫈"),
  ("supsub;", "⫔"), ("supsup;", "⫖"), ("swArr;", "⇙"), ("swarhk;", "⤦"),
  ("swarr;", "↙"), ("swarrow;", "↙"), ("swnwar;", "⤪"), ("szlig", "ß"),
  ("szlig;", "ß"), ("target;", "⌖"), ("tau;", "τ"), ("tbrk;", "⎴"),
  ("tcaron;", "ť"), ("tcedil;", "ţ"), ("tcy;", "т"), ("tdot;", "⃛"),
  ("telrec;", "⌕"), ("tfr;", "𝔱"), ("there4;", "∴"), ("therefore;", "∴"),
  ("theta;", "θ"), ("thetasym;", "ϑ"), ("thetav;", "ϑ"), ("thickapprox;", "≈"),
  ("thicksim;", "∼"), ("thinsp;", " "), ("thkap;", "≈"), ("thksim;", "∼"),
  ("thorn", "þ"), ("thorn;", "þ"), ("tilde;", "˜"), ("times", "×"),
  ("times;", "×"), ("timesb;", "⊠"), ("timesbar;", "⨱"), ("timesd;", "⨰"),
  ("tint;", "∭"), ("toea;", "⤨"), ("top;", "⊤"), ("topbot;", "⌶"),
  ("topcir;", "⫱"), ("topf;", "𝕥"), ("topfork;", "⫚"), ("tosa;", "⤩"),
  ("tprime;", "‴"), ("trade;", "™"), ("triangle;", "▵"), ("triangledown;", "▿"),
  ("triangleleft;", "◃"), ("trianglelefteq;", "⊴"), ("triangleq;", "≜"), ("triangleright;", "▹"),
  ("trianglerighteq;", "⊵"), ("tridot;", "◬"), ("trie;", "≜"), ("triminus;", "⨺"),
  ("triplus;", "⨹"), ("trisb;", "⧍"), ("tritime;", "⨻"), ("trpezium;", "⏢"),
  ("tscr;", "𝓉"), ("tscy;", "ц"), ("tshcy;", "ћ"), ("tstrok;", "ŧ"),
  ("twixt;", "≬"), ("twoheadleftarrow;", "↞"), ("twoheadrightarrow;", "↠"), ("uArr;", "⇑"),
  ("uHar;", "⥣"), ("uacute", "ú"), ("uacute;", "ú"), ("uarr;", "↑"),
  ("ubrcy;", "ў"), ("ubreve;", "ŭ"), ("ucirc", "û"), ("ucirc;", "û"),
  ("ucy;", "у"), ("udarr;", "⇅"), ("udblac;", "ű"), ("udhar;", "⥮"),
  ("ufisht;", "⥾"), ("ufr;", "𝔲"), ("ugrave", "ù"), ("ugrave;", "ù"),
  ("uharl;", "↿"), ("uharr;", "↾"), ("uhblk;", "▀"), ("ulcorn;", "⌜"),
  ("ulcorner;", "⌜"), ("ulcrop;", "⌏"), ("ultri;", "◸"), ("umacr;", "ū"),
  ("uml", "¨"), ("uml;", "¨"), ("uogon;", "ų"), ("uopf;", "𝕦"),
  ("uparrow;", "↑"), ("updownarrow;", "↕"), ("upharpoonleft;", "↿"), ("upharpoonright;", "↾"),
  ("uplus;", "⊎"), ("upsi;", "υ"), ("upsih;", "ϒ"), ("upsilon;", "υ"),
  ("upuparrows;", "⇈"), ("urcorn;", "⌝"), ("urcorner;", "⌝"), ("urcrop;", "⌎"),
  ("uring;", "ů"), ("urtri;", "◹"), ("uscr;", "𝓊"), ("utdot;", "⋰"),
  ("utilde;", "ũ"), ("utri;", "▵"), ("utrif;", "▴"), ("uuarr;", "⇈"),
  ("uuml", "ü"), ("uuml;", "ü"), ("uwangle;", "⦧"), ("vArr;", "⇕"),
  ("vBar;", "⫨"), ("vBarv;", "⫩"), ("vDash;", "⊨"), ("vangrt;", "⦜"),
  ("varepsilon;", "ϵ"), ("varkappa;", "ϰ"), ("varnothing;", "∅"), ("varphi;", "ϕ"),
  ("varpi;", "ϖ"), ("varpropto;", "∝"), ("varr;", "↕"), ("varrho;", "ϱ"),
  ("varsigma;", "ς"), ("varsubsetneq;", "⊊︀"), ("varsubsetneqq;", "⫋︀"), ("varsupsetneq;", "⊋︀"),
  ("varsupsetneqq;", "⫌︀"), ("vartheta;", "ϑ"), ("vartriangleleft;", "⊲"), ("vartriangleright;", "⊳"),
  ("vcy;", "в"), ("vdash;", "⊢"), ("vee;", "∨"), ("veebar;", "⊻"),
  ("veeeq;", "≚"), ("vellip;", "⋮"), ("verbar;", "|"), ("vert;", "|"),
  ("vfr;", "𝔳"), ("vltri;", "⊲"), ("vnsub;", "⊂⃒"), ("vnsup;", "⊃⃒"),
  ("vopf;", "𝕧"), ("vprop;", "∝"), ("vrtri;", "⊳"), ("vscr;", "𝓋"),
  ("vsubnE;", "⫋︀"), ("vsubne;", "⊊︀"), ("vsupnE;", "⫌︀"), ("vsupne;", "⊋︀"),
  ("vzigzag;", "⦚"), ("wcirc;", "ŵ"), ("wedbar;", "⩟"), ("wedge;", "∧"),
  ("wedgeq;", "≙"), ("weierp;", "℘"), ("wfr;", "𝔴"), ("wopf;", "𝕨"),
  ("wp;", "℘"), ("wr;", "≀"), ("wreath;", "≀"), ("wscr;", "𝓌"),
  ("xcap;", "⋂"), ("xcirc;", "◯"), ("xcup;", "⋃"), ("xdtri;", "▽"),
  ("xfr;", "𝔵"), ("xhArr;", "⟺"), ("xharr;", "⟷"), ("xi;", "ξ"),
  ("xlArr;", "⟸"), ("xlarr;", "⟵"), ("xmap;", "⟼"), ("xnis;", "⋻"),
  ("xodot;", "⨀"), ("xopf;", "𝕩"), ("xoplus;", "⨁"), ("xotime;", "⨂"),
  ("xrArr;", "⟹"), ("xrarr;", "⟶"), ("xscr;", "𝓍"), ("xsqcup;", "⨆"),
  ("xuplus;", "⨄"), ("xutri;", "△"), ("xvee;", "⋁"), ("xwedge;", "⋀"),
  ("yacute", "ý"), ("yacute;", "ý"), ("yacy;", "я"), ("ycirc;", "ŷ"),
  ("ycy;", "ы"), ("yen", "¥"), ("yen;", "¥"), ("yfr;", "𝔶"),
  ("yicy;", "ї"), ("yopf;", "𝕪"), ("yscr;", "𝓎"), ("yucy;", "ю"),
  ("yuml", "ÿ"), ("yuml;", "ÿ"), ("zacute;", "ź"), ("zcaron;", "ž"),
  ("zcy;", "з"), ("zdot;", "ż"), ("zeetrf;", "ℨ"), ("zeta;", "ζ"),
  ("zfr;", "𝔷"), ("zhcy;", "ж"), ("zigrarr;", "⇝"), ("zopf;", "𝕫"),
  ("zscr;", "𝓏"), ("zwj;", "‍"), ("zwnj;", "‌")]

/-- `html._invalid_charrefs`: numeric character references remapped by
the HTML5 standard (mostly windows-1252 repair). -/
def invalidCharrefs : List (Nat × String) := [
  (0, "�"), (13, "\x0d"), (128, "€"), (129, "\x81"),
  (130, "‚"), (131, "ƒ"), (132, "„"), (133, "…"),
  (134, "†"), (135, "‡"), (136, "ˆ"), (137, "‰"),
  (138, "Š"), (139, "‹"), (140, "Œ"), (141, "\x8d"),
  (142, "Ž"), (143, "\x8f"), (144, "\x90"), (145, "‘"),
  (146, "’"), (147, "“"), (148, "”"), (149, "•"),
  (150, "–"), (151, "—"), (152, "˜"), (153, "™"),
  (154, "š"), (155, "›"), (156, "œ"), (157, "\x9d"),
  (158, "ž"), (159, "Ÿ")]

/-- A character the named-charref regex branch accepts:
`[^\t\n\f <&#;]`. -/
def isHtmlNameChar (c : Char) : Bool :=
  !decide (c = '\t' ∨ c = '\n' ∨ c = '\x0c' ∨ c = ' ' ∨ c = '<' ∨ c = '&' ∨ c = '#' ∨ c = ';')

/-- Greedy scan of at most 32 name characters (`{1,32}` in the regex):
the scanned prefix and the remainder. -/
def takeNameAux : Nat → List Char → List Char × List Char
  | 0, s => ([], s)
  | _ + 1, [] => ([], [])
  | n + 1, c :: rest =>
      if isHtmlNameChar c then
        let p := takeNameAux n rest
        (c :: p.1, p.2)
      else ([], c :: rest)

def html5Lookup (s : String) : Option String :=
  (html5Table.find? (fun p => p.1 == s)).map (fun p => p.2)

/-- The longest-known-prefix fallback of `_replace_charref`: try prefixes
of the group of length `x`, `x-1`, ..., `2`. -/
def prefixSearch (g : List Char) : Nat → Option (List Char × List Char)
  | 0 => none
  | x + 1 =>
      if x + 1 < 2 then none
      else
        match html5Lookup (String.mk (g.take (x + 1))) with
        | some r => some (r.toList, g.drop (x + 1))
        | none => prefixSearch g x

/-- Resolution of a named group `g` (tail is the text after the group):
the whole group, else its longest prefix of length at least 2; the
unresolved characters of the group stay in the output. -/
def namedCharref (g : List Char) (tail : List Char) : Option (List Char × List Char) :=
  match html5Lookup (String.mk g) with
  | some r => some (r.toList, tail)
  | none =>
      match prefixSearch g (g.length - 1) with
      | some (r, extra) => some (r ++ extra, tail)
      | none => none

/-- `html._invalid_codepoints` (numeric references dropped entirely). -/
def isInvalidCodepoint (n : Nat) : Bool :=
  decide ((1 ≤ n ∧ n ≤ 8) ∨ n = 11 ∨ (14 ≤ n ∧ n ≤ 31) ∨ (127 ≤ n ∧ n ≤ 159) ∨
    (64976 ≤ n ∧ n ≤ 65007) ∨
    (n ≤ 1114111 ∧ (n % 65536 = 65534 ∨ n % 65536 = 65535)))

/-- Decoding of a numeric character reference (`_replace_charref`'s `#`
branch): `_invalid_charrefs` remapping, replacement character for
surrogates and overflow, empty output for `_invalid_codepoints`, `chr`
otherwise. -/
def numCharref (n : Nat) : List Char :=
  match (invalidCharrefs.find? (fun p => p.1 == n)).map (fun p => p.2) with
  | some r => r.toList
  | none =>
      if decide ((55296 ≤ n ∧ n ≤ 57343) ∨ 1114111 < n) then ['�']
      else if isInvalidCodepoint n then []
      else [Char.ofNat n]

/-- One charref match at a position right after `&`: the replacement text
and the remainder, or `none` when the regex does not match there (or the
named group is unresolvable, which leaves the text unchanged). -/
def matchCharref : List Char → Option (List Char × List Char)
  | [] => none
  | '#' :: rest =>
      match rest with
      | [] => none
      | x :: rest2 =>
          if x = 'x' ∨ x = 'X' then
            let h := rest2.takeWhile isHexChar
            if h = [] then none
            else
              let t := rest2.dropWhile isHexChar
              some (numCharref (hexToNat h), if t.head? = some ';' then t.tail else t)
          else
            let d := rest.takeWhile isDigitChar
            if d = [] then none
            else
              let t := rest.dropWhile isDigitChar
              some (numCharref (digitsToNat d), if t.head? = some ';' then t.tail else t)
  | s =>
      let p := takeNameAux 32 s
      if p.1 = [] then none
      else if p.2.head? = some ';' then namedCharref (p.1 ++ [';']) p.2.tail
      else namedCharref p.1 p.2

/-- Scanner for `html.unescape`, with fuel; at least one unit of fuel is
spent per consumed leading character, so `s.length` fuel always
suffices.  A replacement is emitted, not rescanned (`re.sub`
semantics). -/
def unescAux : Nat → List Char → List Char
  | 0, s => s
  | _ + 1, [] => []
  | n + 1, c :: rest =>
      if c = '&' then
        match matchCharref rest with
        | some (repl, tail) => repl ++ unescAux n tail
        | none => '&' :: unescAux n rest
      else c :: unescAux n rest

def html_unescape (s : List Char) : List Char := unescAux s.length s

/-- `html.escape(s, quote=True)` as a character-wise map (CPython performs
the same five replacements via successive `str.replace` calls). -/
def escapeChar (c : Char) : List Char :=
  if c = '&' then "&amp;".toList
  else if c = '<' then "&lt;".toList
  else if c = '>' then "&gt;".toList
  else if c = '"' then "&quot;".toList
  else if c = '\'' then "&#x27;".toList
  else [c]

def html_escape (s : List Char) : List Char := (s.map escapeChar).flatten

/-! ## The protobuf messages (make87_messages) used by the program -/

structure Header where
  timestamp : Nat
  entity_path : List Char
deriving DecidableEq

inductive DigestAlgorithm
  | MD5
  | SHA256
deriving DecidableEq

inductive RTSPMethod
  | OPTIONS
  | DESCRIBE
  | SETUP
  | PLAY
  | PAUSE
  | TEARDOWN
deriving DecidableEq

structure Endpoint where
  header : Header
  protocol : List Char
  host : Option (List Char)
  port : Option Nat
  path : List Char
  query_params : List (List Char × List Char)
deriving DecidableEq

structure DigestAuth where
  header : Header
  username : List Char
  password : List Char
  algorithm : DigestAlgorithm
deriving DecidableEq

structure RTSPRequest where
  header : Header
  endpoint : Endpoint
  method : RTSPMethod
  digest_auth : DigestAuth
deriving DecidableEq

/-! ## The program's pure functions (src/app/main.py) -/

/-- `rtsp_uri_to_request_message(rtsp_uri, username, password)`.
`ts` stands for the value `Header.timestamp.GetCurrentTime()` reads;
`none` models an uncaught `ValueError` from `urlparse` or from reading
`parsed.port`. -/
def rtsp_uri_to_request_message (ts : Nat) (rtsp_uri username password : List Char) :
    Option RTSPRequest :=
  let uri := html_unescape rtsp_uri
  match urlparse uri with
  | none => none
  | some parsed =>
      match pyPort parsed with
      | none => none
      | some port =>
          let base_header : Header := ⟨ts, "/rtsp_request".toList ++ parsed.path⟩
          some ⟨base_header,
            ⟨base_header, parsed.scheme, pyHostname parsed, port, parsed.path,
              firstWins (parseQsl parsed.query)⟩,
            .PLAY, ⟨base_header, username, password, .MD5⟩⟩

/-- `parse_url(url)`: returns `(protocol, ip, port, url_suffix)`; `none`
models the `ValueError` raised by `urlparse` or by reading
`parsed.port`. -/
def parse_url (url : List Char) :
    Option (List Char × Option (List Char) × Option Nat × List Char) :=
  match urlparse url with
  | none => none
  | some parsed =>
      match pyPort parsed with
      | none => none
      | some port => some (parsed.scheme, pyHostname parsed, port, parsed.path)

/-- Rendering of `f"{parsed.hostname}"`: Python formats `None` as `"None"`. -/
def optToStr : Option (List Char) → List Char
  | some s => s
  | none => "None".toList

/-- Base-10 digit extraction with fuel (`n` units always suffice). -/
def natDigitsAux : Nat → Nat → List Char
  | 0, _ => []
  | _ + 1, 0 => []
  | fuel + 1, n + 1 =>
      natDigitsAux fuel ((n + 1) / 10) ++ [Char.ofNat (48 + (n + 1) % 10)]

/-- `str(n)` for a natural number (used for `f"{parsed.port}"`). -/
def natToDigits (n : Nat) : List Char := natDigitsAux n n

/-- `inject_rtsp_auth(uri, username, password)`.  Note `if parsed.port:`
is falsy both for `None` and for port `0`; `none` models the `ValueError`
raised by `urlparse` or by reading `parsed.port`. -/
def inject_rtsp_auth (uri username password : List Char) : Option (List Char) :=
  match urlparse uri with
  | none => none
  | some parsed =>
      match pyPort parsed with
      | none => none
      | some port =>
          let netloc_with_auth :=
            username ++ ':' :: password ++ '@' :: optToStr (pyHostname parsed)
          let netloc_with_auth :=
            match port with
            | some p =>
                if p ≠ 0 then netloc_with_auth ++ ':' :: natToDigits p
                else netloc_with_auth
            | none => netloc_with_auth
          some (urlunparse ⟨parsed.scheme, netloc_with_auth, parsed.path,
            parsed.params, parsed.query, parsed.fragment⟩)

/-! ## Model of `main`'s announcement loop

`main` fetches the profile list once, validates
`len(profiles) < max(profile_indices) + 1`, then loops forever: for each
configured index it selects `profiles[profile_index]`, asks the media
service for a stream URI, runs `parse_url(url=stream_uri)` into discarded
variables (its `ValueError` still propagates), builds an `RTSPRequest`
(another possible uncaught `ValueError`) and submits it with a 10-second
timeout, catching only `ProviderNotAvailable`; after the `for` completes,
the `else` clause sleeps one second and the next cycle starts. -/

structure Profile where
  token : List Char
deriving DecidableEq

/-- Failures of the per-profile `GetStreamUri` call (named after the spec's
error taxonomy). -/
inductive FetchError
  | deviceUnavailable
  | profileNotFound
deriving DecidableEq

/-- An uncaught exception terminating a cycle (and with it the process):
an out-of-range index, a failing fetch, or a `ValueError` raised by
`parse_url` (line 141) or `rtsp_uri_to_request_message` (line 142). -/
inductive CycleError
  | indexOutOfRange
  | fetch (e : FetchError)
  | valueError
deriving DecidableEq

inductive Event
  | requested (r : RTSPRequest)
  | timeoutLogged
  | slept
deriving DecidableEq

/-- Python list indexing `profiles[i]`: a negative index counts from the
end; out of range raises `IndexError` (modelled as `none`). -/
def pythonGet {α : Type} (l : List α) (i : Int) : Option α :=
  if i < 0 then
    if 0 ≤ (l.length : Int) + i then l[((l.length : Int) + i).toNat]? else none
  else l[i.toNat]?

/-- Python `max` on a list of ints; `main` only applies it to nonempty
lists (guaranteed by `profile_indices = [0] if not profile_indices ...`). -/
def pyMax : List Int → Int
  | [] => 0
  | x :: xs => xs.foldl max x

/-- `[0] if not profile_indices else profile_indices`. -/
def normalizeIndices (l : List Int) : List Int := if l = [] then [0] else l

/-- The negated startup-validation test: `true` means
`len(profiles) < max(profile_indices) + 1` does not hold and the loop is
entered. -/
def profileCheck (numProfiles : Nat) (indices : List Int) : Bool :=
  !decide ((numProfiles : Int) < pyMax indices + 1)

/-- One pass of the `for profile_index in profile_indices` body plus the
`for`-`else` clause.  `dev tok` models `media_service.GetStreamUri` for the
profile with token `tok`; `sub r` models
`rtsp_stream_endpoint.request(r, timeout=10.0)` — `false` stands for
`ProviderNotAvailable`, the only exception the `try` catches.  The
`GetStreamUri` call, the discarded `parse_url` call and the request
builder all sit outside the `try`, so their failures propagate and
terminate the cycle. -/
def runCycle (profiles : List Profile)
    (dev : List Char → Except FetchError (List Char))
    (sub : RTSPRequest → Bool) (ts : Nat) (username password : List Char) :
    List Int → List Event × Option CycleError
  | [] => ([Event.slept], none)
  | i :: rest =>
      match pythonGet profiles i with
      | none => ([], some CycleError.indexOutOfRange)
      | some prof =>
          match dev prof.token with
          | Except.error e => ([], some (CycleError.fetch e))
          | Except.ok stream_uri =>
              match parse_url stream_uri with
              | none => ([], some CycleError.valueError)
              | some _ =>
                  match rtsp_uri_to_request_message ts stream_uri username password with
                  | none => ([], some CycleError.valueError)
                  | some req =>
                      let evs :=
                        if sub req then [Event.requested req]
                        else [Event.requested req, Event.timeoutLogged]
                      let r := runCycle profiles dev sub ts username password rest
                      (evs ++ r.1, r.2)

inductive ProgramError
  | profileUnavailable
  | cycleError (e : CycleError)
deriving DecidableEq

/-- `n` iterations of the `while True` loop starting at cycle number `c`;
the device, the channel and the clock may behave differently per cycle. -/
def runCycles (profiles : List Profile)
    (dev : Nat → List Char → Except FetchError (List Char))
    (sub : Nat → RTSPRequest → Bool) (ts : Nat → Nat)
    (username password : List Char) (indices : List Int) :
    Nat → Nat → List (List Event) × Option CycleError
  | _, 0 => ([], none)
  | c, n + 1 =>
      match runCycle profiles (dev c) (sub c) (ts c) username password indices with
      | (evs, some e) => ([evs], some e)
      | (evs, none) =>
          let r := runCycles profiles dev sub ts username password indices (c + 1) n
          (evs :: r.1, r.2)

/-- `main` after configuration loading: the one-time `GetProfiles`
validation, then `n` cycles of the announcement loop.  Returns the
per-cycle event traces and the error that terminated the process, if
any. -/
def runProgram (profiles : List Profile) (indices0 : List Int)
    (dev : Nat → List Char → Except FetchError (List Char))
    (sub : Nat → RTSPRequest → Bool) (ts : Nat → Nat)
    (username password : List Char) (n : Nat) :
    List (List Event) × Option ProgramError :=
  let indices := normalizeIndices indices0
  if profileCheck profiles.length indices then
    let r := runCycles profiles dev sub ts username password indices 0 n
    (r.1, r.2.map ProgramError.cycleError)
  else ([], some ProgramError.profileUnavailable)

/-- Specification helper: the events a single in-bounds, fetch-succeeding,
successfully-building profile index contributes to a cycle's trace. -/
def stepEvents (profiles : List Profile)
    (dev : List Char → Except FetchError (List Char))
    (sub : RTSPRequest → Bool) (ts : Nat) (username password : List Char)
    (i : Int) : List Event :=
  match pythonGet profiles i with
  | none => []
  | some prof =>
      match dev prof.token with
      | Except.error _ => []
      | Except.ok uri =>
          match parse_url uri with
          | none => []
          | some _ =>
              match rtsp_uri_to_request_message ts uri username password with
              | none => []
              | some req =>
                  if sub req then [Event.requested req]
                  else [Event.requested req, Event.timeoutLogged]

/-- Syntactic guard on a URI string, fencing the parts of CPython's URL
pipeline the model does not cover: ASCII-only (so `_checknetloc`'s NFKC
check cannot raise and `str.lower` is ASCII), bracket-free (so the
bracketed-host validation of `_check_bracketed_host` cannot raise) and
percent-free (so `unquote`'s UTF-8 recombination of percent-escapes
cannot occur). -/
def benignUri (s : List Char) : Bool :=
  s.all (fun c => decide (c.toNat ≤ 127) && !decide (c = '[' ∨ c = ']' ∨ c = '%'))

/-- Characters of credentials `inject_rtsp_auth` may safely embed: ASCII,
no netloc delimiter (`/`, `?`, `#`), no bracket, no tab/CR/LF. -/
def injectSafe (c : Char) : Bool :=
  decide (c.toNat ≤ 127) && !isNetlocEnd c && !isUnsafeUrlByte c &&
    !decide (c = '[' ∨ c = ']')

/-! ## Helper lemmas: characters and splitting -/

theorem toNat_ofNat_of_lt {n : Nat} (h : n < 128) : (Char.ofNat n).toNat = n := by
  have hv : Nat.isValidChar n := Or.inl (by omega)
  simp only [Char.ofNat, dif_pos hv, Char.ofNatAux, Char.toNat]
  rfl

theorem asciiLower_toNat (c : Char) :
    (asciiLower c = c) ∨
      (65 ≤ c.toNat ∧ c.toNat ≤ 90 ∧ (asciiLower c).toNat = c.toNat + 32) := by
  unfold asciiLower
  by_cases h : 65 ≤ c.toNat ∧ c.toNat ≤ 90
  · right
    refine ⟨h.1, h.2, ?_⟩
    rw [if_pos h]
    exact toNat_ofNat_of_lt (by omega)
  · left; rw [if_neg h]

/-- After lower-casing, the code point is never in the upper-case range. -/
theorem asciiLower_not_upper (c : Char) :
    ¬(65 ≤ (asciiLower c).toNat ∧ (asciiLower c).toNat ≤ 90) := by
  unfold asciiLower
  by_cases hr : 65 ≤ c.toNat ∧ c.toNat ≤ 90
  · rw [if_pos hr]
    have h32 := toNat_ofNat_of_lt (n := c.toNat + 32) (by omega)
    rw [h32]
    omega
  · rw [if_neg hr]; exact hr

theorem asciiLower_idem (c : Char) : asciiLower (asciiLower c) = asciiLower c := by
  have h := asciiLower_not_upper c
  rw [asciiLower, if_neg h]

theorem map_asciiLower_idem (l : List Char) :
    (l.map asciiLower).map asciiLower = l.map asciiLower := by
  rw [List.map_map]
  exact List.map_congr_left fun c _ => asciiLower_idem c

/-- Lower-casing a character whose code point is below 65 leaves it unchanged;
in particular the URL delimiter characters are fixed points, so a character
that lower-cases onto a delimiter already was that delimiter. -/
theorem asciiLower_eq_of_toNat_lt (c b : Char) (hb : b.toNat < 91) :
    asciiLower c = b → c = b := by
  intro h
  rcases asciiLower_toNat c with h0 | ⟨h1, h2, h3⟩
  · rw [← h0, h]
  · rw [h] at h3
    omega

theorem splitFirst_eq_some {c : Char} {s a b : List Char}
    (h : splitFirst c s = some (a, b)) : s = a ++ c :: b ∧ c ∉ a := by
  induction s generalizing a b with
  | nil => simp [splitFirst] at h
  | cons x rest ih =>
    rw [splitFirst] at h
    by_cases hx : x = c
    · rw [if_pos hx] at h
      simp only [Option.some.injEq, Prod.mk.injEq] at h
      obtain ⟨rfl, rfl⟩ := h
      subst hx
      exact ⟨rfl, by simp⟩
    · rw [if_neg hx] at h
      cases hsf : splitFirst c rest with
      | none => rw [hsf] at h; simp at h
      | some p =>
        rw [hsf] at h
        simp only [Option.map_some', Option.some.injEq, Prod.mk.injEq] at h
        obtain ⟨rfl, rfl⟩ := h
        obtain ⟨hs, hnm⟩ := ih (a := p.1) (b := p.2) (by rw [hsf])
        refine ⟨by rw [List.cons_append, ← hs], ?_⟩
        intro hmem
        rcases List.mem_cons.mp hmem with h1 | h1
        · exact hx h1.symm
        · exact hnm h1

theorem splitFirst_eq_none {c : Char} {s : List Char}
    (h : splitFirst c s = none) : c ∉ s := by
  induction s with
  | nil => simp
  | cons x rest ih =>
    by_cases hx : x = c
    · subst hx; simp [splitFirst] at h
    · simp [splitFirst, hx] at h
      intro hmem
      rcases List.mem_cons.mp hmem with h1 | h1
      · exact hx h1.symm
      · exact ih h h1

theorem splitFirst_append_left {c : Char} (a t : List Char) (h : c ∉ a) :
    splitFirst c (a ++ t) = (splitFirst c t).map (fun p => (a ++ p.1, p.2)) := by
  induction a with
  | nil => simp
  | cons x rest ih =>
    have hx : x ≠ c := fun hc => h (hc ▸ List.mem_cons_self x rest)
    have hrest : c ∉ rest := fun hc => h (List.mem_cons_of_mem x hc)
    rw [List.cons_append, splitFirst, if_neg hx, ih hrest]
    cases splitFirst c t with
    | none => rfl
    | some p => simp

theorem splitFirst_cons_self (c : Char) (b : List Char) :
    splitFirst c (c :: b) = some ([], b) := by
  simp [splitFirst]

theorem splitFirst_append (c : Char) (a b : List Char) (h : c ∉ a) :
    splitFirst c (a ++ c :: b) = some (a, b) := by
  rw [splitFirst_append_left a (c :: b) h, splitFirst_cons_self]
  simp

theorem splitFirst_not_mem (c : Char) (s : List Char) (h : c ∉ s) :
    splitFirst c s = none := by
  induction s with
  | nil => rfl
  | cons x rest ih =>
    have hx : x ≠ c := fun hc => h (hc ▸ List.mem_cons_self x rest)
    have hrest : c ∉ rest := fun hc => h (List.mem_cons_of_mem x hc)
    simp [splitFirst, hx, ih hrest]

theorem splitLast_eq_some {c : Char} {s a b : List Char}
    (h : splitLast c s = some (a, b)) : s = a ++ c :: b ∧ c ∉ b := by
  unfold splitLast at h
  cases hsf : splitFirst c s.reverse with
  | none => rw [hsf] at h; simp at h
  | some p =>
    rw [hsf] at h
    simp at h
    obtain ⟨hrev, hnm⟩ := splitFirst_eq_some hsf
    constructor
    · have : s = (p.1 ++ c :: p.2).reverse := by rw [← hrev, List.reverse_reverse]
      rw [this, ← h.1, ← h.2]
      simp
    · rw [← h.2]
      simpa using hnm

theorem splitLast_eq_none {c : Char} {s : List Char}
    (h : splitLast c s = none) : c ∉ s := by
  unfold splitLast at h
  cases hsf : splitFirst c s.reverse with
  | none =>
    have := splitFirst_eq_none hsf
    simpa using this
  | some p => rw [hsf] at h; simp at h

theorem splitLast_append (c : Char) (a b : List Char) (h : c ∉ b) :
    splitLast c (a ++ c :: b) = some (a, b) := by
  unfold splitLast
  have : (a ++ c :: b).reverse = b.reverse ++ c :: a.reverse := by simp
  rw [this, splitFirst_append c _ _ (by simpa using h)]
  simp

theorem splitLast_not_mem (c : Char) (s : List Char) (h : c ∉ s) :
    splitLast c s = none := by
  unfold splitLast
  rw [splitFirst_not_mem c _ (by simpa using h)]
  rfl

/-! ## Helper lemmas: the announcement loop -/

/-- When every index is in bounds, every fetch succeeds and every fetched
URI parses and builds, the cycle never aborts and its trace is one step
per index followed by the sleep. -/
theorem runCycle_all_ok (profiles : List Profile)
    (dev : List Char → Except FetchError (List Char)) (sub : RTSPRequest → Bool)
    (ts : Nat) (username password : List Char) (indices : List Int)
    (h : ∀ j ∈ indices, ∃ prof uri pu req,
      pythonGet profiles j = some prof ∧ dev prof.token = Except.ok uri ∧
      parse_url uri = some pu ∧
      rtsp_uri_to_request_message ts uri username password = some req) :
    runCycle profiles dev sub ts username password indices =
      ((indices.map (stepEvents profiles dev sub ts username password)).flatten
          ++ [Event.slept], none) := by
  induction indices with
  | nil => simp [runCycle]
  | cons j rest ih =>
    obtain ⟨prof, uri, pu, req, hg, hd, hpu, hreq⟩ := h j (List.mem_cons_self _ _)
    have ih' := ih (fun k hk => h k (List.mem_cons_of_mem _ hk))
    simp only [runCycle, hg, hd, hpu, hreq, ih', stepEvents, List.map_cons,
      List.flatten_cons]
    simp [List.append_assoc]

/-- Iterating cycles under the hypotheses of `runCycle_all_ok` never
aborts and produces one trace per cycle. -/
theorem runCycles_all_ok (profiles : List Profile)
    (dev : Nat → List Char → Except FetchError (List Char))
    (sub : Nat → RTSPRequest → Bool) (ts : Nat → Nat)
    (username password : List Char) (indices : List Int)
    (h : ∀ c, ∀ j ∈ indices, ∃ prof uri pu req,
      pythonGet profiles j = some prof ∧ dev c prof.token = Except.ok uri ∧
      parse_url uri = some pu ∧
      rtsp_uri_to_request_message (ts c) uri username password = some req) :
    ∀ n c, (runCycles profiles dev sub ts username password indices c n).1.length = n ∧
      (runCycles profiles dev sub ts username password indices c n).2 = none := by
  intro n
  induction n with
  | zero => intro c; exact ⟨rfl, rfl⟩
  | succ m ih =>
    intro c
    have hc := runCycle_all_ok profiles (dev c) (sub c) (ts c) username password indices (h c)
    simp only [runCycles, hc]
    exact ⟨by simp [(ih (c + 1)).1], (ih (c + 1)).2⟩

/-- Evaluation of the builder when the parse and the port read succeed. -/
theorem rtsp_uri_to_request_message_eq (ts : Nat)
    (rtsp_uri username password : List Char) (P : PyUrl) (po : Option Nat)
    (hP : urlparse (html_unescape rtsp_uri) = some P)
    (hpo : pyPort P = some po) :
    rtsp_uri_to_request_message ts rtsp_uri username password =
      some ⟨⟨ts, "/rtsp_request".toList ++ P.path⟩,
        ⟨⟨ts, "/rtsp_request".toList ++ P.path⟩, P.scheme, pyHostname P, po,
          P.path, firstWins (parseQsl P.query)⟩,
        .PLAY, ⟨⟨ts, "/rtsp_request".toList ++ P.path⟩, username, password,
          .MD5⟩⟩ := by
  unfold rtsp_uri_to_request_message
  simp only [hP, hpo]

/-! ## The claims -/

/-- C1: with profile indices [0,1], a device client returning stream URIs
rtsp://cam/track1 and rtsp://cam/track2 and credentials (admin, pw), one
announcement cycle submits exactly two StreamRequest instances, with
entity_path /rtsp_request/track1 and /rtsp_request/track2 respectively,
each with method PLAY and a digest-auth sub-structure carrying username
admin. -/
theorem claim1_end_to_end_cycle :
    runCycle [⟨"t0".toList⟩, ⟨"t1".toList⟩]
        (fun tok => if tok = "t0".toList then Except.ok "rtsp://cam/track1".toList
          else Except.ok "rtsp://cam/track2".toList)
        (fun _ => true) 0 "admin".toList "pw".toList [0, 1] =
      (((rtsp_uri_to_request_message 0 "rtsp://cam/track1".toList "admin".toList
            "pw".toList).map Event.requested).toList ++
        ((rtsp_uri_to_request_message 0 "rtsp://cam/track2".toList "admin".toList
            "pw".toList).map Event.requested).toList ++ [Event.slept], none) ∧
      (runCycle [⟨"t0".toList⟩, ⟨"t1".toList⟩]
        (fun tok => if tok = "t0".toList then Except.ok "rtsp://cam/track1".toList
          else Except.ok "rtsp://cam/track2".toList)
        (fun _ => true) 0 "admin".toList "pw".toList [0, 1]).1.length = 3 ∧
      (rtsp_uri_to_request_message 0 "rtsp://cam/track1".toList "admin".toList
          "pw".toList).map (fun r => r.header.entity_path) =
        some "/rtsp_request/track1".toList ∧
      (rtsp_uri_to_request_message 0 "rtsp://cam/track2".toList "admin".toList
          "pw".toList).map (fun r => r.header.entity_path) =
        some "/rtsp_request/track2".toList ∧
      (rtsp_uri_to_request_message 0 "rtsp://cam/track1".toList "admin".toList
          "pw".toList).map (fun r => r.method) = some RTSPMethod.PLAY ∧
      (rtsp_uri_to_request_message 0 "rtsp://cam/track2".toList "admin".toList
          "pw".toList).map (fun r => r.method) = some RTSPMethod.PLAY ∧
      (rtsp_uri_to_request_message 0 "rtsp://cam/track1".toList "admin".toList
          "pw".toList).map (fun r => r.digest_auth.username) =
        some "admin".toList ∧
      (rtsp_uri_to_request_message 0 "rtsp://cam/track2".toList "admin".toList
          "pw".toList).map (fun r => r.digest_auth.username) =
        some "admin".toList := by
  refine ⟨?_, ?_, ?_, ?_, ?_, ?_, ?_, ?_⟩ <;> decide

/-- C2 counterexample: a failing per-profile stream-URI fetch is NOT
caught.  With profiles [t0, t1], indices [0, 1] and the device failing on
t0, the cycle terminates at once with the fetch error: no request is
submitted, index 1 is never attempted, and the cycle never reaches its
sleep — contradicting catch-log-continue. -/
theorem claim2_counterexample :
    runCycle [⟨"t0".toList⟩, ⟨"t1".toList⟩]
        (fun tok => if tok = "t0".toList then Except.error FetchError.deviceUnavailable
          else Except.ok "rtsp://cam/track2".toList)
        (fun _ => true) 0 "admin".toList "pw".toList [0, 1] =
      ([], some (CycleError.fetch FetchError.deviceUnavailable)) := by
  decide

/-- C2 (amended): the per-profile stream-URI fetch sits outside the `try`,
so its failure propagates: when the earlier indices fetch benign URIs that
parse and build, the cycle terminates at the failing index; the indices
before it were submitted, the indices after it are never attempted and the
cycle-ending sleep never happens. -/
theorem claim2_amended_fetch_error_aborts (profiles : List Profile)
    (dev : List Char → Except FetchError (List Char)) (sub : RTSPRequest → Bool)
    (ts : Nat) (username password : List Char)
    (pre : List Int) (i : Int) (post : List Int) (e : FetchError)
    (hpre : ∀ j ∈ pre, ∃ prof uri pu req,
      pythonGet profiles j = some prof ∧ dev prof.token = Except.ok uri ∧
      benignUri uri = true ∧ benignUri (html_unescape uri) = true ∧
      parse_url uri = some pu ∧
      rtsp_uri_to_request_message ts uri username password = some req)
    (hi : ∃ prof, pythonGet profiles i = some prof ∧
      dev prof.token = Except.error e) :
    (runCycle profiles dev sub ts username password (pre ++ i :: post)).2 =
        some (CycleError.fetch e) ∧
      (runCycle profiles dev sub ts username password (pre ++ i :: post)).1 ++
          [Event.slept] =
        (runCycle profiles dev sub ts username password pre).1 := by
  induction pre with
  | nil =>
    obtain ⟨prof, hg, hd⟩ := hi
    refine ⟨?_, ?_⟩ <;> simp [runCycle, hg, hd]
  | cons j pre' ih =>
    obtain ⟨prof, uri, pu, req, hg, hd, _, _, hpu, hreq⟩ :=
      hpre j (List.mem_cons_self j pre')
    have ih' := ih (fun k hk => hpre k (List.mem_cons_of_mem j hk))
    rw [List.cons_append]
    constructor
    · simp only [runCycle, hg, hd, hpu, hreq]
      exact ih'.1
    · simp only [runCycle, hg, hd, hpu, hreq]
      rw [List.append_assoc, ih'.2]

theorem claim2_amended_witness :
    (runCycle [⟨"t0".toList⟩, ⟨"t1".toList⟩]
        (fun tok => if tok = "t0".toList then Except.ok "rtsp://cam/track1".toList
          else Except.error FetchError.deviceUnavailable)
        (fun _ => true) 0 "admin".toList "pw".toList [0, 1]).2 =
      some (CycleError.fetch FetchError.deviceUnavailable) ∧
    (runCycle [⟨"t0".toList⟩, ⟨"t1".toList⟩]
        (fun tok => if tok = "t0".toList then Except.ok "rtsp://cam/track1".toList
          else Except.error FetchError.deviceUnavailable)
        (fun _ => true) 0 "admin".toList "pw".toList [0, 1]).1 ++ [Event.slept] =
      (runCycle [⟨"t0".toList⟩, ⟨"t1".toList⟩]
        (fun tok => if tok = "t0".toList then Except.ok "rtsp://cam/track1".toList
          else Except.error FetchError.deviceUnavailable)
        (fun _ => true) 0 "admin".toList "pw".toList [0]).1 := by
  exact claim2_amended_fetch_error_aborts [⟨"t0".toList⟩, ⟨"t1".toList⟩]
    (fun tok => if tok = "t0".toList then Except.ok "rtsp://cam/track1".toList
      else Except.error FetchError.deviceUnavailable)
    (fun _ => true) 0 "admin".toList "pw".toList [0] 1 [] FetchError.deviceUnavailable
    (by
      intro j hj
      simp only [List.mem_singleton] at hj
      subst hj
      exact ⟨⟨"t0".toList⟩, "rtsp://cam/track1".toList, _, _, rfl, rfl,
        by decide, by decide, rfl, rfl⟩)
    ⟨⟨"t1".toList⟩, rfl, rfl⟩

/-- C3: startup validation — the program fails fatally (the spec's
`ProfileUnavailable`) exactly when `len(profiles) < max(indices) + 1`,
before any announcement event; otherwise it runs the announcement cycles,
which contain no such validation (the fatal error cannot arise from a
cycle for any number of cycles). -/
theorem claim3_startup_validation (profiles : List Profile) (indices0 : List Int)
    (dev : Nat → List Char → Except FetchError (List Char))
    (sub : Nat → RTSPRequest → Bool) (ts : Nat → Nat)
    (username password : List Char) (n : Nat) :
    ((runProgram profiles indices0 dev sub ts username password n).2 =
        some ProgramError.profileUnavailable ↔
      (profiles.length : Int) < pyMax (normalizeIndices indices0) + 1) ∧
    ((profiles.length : Int) < pyMax (normalizeIndices indices0) + 1 →
      (runProgram profiles indices0 dev sub ts username password n).1 = []) ∧
    (¬(profiles.length : Int) < pyMax (normalizeIndices indices0) + 1 →
      runProgram profiles indices0 dev sub ts username password n =
        ((runCycles profiles dev sub ts username password
            (normalizeIndices indices0) 0 n).1,
          (runCycles profiles dev sub ts username password
            (normalizeIndices indices0) 0 n).2.map ProgramError.cycleError)) := by
  by_cases hc : (profiles.length : Int) < pyMax (normalizeIndices indices0) + 1
  · have hpc : profileCheck profiles.length (normalizeIndices indices0) = false := by
      unfold profileCheck
      simpa using hc
    refine ⟨?_, fun _ => ?_, fun hh => absurd hc hh⟩
    · simp only [runProgram, hpc]
      simp [hc]
    · simp only [runProgram, hpc]
      simp
  · have hpc : profileCheck profiles.length (normalizeIndices indices0) = true := by
      unfold profileCheck
      simpa using hc
    refine ⟨?_, fun hh => absurd hh hc, fun _ => ?_⟩
    · simp only [runProgram, hpc, if_true]
      constructor
      · intro h
        exfalso
        rcases hr : (runCycles profiles dev sub ts username password
            (normalizeIndices indices0) 0 n).2 with _ | e
        · rw [hr] at h; simp at h
        · rw [hr] at h; simp at h
      · intro h; exact absurd h hc
    · simp only [runProgram, hpc, if_true]

theorem claim3_witness :
    (runProgram [⟨"t0".toList⟩] [2] (fun _ _ => Except.ok "rtsp://cam/a".toList)
        (fun _ _ => true) (fun _ => 0) "u".toList "p".toList 5).1 = [] ∧
    (runProgram [⟨"t0".toList⟩] [2] (fun _ _ => Except.ok "rtsp://cam/a".toList)
        (fun _ _ => true) (fun _ => 0) "u".toList "p".toList 5).2 =
      some ProgramError.profileUnavailable := by
  have h := claim3_startup_validation [⟨"t0".toList⟩] [2]
    (fun _ _ => Except.ok "rtsp://cam/a".toList) (fun _ _ => true) (fun _ => 0)
    "u".toList "p".toList 5
  exact ⟨h.2.1 (by decide), h.1.mpr (by decide)⟩

/-- C4: when every fetch succeeds with a benign URI that parses and
builds, a submission timeout on any profile index never prevents the
remaining indices of the cycle: whatever the channel's per-request
outcomes, the cycle's trace is the concatenation of one step per
configured index (each step starting with the submitted request, a
timeout merely adding a logged event) followed by the fixed sleep, and
iterating cycles never aborts — `n` cycles yield `n` traces. -/
theorem claim4_timeout_isolation (profiles : List Profile)
    (dev : Nat → List Char → Except FetchError (List Char))
    (sub : Nat → RTSPRequest → Bool) (ts : Nat → Nat)
    (username password : List Char) (indices : List Int) (n : Nat)
    (hfetch : ∀ c, ∀ j ∈ indices, ∃ prof uri pu req,
      pythonGet profiles j = some prof ∧ dev c prof.token = Except.ok uri ∧
      benignUri uri = true ∧ benignUri (html_unescape uri) = true ∧
      parse_url uri = some pu ∧
      rtsp_uri_to_request_message (ts c) uri username password = some req) :
    (∀ c, runCycle profiles (dev c) (sub c) (ts c) username password indices =
        ((indices.map (stepEvents profiles (dev c) (sub c) (ts c) username
            password)).flatten ++ [Event.slept], none)) ∧
      (∀ c, ∀ j ∈ indices, ∃ req tail,
        stepEvents profiles (dev c) (sub c) (ts c) username password j =
          Event.requested req :: tail) ∧
      (runCycles profiles dev sub ts username password indices 0 n).1.length = n ∧
      (runCycles profiles dev sub ts username password indices 0 n).2 = none := by
  have hfetch' : ∀ c, ∀ j ∈ indices, ∃ prof uri pu req,
      pythonGet profiles j = some prof ∧ dev c prof.token = Except.ok uri ∧
      parse_url uri = some pu ∧
      rtsp_uri_to_request_message (ts c) uri username password = some req := by
    intro c j hj
    obtain ⟨prof, uri, pu, req, h1, h2, _, _, h5, h6⟩ := hfetch c j hj
    exact ⟨prof, uri, pu, req, h1, h2, h5, h6⟩
  refine ⟨fun c => runCycle_all_ok profiles (dev c) (sub c) (ts c) username password
      indices (hfetch' c), ?_, ?_, ?_⟩
  · intro c j hj
    obtain ⟨prof, uri, pu, req, hg, hd, hpu, hreq⟩ := hfetch' c j hj
    refine ⟨req, ?_⟩
    by_cases hs : sub c req
    · exact ⟨[], by simp [stepEvents, hg, hd, hpu, hreq, hs]⟩
    · exact ⟨[Event.timeoutLogged], by simp [stepEvents, hg, hd, hpu, hreq, hs]⟩
  · exact (runCycles_all_ok profiles dev sub ts username password indices hfetch' n 0).1
  · exact (runCycles_all_ok profiles dev sub ts username password indices hfetch' n 0).2

theorem claim4_witness :
    runCycle [⟨"t0".toList⟩, ⟨"t1".toList⟩] (fun _ => Except.ok "rtsp://cam/s".toList)
        (fun _ => false) 0 "u".toList "p".toList [0, 1] =
      (((rtsp_uri_to_request_message 0 "rtsp://cam/s".toList "u".toList
            "p".toList).map (fun r => [Event.requested r, Event.timeoutLogged])).getD []
          ++ ((rtsp_uri_to_request_message 0 "rtsp://cam/s".toList "u".toList
            "p".toList).map (fun r => [Event.requested r, Event.timeoutLogged])).getD []
          ++ [Event.slept], none) ∧
    (runCycles [⟨"t0".toList⟩, ⟨"t1".toList⟩] (fun _ _ => Except.ok "rtsp://cam/s".toList)
        (fun _ _ => false) (fun _ => 0) "u".toList "p".toList [0, 1] 0 3).1.length = 3 ∧
    (runCycles [⟨"t0".toList⟩, ⟨"t1".toList⟩] (fun _ _ => Except.ok "rtsp://cam/s".toList)
        (fun _ _ => false) (fun _ => 0) "u".toList "p".toList [0, 1] 0 3).2 = none := by
  have h := claim4_timeout_isolation [⟨"t0".toList⟩, ⟨"t1".toList⟩]
    (fun _ _ => Except.ok "rtsp://cam/s".toList) (fun _ _ => false) (fun _ => 0)
    "u".toList "p".toList [0, 1] 3
    (by
      intro c j hj
      simp only [List.mem_cons, List.mem_singleton] at hj
      rcases hj with hj | hj | hj
      · subst hj
        exact ⟨⟨"t0".toList⟩, "rtsp://cam/s".toList, _, _, rfl, rfl,
          by decide, by decide, rfl, rfl⟩
      · subst hj
        exact ⟨⟨"t1".toList⟩, "rtsp://cam/s".toList, _, _, rfl, rfl,
          by decide, by decide, rfl, rfl⟩
      · cases hj)
  exact ⟨(h.1 0).trans (by decide), h.2.2.1, h.2.2.2⟩

/-- C5 counterexample: the repository's URL Parser (`parse_url`) returns
no query-parameter mapping at all — its output on `?a=1&a=2` is the bare
4-tuple (scheme, host, port, path) and coincides with its output when the
query says `a=2` only, so it cannot be resolving the repeated key to the
first occurrence's value. -/
theorem claim5_counterexample :
    parse_url "rtsp://h/p?a=1&a=2".toList = parse_url "rtsp://h/p?a=2".toList ∧
      parse_url "rtsp://h/p?a=1&a=2".toList =
        some ("rtsp".toList, some "h".toList, none, "/p".toList) := by
  refine ⟨?_, ?_⟩ <;> decide

/-- C8 counterexample: a syntactically malformed URI does not produce a
`MalformedURI` failure — `parse_url` returns a degenerate parse (empty
scheme, no host, the whole input as path) and the builder happily builds
a request from it. -/
theorem claim8_counterexample :
    parse_url "http//not-a-uri".toList =
        some ([], none, none, "http//not-a-uri".toList) ∧
      (rtsp_uri_to_request_message 0 "http//not-a-uri".toList "u".toList
          "p".toList).map (fun r => r.header.entity_path) =
        some "/rtsp_requesthttp//not-a-uri".toList := by
  refine ⟨?_, ?_⟩ <;> decide

/-- C8 (amended): no `MalformedURI` error exists.  Malformed input such as
`http//not-a-uri` parses successfully into a degenerate result that the
Stream Request Builder consumes unchanged; the parser can fail, but only
with `ValueError` — from the `port` property on a non-digit or
out-of-range port, or from `urlsplit` on a netloc with an unbalanced
bracket. -/
theorem claim8_amended_value_error_only :
    parse_url "http//not-a-uri".toList =
        some ([], none, none, "http//not-a-uri".toList) ∧
      (rtsp_uri_to_request_message 0 "http//not-a-uri".toList "u".toList
          "p".toList).map (fun r => (r.endpoint.protocol, r.endpoint.host,
            r.endpoint.path, r.header.entity_path)) =
        some ([], none, "http//not-a-uri".toList,
          "/rtsp_requesthttp//not-a-uri".toList) ∧
      urlparse "rtsp://h:99999/x".toList =
        some ⟨"rtsp".toList, "h:99999".toList, "/x".toList, [], [], []⟩ ∧
      parse_url "rtsp://h:99999/x".toList = none ∧
      parse_url "rtsp://h:bad/x".toList = none ∧
      rtsp_uri_to_request_message 0 "rtsp://h:99999/x".toList "u".toList
          "p".toList = none ∧
      urlparse "rtsp://[h/x".toList = none ∧
      parse_url "rtsp://[h/x".toList = none := by
  refine ⟨?_, ?_, ?_, ?_, ?_, ?_, ?_, ?_⟩ <;> decide

/-- C9: whenever the builder returns a request, its three headers are the
same value, and the shared entity_path is the fixed prefix
`/rtsp_request` concatenated with the endpoint's path field. -/
theorem claim9_shared_header (ts : Nat) (uri username password : List Char)
    (r : RTSPRequest) (hr : rtsp_uri_to_request_message ts uri username password = some r) :
    r.endpoint.header = r.header ∧
      r.digest_auth.header = r.header ∧
      r.header.entity_path = "/rtsp_request".toList ++ r.endpoint.path := by
  simp only [rtsp_uri_to_request_message] at hr
  cases hu : urlparse (html_unescape uri) with
  | none => rw [hu] at hr; cases hr
  | some parsed =>
    rw [hu] at hr
    simp only at hr
    cases hp : pyPort parsed with
    | none => rw [hp] at hr; cases hr
    | some po =>
      rw [hp] at hr
      simp only [Option.some.injEq] at hr
      subst hr
      exact ⟨rfl, rfl, rfl⟩

theorem claim9_witness :
    (rtsp_uri_to_request_message 0 "rtsp://cam/track1".toList "u".toList
        "p".toList).elim False (fun r => r.endpoint.header = r.header ∧
      r.digest_auth.header = r.header ∧
      r.header.entity_path = "/rtsp_request".toList ++ r.endpoint.path) := by
  cases hr : rtsp_uri_to_request_message 0 "rtsp://cam/track1".toList "u".toList
      "p".toList with
  | none => exact absurd hr (by decide)
  | some r =>
    exact claim9_shared_header 0 "rtsp://cam/track1".toList "u".toList "p".toList r hr

/-- C10: startup validation only bounds the maximum index: a configuration
containing a negative index passes whenever the maximum is below the
profile count, and inside the cycle Python indexing resolves the negative
index to the `|i|`-th profile from the end of the list, in bounds whenever
`|i|` does not exceed the list length. -/
theorem claim10_negative_index (profiles : List Profile) (indices : List Int)
    (i : Int) (_hmem : i ∈ indices) (hneg : i < 0)
    (hmax : pyMax indices + 1 ≤ (profiles.length : Int))
    (habs : i.natAbs ≤ profiles.length) :
    profileCheck profiles.length indices = true ∧
      pythonGet profiles i = profiles[profiles.length - i.natAbs]? ∧
      profiles.length - i.natAbs < profiles.length := by
  refine ⟨?_, ?_, by omega⟩
  · unfold profileCheck
    simp only [Bool.not_eq_true', decide_eq_false_iff_not]
    omega
  · unfold pythonGet
    rw [if_pos hneg]
    rw [if_pos (by omega : (0:Int) ≤ (profiles.length : Int) + i)]
    have hidx : ((profiles.length : Int) + i).toNat = profiles.length - i.natAbs := by
      omega
    rw [hidx]

theorem claim10_witness :
    profileCheck 2 [-1, 0] = true ∧
      pythonGet [(⟨"a".toList⟩ : Profile), ⟨"b".toList⟩] (-1) =
        [(⟨"a".toList⟩ : Profile), ⟨"b".toList⟩][2 - (-1 : Int).natAbs]? ∧
      2 - (-1 : Int).natAbs < 2 := by
  exact claim10_negative_index [⟨"a".toList⟩, ⟨"b".toList⟩] [-1, 0] (-1)
    (by decide) (by decide) (by decide) (by decide)

/-! ## Helper lemmas: html escape and unescape -/

theorem html_escape_cons (c : Char) (rest : List Char) :
    html_escape (c :: rest) = escapeChar c ++ html_escape rest := by
  simp [html_escape]

theorem unescAux_escapeChar (m : Nat) (c : Char) (E : List Char) :
    unescAux (m + 1) (escapeChar c ++ E) = c :: unescAux m E := by
  by_cases h1 : c = '&'
  · subst h1; rfl
  · by_cases h2 : c = '<'
    · subst h2; rfl
    · by_cases h3 : c = '>'
      · subst h3; rfl
      · by_cases h4 : c = '"'
        · subst h4; rfl
        · by_cases h5 : c = '\''
          · subst h5; rfl
          · have he : escapeChar c = [c] := by
              simp [escapeChar, h1, h2, h3, h4, h5]
            rw [he]
            simp [unescAux, h1]

theorem length_le_html_escape (u : List Char) : u.length ≤ (html_escape u).length := by
  induction u with
  | nil => simp [html_escape]
  | cons c rest ih =>
    rw [html_escape_cons, List.length_append]
    simp only [List.length_cons]
    have hc : 1 ≤ (escapeChar c).length := by
      unfold escapeChar
      repeat' split
      all_goals simp
    omega

theorem unescAux_escape (u : List Char) :
    ∀ n, u.length ≤ n → unescAux n (html_escape u) = u := by
  induction u with
  | nil => intro n _; cases n <;> rfl
  | cons c rest ih =>
    intro n hn
    simp only [List.length_cons] at hn
    obtain ⟨m, rfl⟩ : ∃ m, n = m + 1 := ⟨n - 1, by omega⟩
    rw [html_escape_cons, unescAux_escapeChar, ih m (by omega)]

/-- Unescaping the escaped form always recovers the original string. -/
theorem html_unescape_escape (u : List Char) : html_unescape (html_escape u) = u :=
  unescAux_escape u (html_escape u).length (length_le_html_escape u)

/-- C6 counterexample: take the URI u = `rtsp://h/&amp;`.  Its HTML-escaped
form is `rtsp://h/&amp;amp;`, and with identical timestamps the two builds
differ: the escaped input unescapes back to `rtsp://h/&amp;` (entity_path
`/rtsp_request/&amp`, Python's `;`-params split included), while the raw
input unescapes once more to `rtsp://h/&` (entity_path `/rtsp_request/&`).
The claim's universal statement fails on URIs already containing
entities. -/
theorem claim6_counterexample :
    html_escape "rtsp://h/&amp;".toList = "rtsp://h/&amp;amp;".toList ∧
      rtsp_uri_to_request_message 0 (html_escape "rtsp://h/&amp;".toList)
          "u".toList "p".toList ≠
        rtsp_uri_to_request_message 0 "rtsp://h/&amp;".toList "u".toList "p".toList ∧
      (rtsp_uri_to_request_message 0 (html_escape "rtsp://h/&amp;".toList)
          "u".toList "p".toList).map (fun r => r.header.entity_path) =
        some "/rtsp_request/&amp".toList ∧
      (rtsp_uri_to_request_message 0 "rtsp://h/&amp;".toList "u".toList
          "p".toList).map (fun r => r.header.entity_path) =
        some "/rtsp_request/&".toList := by
  refine ⟨?_, ?_, ?_, ?_⟩ <;> decide

/-- C6 (amended): for every URI `u` that contains no HTML entities
(`html.unescape` fixes it), the escaped form and `u` itself produce
StreamRequests that are identical in all fields whenever they are built
with the same timestamp. -/
theorem claim6_amended_escape_roundtrip (ts : Nat) (u username password : List Char)
    (h : html_unescape u = u) :
    rtsp_uri_to_request_message ts (html_escape u) username password =
      rtsp_uri_to_request_message ts u username password := by
  simp only [rtsp_uri_to_request_message]
  rw [html_unescape_escape, h]

theorem claim6_amended_witness :
    html_unescape "rtsp://host/path?x=1&y=2".toList = "rtsp://host/path?x=1&y=2".toList ∧
      rtsp_uri_to_request_message 0 (html_escape "rtsp://host/path?x=1&y=2".toList)
          "u".toList "p".toList =
        rtsp_uri_to_request_message 0 "rtsp://host/path?x=1&y=2".toList
          "u".toList "p".toList :=
  ⟨by decide, claim6_amended_escape_roundtrip 0 "rtsp://host/path?x=1&y=2".toList
    "u".toList "p".toList (by decide)⟩

/-! ## Helper lemmas: query strings and the first-wins mapping -/

theorem uqAux_plain : ∀ (n : Nat) (l : List Char),
    (∀ c ∈ l, c ≠ '+' ∧ c ≠ '%') → uqAux n l = l := by
  intro n
  induction n with
  | zero => intro l _; rfl
  | succ m ih =>
    intro l hl
    cases l with
    | nil => rfl
    | cons c rest =>
      have hc := hl c (List.mem_cons_self _ _)
      simp only [uqAux]
      rw [if_neg hc.1, if_neg hc.2,
        ih rest (fun x hx => hl x (List.mem_cons_of_mem _ hx))]

theorem unquotePlus_plain (l : List Char) (h : ∀ c ∈ l, c ≠ '+' ∧ c ≠ '%') :
    unquotePlus l = l := uqAux_plain l.length l h

/-- The unescape scanner is the identity on strings in which no `&` is
followed by a matching, resolvable character reference. -/
theorem unescAux_fix : ∀ (n : Nat) (s : List Char),
    (∀ a b, s = a ++ '&' :: b → matchCharref b = none) → unescAux n s = s := by
  intro n
  induction n with
  | zero => intro s _; rfl
  | succ m ih =>
    intro s hs
    cases s with
    | nil => rfl
    | cons c rest =>
      simp only [unescAux]
      by_cases hc : c = '&'
      · subst hc
        have hm : matchCharref rest = none := hs [] rest rfl
        rw [if_pos rfl]
        simp only [hm]
        rw [ih rest (fun a b hab => hs ('&' :: a) b (by rw [hab]; rfl))]
      · rw [if_neg hc, ih rest (fun a b hab => hs (c :: a) b (by rw [hab]; rfl))]

/-- In a string with a single `&` the decomposition around an `&` is
unique. -/
theorem single_amp_decomp : ∀ (x a b y : List Char), '&' ∉ x → '&' ∉ y →
    x ++ '&' :: y = a ++ '&' :: b → a = x ∧ b = y := by
  intro x
  induction x with
  | nil =>
    intro a b y _ hy heq
    cases a with
    | nil =>
      simp only [List.nil_append, List.cons.injEq] at heq
      exact ⟨rfl, heq.2.symm⟩
    | cons c a' =>
      simp only [List.nil_append, List.cons_append, List.cons.injEq] at heq
      exact absurd (heq.2 ▸ (by simp : '&' ∈ a' ++ '&' :: b)) hy
  | cons c x' ih =>
    intro a b y hx hy heq
    cases a with
    | nil =>
      simp only [List.cons_append, List.nil_append, List.cons.injEq] at heq
      exact absurd (heq.1 ▸ List.mem_cons_self c x') hx
    | cons d a' =>
      simp only [List.cons_append, List.cons.injEq] at heq
      obtain ⟨hcd, hrest⟩ := heq
      obtain ⟨h1, h2⟩ := ih a' b y (fun hm => hx (List.mem_cons_of_mem _ hm)) hy hrest
      exact ⟨by rw [hcd, h1], h2⟩

/-- No entry of the html5 table starts with `a=`; proved by one scan of
the table. -/
theorem html5_no_ae :
    html5Table.all (fun p => !decide (p.1.toList.take 2 = ['a', '='])) = true := by
  decide

theorem html5Lookup_ae_none {g : List Char} (hg : g.take 2 = ['a', '=']) :
    html5Lookup (String.mk g) = none := by
  unfold html5Lookup
  have hfind : html5Table.find? (fun p => p.1 == String.mk g) = none := by
    rw [List.find?_eq_none]
    intro p hp hbeq
    have hpg : p.1 = String.mk g := by simpa using hbeq
    have h2 : p.1.toList.take 2 = ['a', '='] := by rw [hpg]; exact hg
    have := List.all_eq_true.mp html5_no_ae p hp
    simp only [Bool.not_eq_true', decide_eq_false_iff_not] at this
    exact this h2
  rw [hfind]
  rfl

theorem prefixSearch_ae_none {g : List Char} (hg : g.take 2 = ['a', '=']) :
    ∀ n, prefixSearch g n = none := by
  intro n
  induction n with
  | zero => rfl
  | succ x ih =>
    unfold prefixSearch
    by_cases hx : x + 1 < 2
    · rw [if_pos hx]
    · rw [if_neg hx]
      have hlk : html5Lookup (String.mk (g.take (x + 1))) = none := by
        apply html5Lookup_ae_none
        rw [List.take_take, show min 2 (x + 1) = 2 from by omega, hg]
      rw [hlk, ih]

theorem namedCharref_ae_none (g tail : List Char) (hg : g.take 2 = ['a', '=']) :
    namedCharref g tail = none := by
  unfold namedCharref
  rw [html5Lookup_ae_none hg, prefixSearch_ae_none hg]

/-- The remainder of the name scan is a subset of the input. -/
theorem takeNameAux_snd_sub : ∀ (fuel : Nat) (s : List Char) (c : Char),
    c ∈ (takeNameAux fuel s).2 → c ∈ s := by
  intro fuel
  induction fuel with
  | zero => intro s c hc; exact hc
  | succ n ih =>
    intro s c hc
    cases s with
    | nil => exact hc
    | cons x rest =>
      by_cases hx : isHtmlNameChar x = true
      · simp only [takeNameAux, if_pos hx] at hc
        exact List.mem_cons_of_mem _ (ih rest c hc)
      · simp only [takeNameAux, if_neg hx] at hc
        exact hc

theorem isAlphaNumChar_toNat {c : Char} (h : isAlphaNumChar c = true) :
    (48 ≤ c.toNat ∧ c.toNat ≤ 57) ∨ (65 ≤ c.toNat ∧ c.toNat ≤ 90) ∨
      (97 ≤ c.toNat ∧ c.toNat ≤ 122) := by
  rw [isAlphaNumChar, isAsciiAlpha, isDigitChar] at h
  simp only [Bool.or_eq_true, decide_eq_true_eq] at h
  tauto

theorem isAlphaNumChar_ne {c : Char} (h : isAlphaNumChar c = true) {b : Char}
    (hb : b.toNat < 48 ∨ (57 < b.toNat ∧ b.toNat < 65) ∨
      (90 < b.toNat ∧ b.toNat < 97) ∨ 122 < b.toNat) : c ≠ b := by
  intro hc
  subst hc
  rcases isAlphaNumChar_toNat h with h1 | h1 | h1 <;> omega

/-- At an `&` followed by `a=` and alphanumeric text the charref regex
resolves nothing: the group starts `a=`, which no entity name or name
prefix matches. -/
theorem matchCharref_ae (v : List Char) (hv : ∀ c ∈ v, isAlphaNumChar c = true) :
    matchCharref ('a' :: '=' :: v) = none := by
  have hred : matchCharref ('a' :: '=' :: v) =
      (if ('a' :: '=' :: (takeNameAux 30 v).1) = [] then none
       else if (takeNameAux 30 v).2.head? = some ';' then
         namedCharref (('a' :: '=' :: (takeNameAux 30 v).1) ++ [';'])
           (takeNameAux 30 v).2.tail
       else namedCharref ('a' :: '=' :: (takeNameAux 30 v).1)
         (takeNameAux 30 v).2) := rfl
  rw [hred, if_neg (by simp)]
  have hsnd : (takeNameAux 30 v).2.head? ≠ some ';' := by
    intro hcon
    cases hh : (takeNameAux 30 v).2 with
    | nil => rw [hh] at hcon; cases hcon
    | cons c t =>
      rw [hh] at hcon
      injection hcon with hcon
      have hcm : c ∈ v := takeNameAux_snd_sub 30 v c (by rw [hh]; simp)
      exact isAlphaNumChar_ne (hv c hcm) (by decide) hcon
  rw [if_neg hsnd]
  exact namedCharref_ae_none _ _ rfl

/-! ## Helper lemmas: query strings and the first-wins mapping -/

theorem splitOnChar_not_mem (c : Char) (l : List Char) (h : c ∉ l) :
    splitOnChar c l = [l] := by
  induction l with
  | nil => rfl
  | cons x rest ih =>
    have hx : x ≠ c := fun hc => h (hc ▸ List.mem_cons_self _ _)
    rw [splitOnChar, if_neg hx, ih (fun hm => h (List.mem_cons_of_mem _ hm))]

theorem splitOnChar_append (c : Char) (l r : List Char) (h : c ∉ l) :
    splitOnChar c (l ++ c :: r) = l :: splitOnChar c r := by
  induction l with
  | nil => simp [splitOnChar]
  | cons x rest ih =>
    have hx : x ≠ c := fun hc => h (hc ▸ List.mem_cons_self _ _)
    rw [List.cons_append, splitOnChar, if_neg hx,
      ih (fun hm => h (List.mem_cons_of_mem _ hm))]

theorem isAlphaNumChar_not_unsafe {c : Char} (h : isAlphaNumChar c = true) :
    isUnsafeUrlByte c = false := by
  rw [isUnsafeUrlByte]
  simp only [decide_eq_false_iff_not, not_or]
  refine ⟨?_, ?_, ?_⟩ <;> exact isAlphaNumChar_ne h (by decide)

/-- `urlparse` on a URI of the concrete shape `rtsp://h/p?` followed by an
arbitrary hash-free, tab/CR/LF-free query string. -/
theorem urlparse_rtsp_query (q : List Char) (hq : '#' ∉ q)
    (hsafe : ∀ c ∈ q, isUnsafeUrlByte c = false) :
    urlparse ("rtsp://h/p?".toList ++ q) =
      some ⟨"rtsp".toList, ['h'], "/p".toList, [], q, []⟩ := by
  have hsan : sanitizeUrl ("rtsp://h/p?".toList ++ q) = "rtsp://h/p?".toList ++ q := by
    unfold sanitizeUrl
    rw [show ("rtsp://h/p?".toList ++ q).dropWhile isC0ControlOrSpace =
        "rtsp://h/p?".toList ++ q from by rfl]
    rw [List.filter_eq_self]
    intro a ha
    rcases List.mem_append.mp ha with h | h
    · exact (show ∀ a ∈ "rtsp://h/p?".toList, (!isUnsafeUrlByte a) = true
        from by decide) a h
    · simp [hsafe a h]
  have hfr : splitFragment ("/p?".toList ++ q) = ("/p?".toList ++ q, []) := by
    unfold splitFragment
    rw [splitFirst_not_mem '#' _ ?hmem]
    case hmem =>
      intro hm
      rcases List.mem_append.mp hm with hm | hm
      · exact absurd hm (by decide)
      · exact hq hm
  have hqu : splitQuery ("/p?".toList ++ q) = ("/p".toList, q) := by
    unfold splitQuery
    rw [show "/p?".toList ++ q = "/p".toList ++ '?' :: q from rfl]
    simp only [splitFirst_append '?' "/p".toList q (by decide)]
  have hcore : urlparseCore ("rtsp://h/p?".toList ++ q) =
      ⟨"rtsp".toList, ['h'], "/p".toList, [], q, []⟩ := by
    show PyUrl.mk _ _
        (paramsSplit "rtsp".toList (splitQuery (splitFragment ("/p?".toList ++ q)).1).1).1
        (paramsSplit "rtsp".toList (splitQuery (splitFragment ("/p?".toList ++ q)).1).1).2
        (splitQuery (splitFragment ("/p?".toList ++ q)).1).2
        (splitFragment ("/p?".toList ++ q)).2 = _
    rw [hfr]
    show PyUrl.mk _ _ (paramsSplit "rtsp".toList (splitQuery ("/p?".toList ++ q)).1).1
        (paramsSplit "rtsp".toList (splitQuery ("/p?".toList ++ q)).1).2
        (splitQuery ("/p?".toList ++ q)).2 [] = _
    rw [hqu]
    rfl
  rw [show urlparse ("rtsp://h/p?".toList ++ q) =
      (if invalidIPv6 (splitNetloc (splitScheme
          (sanitizeUrl ("rtsp://h/p?".toList ++ q))).2).1 then none
        else some (urlparseCore (sanitizeUrl ("rtsp://h/p?".toList ++ q)))) from rfl]
  rw [hsan]
  rw [show invalidIPv6 (splitNetloc (splitScheme ("rtsp://h/p?".toList ++ q)).2).1 =
    false from rfl]
  rw [if_neg (by simp), hcore]

/-- C5 (amended): in the Stream Request Builder, for every pair of
alphanumeric values `v1` (nonempty) and `v2`, the URI
`rtsp://h/p?a=v1&a=v2` yields the query-parameter mapping `{a ↦ v1}` —
repeated keys resolve to the first occurrence's value. -/
theorem claim5_amended_first_wins_builder (ts : Nat)
    (username password v1 v2 : List Char) (hv1 : v1 ≠ [])
    (h1 : ∀ c ∈ v1, isAlphaNumChar c = true)
    (h2 : ∀ c ∈ v2, isAlphaNumChar c = true) :
    (rtsp_uri_to_request_message ts
        ("rtsp://h/p?a=".toList ++ v1 ++ '&' :: 'a' :: '=' :: v2)
        username password).map (fun r => r.endpoint.query_params) =
      some [(['a'], v1)] := by
  have hno1 : '&' ∉ v1 := fun hm => absurd (h1 '&' hm) (by decide)
  have hno2 : '&' ∉ v2 := fun hm => absurd (h2 '&' hm) (by decide)
  have hesc : html_unescape ("rtsp://h/p?a=".toList ++ v1 ++ '&' :: 'a' :: '=' :: v2) =
      "rtsp://h/p?a=".toList ++ v1 ++ '&' :: 'a' :: '=' :: v2 := by
    unfold html_unescape
    apply unescAux_fix
    intro a b hab
    have heq : ("rtsp://h/p?a=".toList ++ v1) ++ '&' :: ('a' :: '=' :: v2) =
        a ++ '&' :: b := by
      rw [List.append_assoc]
      exact hab
    have hxa : '&' ∉ "rtsp://h/p?a=".toList ++ v1 := by
      intro hm
      rcases List.mem_append.mp hm with hm | hm
      · exact absurd hm (by decide)
      · exact hno1 hm
    have hya : '&' ∉ 'a' :: '=' :: v2 := by
      intro hm
      rcases List.mem_cons.mp hm with hm | hm
      · cases hm
      rcases List.mem_cons.mp hm with hm | hm
      · cases hm
      · exact hno2 hm
    obtain ⟨_, hb⟩ := single_amp_decomp _ a b _ hxa hya heq
    rw [hb]
    exact matchCharref_ae v2 h2
  have hup : urlparse ("rtsp://h/p?a=".toList ++ v1 ++ '&' :: 'a' :: '=' :: v2) =
      some ⟨"rtsp".toList, ['h'], "/p".toList, [],
        'a' :: '=' :: (v1 ++ '&' :: 'a' :: '=' :: v2), []⟩ := by
    rw [show "rtsp://h/p?a=".toList ++ v1 ++ '&' :: 'a' :: '=' :: v2 =
        "rtsp://h/p?".toList ++ ('a' :: '=' :: (v1 ++ '&' :: 'a' :: '=' :: v2)) from by
      simp]
    apply urlparse_rtsp_query
    · intro hm
      rcases List.mem_cons.mp hm with hm | hm
      · cases hm
      rcases List.mem_cons.mp hm with hm | hm
      · cases hm
      rcases List.mem_append.mp hm with hm | hm
      · exact absurd (h1 '#' hm) (by decide)
      rcases List.mem_cons.mp hm with hm | hm
      · cases hm
      rcases List.mem_cons.mp hm with hm | hm
      · cases hm
      rcases List.mem_cons.mp hm with hm | hm
      · cases hm
      · exact absurd (h2 '#' hm) (by decide)
    · intro c hc
      rcases List.mem_cons.mp hc with hc | hc
      · rw [hc]; decide
      rcases List.mem_cons.mp hc with hc | hc
      · rw [hc]; decide
      rcases List.mem_append.mp hc with hc | hc
      · exact isAlphaNumChar_not_unsafe (h1 c hc)
      rcases List.mem_cons.mp hc with hc | hc
      · rw [hc]; decide
      rcases List.mem_cons.mp hc with hc | hc
      · rw [hc]; decide
      rcases List.mem_cons.mp hc with hc | hc
      · rw [hc]; decide
      · exact isAlphaNumChar_not_unsafe (h2 c hc)
  have hsplit : splitOnChar '&' ('a' :: '=' :: (v1 ++ '&' :: 'a' :: '=' :: v2)) =
      [('a' :: '=' :: v1), ('a' :: '=' :: v2)] := by
    rw [show 'a' :: '=' :: (v1 ++ '&' :: 'a' :: '=' :: v2) =
        ('a' :: '=' :: v1) ++ '&' :: ('a' :: '=' :: v2) from by simp]
    rw [splitOnChar_append '&' _ _ ?hl, splitOnChar_not_mem '&' _ ?hr]
    case hl =>
      intro hm
      rcases List.mem_cons.mp hm with hm | hm
      · cases hm
      rcases List.mem_cons.mp hm with hm | hm
      · cases hm
      · exact hno1 hm
    case hr =>
      intro hm
      rcases List.mem_cons.mp hm with hm | hm
      · cases hm
      rcases List.mem_cons.mp hm with hm | hm
      · cases hm
      · exact hno2 hm
  have huq1 : unquotePlus v1 = v1 :=
    unquotePlus_plain v1 (fun c hc =>
      ⟨isAlphaNumChar_ne (h1 c hc) (by decide), isAlphaNumChar_ne (h1 c hc) (by decide)⟩)
  have huq2 : unquotePlus v2 = v2 :=
    unquotePlus_plain v2 (fun c hc =>
      ⟨isAlphaNumChar_ne (h2 c hc) (by decide), isAlphaNumChar_ne (h2 c hc) (by decide)⟩)
  have hqsl : parseQsl ('a' :: '=' :: (v1 ++ '&' :: 'a' :: '=' :: v2)) =
      if v2 = [] then [(['a'], v1)] else [(['a'], v1), (['a'], v2)] := by
    unfold parseQsl
    rw [hsplit]
    simp only [List.filterMap_cons, List.filterMap_nil]
    rw [show splitFirst '=' ('a' :: '=' :: v1) = some (['a'], v1) from rfl,
      show splitFirst '=' ('a' :: '=' :: v2) = some (['a'], v2) from rfl]
    simp only [List.cons_ne_nil, if_neg, ite_false, reduceCtorEq]
    rw [if_neg hv1]
    have ha : unquotePlus ['a'] = ['a'] := rfl
    by_cases hv2 : v2 = []
    · subst hv2
      simp [huq1, ha]
    · simp [huq1, huq2, ha, hv2]
  have hport : pyPort (⟨"rtsp".toList, ['h'], "/p".toList, [],
      'a' :: '=' :: (v1 ++ '&' :: 'a' :: '=' :: v2), []⟩ : PyUrl) = some none := rfl
  have hup2 : urlparse (html_unescape
      ("rtsp://h/p?a=".toList ++ v1 ++ '&' :: 'a' :: '=' :: v2)) =
      some ⟨"rtsp".toList, ['h'], "/p".toList, [],
        'a' :: '=' :: (v1 ++ '&' :: 'a' :: '=' :: v2), []⟩ := by
    rw [hesc]
    exact hup
  rw [rtsp_uri_to_request_message_eq ts _ username password _ none hup2 hport]
  show some (firstWins (parseQsl ('a' :: '=' :: (v1 ++ '&' :: 'a' :: '=' :: v2)))) =
    some [(['a'], v1)]
  rw [hqsl]
  by_cases hv2 : v2 = []
  · rw [if_pos hv2]
    rfl
  · rw [if_neg hv2]
    rfl

theorem claim5_amended_witness :
    "1".toList ≠ ([] : List Char) ∧
      (rtsp_uri_to_request_message 0
          ("rtsp://h/p?a=".toList ++ "1".toList ++ '&' :: 'a' :: '=' :: "2".toList)
          "u".toList "p".toList).map (fun r => r.endpoint.query_params) =
        some [(['a'], "1".toList)] :=
  ⟨by decide, claim5_amended_first_wins_builder 0 "u".toList "p".toList
    "1".toList "2".toList (by decide) (by decide) (by decide)⟩

/-! ## Helper lemmas: urlparse component facts -/

theorem takeWhile_append_all {p : Char → Bool} (a t : List Char)
    (h : ∀ c ∈ a, p c = true) :
    (a ++ t).takeWhile p = a ++ t.takeWhile p := by
  induction a with
  | nil => rfl
  | cons x rest ih =>
    rw [List.cons_append, List.takeWhile_cons_of_pos (h x (List.mem_cons_self _ _)),
      ih (fun c hc => h c (List.mem_cons_of_mem _ hc)), List.cons_append]

theorem dropWhile_append_all {p : Char → Bool} (a t : List Char)
    (h : ∀ c ∈ a, p c = true) :
    (a ++ t).dropWhile p = t.dropWhile p := by
  induction a with
  | nil => rfl
  | cons x rest ih =>
    rw [List.cons_append, List.dropWhile_cons_of_pos (h x (List.mem_cons_self _ _)),
      ih (fun c hc => h c (List.mem_cons_of_mem _ hc))]

theorem dropWhile_first_false {p : Char → Bool} :
    ∀ (l : List Char) {x : Char} {xs : List Char},
      l.dropWhile p = x :: xs → p x = false := by
  intro l
  induction l with
  | nil => intro x xs h; cases h
  | cons y rest ih =>
    intro x xs h
    by_cases hy : p y
    · rw [List.dropWhile_cons_of_pos hy] at h
      exact ih h
    · rw [List.dropWhile_cons_of_neg hy] at h
      injection h with h1 _
      rw [← h1]
      simpa using hy

theorem takeWhile_all {p : Char → Bool} (a : List Char)
    (h : ∀ c ∈ a, p c = true) : a.takeWhile p = a := by
  have := takeWhile_append_all a [] h
  simpa using this

theorem urlparseCore_scheme (s : List Char) :
    (urlparseCore s).scheme = (splitScheme s).1 := rfl

theorem urlparseCore_netloc (s : List Char) :
    (urlparseCore s).netloc = (splitNetloc (splitScheme s).2).1 := rfl

theorem urlparseCore_fragment (s : List Char) :
    (urlparseCore s).fragment =
      (splitFragment (splitNetloc (splitScheme s).2).2).2 := rfl

theorem urlparseCore_query (s : List Char) :
    (urlparseCore s).query =
      (splitQuery (splitFragment (splitNetloc (splitScheme s).2).2).1).2 := rfl

theorem urlparseCore_path (s : List Char) :
    (urlparseCore s).path =
      (paramsSplit (splitScheme s).1 (splitQuery (splitFragment
        (splitNetloc (splitScheme s).2).2).1).1).1 := rfl

theorem urlparseCore_params (s : List Char) :
    (urlparseCore s).params =
      (paramsSplit (splitScheme s).1 (splitQuery (splitFragment
        (splitNetloc (splitScheme s).2).2).1).1).2 := rfl

/-- Every character of the parsed netloc is a non-delimiter. -/
theorem netloc_isNetlocEnd_false {s : List Char} {c : Char}
    (h : c ∈ (urlparseCore s).netloc) : isNetlocEnd c = false := by
  rw [urlparseCore_netloc] at h
  unfold splitNetloc at h
  by_cases ht : (splitScheme s).2.take 2 = ['/', '/']
  · rw [if_pos ht] at h
    have := List.mem_takeWhile_imp h
    simpa using this
  · rw [if_neg ht] at h
    cases h

/-- A nonempty parsed netloc means the remainder after it is empty or
starts with a delimiter. -/
theorem netloc_rest_delim {s : List Char} (hne : (urlparseCore s).netloc ≠ []) :
    (splitNetloc (splitScheme s).2).2 = [] ∨
      ∃ c t, (splitNetloc (splitScheme s).2).2 = c :: t ∧ isNetlocEnd c = true := by
  rw [urlparseCore_netloc] at hne
  unfold splitNetloc at hne ⊢
  by_cases ht : (splitScheme s).2.take 2 = ['/', '/']
  · rw [if_pos ht] at hne ⊢
    cases hd : ((splitScheme s).2.drop 2).dropWhile (fun c => !isNetlocEnd c) with
    | nil => exact Or.inl (by simp [hd])
    | cons x xs =>
      refine Or.inr ⟨x, xs, by simp [hd], ?_⟩
      have := dropWhile_first_false _ hd
      simpa using this
  · rw [if_neg ht] at hne
    exact absurd rfl hne

theorem splitFragment_fst_no_hash (s : List Char) : '#' ∉ (splitFragment s).1 := by
  unfold splitFragment
  cases hsf : splitFirst '#' s with
  | none => exact splitFirst_eq_none hsf
  | some p => exact (splitFirst_eq_some (a := p.1) (b := p.2) (by rw [hsf])).2

theorem splitFragment_mem_fst {s : List Char} {c : Char}
    (h : c ∈ (splitFragment s).1) : c ∈ s := by
  unfold splitFragment at h
  cases hsf : splitFirst '#' s with
  | none => rw [hsf] at h; exact h
  | some p =>
    rw [hsf] at h
    have := (splitFirst_eq_some (a := p.1) (b := p.2) (by rw [hsf])).1
    rw [this]
    simp only [List.mem_append]
    exact Or.inl h

theorem splitFragment_mem_snd {s : List Char} {c : Char}
    (h : c ∈ (splitFragment s).2) : c ∈ s := by
  unfold splitFragment at h
  cases hsf : splitFirst '#' s with
  | none => rw [hsf] at h; cases h
  | some p =>
    rw [hsf] at h
    have := (splitFirst_eq_some (a := p.1) (b := p.2) (by rw [hsf])).1
    rw [this]
    simp only [List.mem_append, List.mem_cons]
    exact Or.inr (Or.inr h)

theorem splitQuery_fst_no_qmark (s : List Char) : '?' ∉ (splitQuery s).1 := by
  unfold splitQuery
  cases hsf : splitFirst '?' s with
  | none => exact splitFirst_eq_none hsf
  | some p => exact (splitFirst_eq_some (a := p.1) (b := p.2) (by rw [hsf])).2

theorem splitQuery_mem_fst {s : List Char} {c : Char}
    (h : c ∈ (splitQuery s).1) : c ∈ s := by
  unfold splitQuery at h
  cases hsf : splitFirst '?' s with
  | none => rw [hsf] at h; exact h
  | some p =>
    rw [hsf] at h
    have := (splitFirst_eq_some (a := p.1) (b := p.2) (by rw [hsf])).1
    rw [this]
    simp only [List.mem_append]
    exact Or.inl h

theorem splitQuery_mem_snd {s : List Char} {c : Char}
    (h : c ∈ (splitQuery s).2) : c ∈ s := by
  unfold splitQuery at h
  cases hsf : splitFirst '?' s with
  | none => rw [hsf] at h; cases h
  | some p =>
    rw [hsf] at h
    have := (splitFirst_eq_some (a := p.1) (b := p.2) (by rw [hsf])).1
    rw [this]
    simp only [List.mem_append, List.mem_cons]
    exact Or.inr (Or.inr h)

/-- `_splitparams` either returns the whole input with empty parameters or
splits the input as `path ++ ';' ++ params` (with a possibly empty params
part for a trailing semicolon). -/
theorem splitParams_spec (s : List Char) :
    splitParams s = (s, []) ∨
      s = (splitParams s).1 ++ ';' :: (splitParams s).2 := by
  unfold splitParams
  cases hsl : splitLast '/' s with
  | some p =>
    obtain ⟨pre, post⟩ := p
    obtain ⟨hs, hnm⟩ := splitLast_eq_some hsl
    cases hsf : splitFirst ';' post with
    | some p2 =>
      obtain ⟨p1, p2'⟩ := p2
      obtain ⟨hpost, hnm2⟩ := splitFirst_eq_some hsf
      right
      simp only [hsf]
      rw [hs, hpost]
      simp [List.append_assoc]
    | none => left; simp only [hsf]
  | none =>
    cases hsf : splitFirst ';' s with
    | some p2 =>
      obtain ⟨p1, p2'⟩ := p2
      obtain ⟨hpost, hnm2⟩ := splitFirst_eq_some hsf
      right
      simp only [hsf]
      exact hpost
    | none => left; simp only [hsf]

theorem paramsSplit_spec (sch s : List Char) :
    paramsSplit sch s = (s, []) ∨
      s = (paramsSplit sch s).1 ++ ';' :: (paramsSplit sch s).2 := by
  unfold paramsSplit
  by_cases hm : sch ∈ usesParams
  · rw [if_pos hm]
    exact splitParams_spec s
  · rw [if_neg hm]
    exact Or.inl rfl

theorem paramsSplit_mem_fst {sch s : List Char} {c : Char}
    (h : c ∈ (paramsSplit sch s).1) : c ∈ s := by
  rcases paramsSplit_spec sch s with h1 | h1
  · rw [h1] at h; exact h
  · rw [h1]
    simp only [List.mem_append]
    exact Or.inl h

theorem paramsSplit_mem_snd {sch s : List Char} {c : Char}
    (h : c ∈ (paramsSplit sch s).2) : c ∈ s := by
  rcases paramsSplit_spec sch s with h1 | h1
  · rw [h1] at h; cases h
  · rw [h1]
    simp only [List.mem_append, List.mem_cons]
    exact Or.inr (Or.inr h)

/-- Re-joining path and params as `urlunparse` does and re-splitting gives
the same two components back. -/
theorem splitParams_stable (s : List Char) :
    splitParams (if (splitParams s).2 ≠ [] then
      (splitParams s).1 ++ ';' :: (splitParams s).2 else (splitParams s).1) =
      splitParams s := by
  cases hsl : splitLast '/' s with
  | some p =>
    obtain ⟨pre, post⟩ := p
    obtain ⟨hs, hnm⟩ := splitLast_eq_some hsl
    cases hsf : splitFirst ';' post with
    | some p2 =>
      obtain ⟨p1, p2'⟩ := p2
      obtain ⟨hpost, hnm2⟩ := splitFirst_eq_some hsf
      have hsp : splitParams s = (pre ++ '/' :: p1, p2') := by
        unfold splitParams
        simp only [hsl, hsf]
      rw [hsp]
      have hsl1 : '/' ∉ p1 := fun hm => hnm (by rw [hpost]; simp [hm])
      by_cases hp2 : p2' = []
      · subst hp2
        rw [if_neg (by simp)]
        unfold splitParams
        simp only [splitLast_append '/' pre p1 hsl1,
          splitFirst_not_mem ';' p1 hnm2]
      · rw [if_pos hp2]
        unfold splitParams
        have hslash : '/' ∉ p1 ++ ';' :: p2' := by rw [← hpost]; exact hnm
        rw [show (pre ++ '/' :: p1) ++ ';' :: p2' = pre ++ '/' :: (p1 ++ ';' :: p2')
          from by simp]
        simp only [splitLast_append '/' pre _ hslash,
          splitFirst_append ';' p1 p2' hnm2]
    | none =>
      have hsp : splitParams s = (s, []) := by
        unfold splitParams
        simp only [hsl, hsf]
      rw [hsp]
      rw [if_neg (by simp)]
      exact hsp
  | none =>
    have hslash : '/' ∉ s := splitLast_eq_none hsl
    cases hsf : splitFirst ';' s with
    | some p2 =>
      obtain ⟨p1, p2'⟩ := p2
      obtain ⟨hpost, hnm2⟩ := splitFirst_eq_some hsf
      have hsp : splitParams s = (p1, p2') := by
        unfold splitParams
        simp only [hsl, hsf]
      rw [hsp]
      have hsl1 : '/' ∉ p1 := fun hm => hslash (by rw [hpost]; simp [hm])
      by_cases hp2 : p2' = []
      · subst hp2
        rw [if_neg (by simp)]
        unfold splitParams
        simp only [splitLast_not_mem '/' p1 hsl1,
          splitFirst_not_mem ';' p1 hnm2]
      · rw [if_pos hp2, ← hpost]
        exact hsp
    | none =>
      have hsp : splitParams s = (s, []) := by
        unfold splitParams
        simp only [hsl, hsf]
      rw [hsp]
      rw [if_neg (by simp)]
      exact hsp

theorem paramsSplit_stable (sch s : List Char) :
    paramsSplit sch (if (paramsSplit sch s).2 ≠ [] then
      (paramsSplit sch s).1 ++ ';' :: (paramsSplit sch s).2
    else (paramsSplit sch s).1) = paramsSplit sch s := by
  by_cases hm : sch ∈ usesParams
  · have he : ∀ t, paramsSplit sch t = splitParams t := by
      intro t
      unfold paramsSplit
      rw [if_pos hm]
    simp only [he]
    exact splitParams_stable s
  · have he : ∀ t, paramsSplit sch t = (t, []) := by
      intro t
      unfold paramsSplit
      rw [if_neg hm]
    simp only [he]
    simp

/-! ## Helper lemmas: hostname and port -/

theorem hostinfo_no_at (netloc : List Char) : '@' ∉ hostinfo netloc := by
  unfold hostinfo
  cases hsl : splitLast '@' netloc with
  | none => exact splitLast_eq_none hsl
  | some p => exact (splitLast_eq_some (a := p.1) (b := p.2) (by rw [hsl])).2

theorem hostinfo_mem {netloc : List Char} {c : Char}
    (h : c ∈ hostinfo netloc) : c ∈ netloc := by
  unfold hostinfo at h
  cases hsl : splitLast '@' netloc with
  | none => rw [hsl] at h; exact h
  | some p =>
    rw [hsl] at h
    have := (splitLast_eq_some (a := p.1) (b := p.2) (by rw [hsl])).1
    rw [this]
    simp only [List.mem_append, List.mem_cons]
    exact Or.inr (Or.inr h)

theorem asciiLower_eq_of_toNat_lt97 (c b : Char) (hb : b.toNat < 97)
    (h : asciiLower c = b) : c = b := by
  unfold asciiLower at h
  by_cases hc : 65 ≤ c.toNat ∧ c.toNat ≤ 90
  · rw [if_pos hc] at h
    exfalso
    have htn : (Char.ofNat (c.toNat + 32)).toNat = c.toNat + 32 :=
      toNat_ofNat_of_lt (by omega)
    rw [← h, htn] at hb
    omega
  · rw [if_neg hc] at h
    exact h

theorem asciiLower_pres_ne {c b : Char} (hb : b.toNat < 97) (h : c ≠ b) :
    asciiLower c ≠ b :=
  fun hc => h (asciiLower_eq_of_toNat_lt97 c b hb hc)

theorem isNetlocEnd_asciiLower {c : Char} (h : isNetlocEnd c = false) :
    isNetlocEnd (asciiLower c) = false := by
  cases hl : isNetlocEnd (asciiLower c)
  · rfl
  · exfalso
    rw [isNetlocEnd, decide_eq_true_eq] at hl
    rw [isNetlocEnd] at h
    rcases hl with hl | hl | hl
    · exact absurd (decide_eq_true_eq.mpr
        (Or.inl (asciiLower_eq_of_toNat_lt97 c '/' (by decide) hl))) (by rw [h]; simp)
    · exact absurd (decide_eq_true_eq.mpr
        (Or.inr (Or.inl (asciiLower_eq_of_toNat_lt97 c '?' (by decide) hl)))) (by rw [h]; simp)
    · exact absurd (decide_eq_true_eq.mpr
        (Or.inr (Or.inr (asciiLower_eq_of_toNat_lt97 c '#' (by decide) hl)))) (by rw [h]; simp)

/-- Without a bracket in the hostinfo, the hostname part is everything
before the first `:`. -/
theorem pyHostinfo_plain_fst (netloc : List Char) (hbr : '[' ∉ hostinfo netloc) :
    (pyHostinfo netloc).1 =
      (hostinfo netloc).takeWhile (fun c => !decide (c = ':')) := by
  unfold pyHostinfo
  rw [if_neg hbr]
  cases hsf : splitFirst ':' (hostinfo netloc) with
  | none =>
    simp only
    have hnm := splitFirst_eq_none hsf
    rw [takeWhile_all _ (fun c hc => by
      simp only [Bool.not_eq_true', decide_eq_false_iff_not]
      exact fun hcon => hnm (hcon ▸ hc))]
  | some p =>
    obtain ⟨a, b⟩ := p
    obtain ⟨hs, hnm⟩ := splitFirst_eq_some hsf
    simp only
    rw [hs, takeWhile_append_all a _ (fun c hc => by
        simp only [Bool.not_eq_true', decide_eq_false_iff_not]
        exact fun hcon => hnm (hcon ▸ hc)),
      List.takeWhile_cons_of_neg (by simp), List.append_nil]

theorem pyHostinfo_plain_snd (netloc : List Char) (hbr : '[' ∉ hostinfo netloc) :
    (pyHostinfo netloc).2 =
      (match splitFirst ':' (hostinfo netloc) with
        | some p => if p.2 = [] then none else some p.2
        | none => none) := by
  unfold pyHostinfo
  rw [if_neg hbr]
  cases hsf : splitFirst ':' (hostinfo netloc) <;> simp only [hsf]

/-- Facts about a parsed hostname of a bracket-free, percent-free netloc:
nonempty, lower-case-fixed, and free of the delimiters `:`/`@`, with every
character the lowercasing of a netloc character. -/
theorem pyHostname_spec {u : PyUrl} {h : List Char}
    (hbr : '[' ∉ hostinfo u.netloc) (hpc : '%' ∉ hostinfo u.netloc)
    (hh : pyHostname u = some h) :
    h ≠ [] ∧ h.map asciiLower = h ∧
      ∀ c ∈ h, c ≠ ':' ∧ c ≠ '@' ∧
        ∃ c0, c = asciiLower c0 ∧ c0 ∈ u.netloc := by
  unfold pyHostname at hh
  rw [pyHostinfo_plain_fst u.netloc hbr] at hh
  have hpc2 : '%' ∉ (hostinfo u.netloc).takeWhile (fun c => !decide (c = ':')) :=
    fun hm => hpc (List.takeWhile_subset _ hm)
  by_cases he : (hostinfo u.netloc).takeWhile (fun c => !decide (c = ':')) = []
  · rw [if_pos he] at hh; cases hh
  · rw [if_neg he] at hh
    simp only [splitFirst_not_mem '%' _ hpc2] at hh
    injection hh with hh
    refine ⟨?_, ?_, ?_⟩
    · rw [← hh]
      intro hcon
      exact he (by simpa using hcon)
    · rw [← hh]
      exact map_asciiLower_idem _
    · intro c hc
      rw [← hh] at hc
      obtain ⟨c0, hc0, hlc⟩ := List.mem_map.mp hc
      have hc0tw : c0 ∈ (hostinfo u.netloc).takeWhile (fun c => !decide (c = ':')) := hc0
      have hne : c0 ≠ ':' := by
        have := List.mem_takeWhile_imp hc0tw
        simpa using this
      have hmem : c0 ∈ hostinfo u.netloc := List.takeWhile_subset _ hc0tw
      refine ⟨?_, ?_, c0, hlc.symm, hostinfo_mem hmem⟩
      · rw [← hlc]
        exact asciiLower_pres_ne (by decide) hne
      · rw [← hlc]
        exact asciiLower_pres_ne (by decide)
          (fun hcon => hostinfo_no_at u.netloc (hcon ▸ hmem))

theorem pyHostname_netloc_ne {u : PyUrl} {h : List Char}
    (hh : pyHostname u = some h) : u.netloc ≠ [] := by
  intro hcon
  unfold pyHostname at hh
  rw [hcon] at hh
  rw [show (pyHostinfo ([] : List Char)).1 = [] from rfl, if_pos rfl] at hh
  cases hh

/-- The hostinfo of a netloc of the shape `user:pass@rest` with no `@` in
`rest` is `rest`. -/
theorem hostinfo_auth (user pass rest : List Char) (hnoat : '@' ∉ rest) :
    hostinfo (user ++ ':' :: pass ++ '@' :: rest) = rest := by
  rw [show user ++ ':' :: pass ++ '@' :: rest =
    (user ++ ':' :: pass) ++ '@' :: rest from by simp]
  unfold hostinfo
  simp only [splitLast_append '@' _ _ hnoat]

theorem pyHostinfo_auth_noport (user pass h : List Char) (hnoat : '@' ∉ h)
    (hnobr : '[' ∉ h) (hhc : ∀ c ∈ h, c ≠ ':') :
    pyHostinfo (user ++ ':' :: pass ++ '@' :: h) = (h, none) := by
  unfold pyHostinfo
  rw [hostinfo_auth user pass h hnoat, if_neg hnobr]
  simp only [splitFirst_not_mem ':' h (fun hm => hhc ':' hm rfl)]

theorem pyHostinfo_auth_port (user pass h d : List Char)
    (hnoat : '@' ∉ h ++ ':' :: d) (hnobr : '[' ∉ h ++ ':' :: d)
    (hhc : ∀ c ∈ h, c ≠ ':') :
    pyHostinfo (user ++ ':' :: pass ++ '@' :: (h ++ ':' :: d)) =
      (h, if d = [] then none else some d) := by
  unfold pyHostinfo
  rw [hostinfo_auth user pass _ hnoat, if_neg hnobr]
  simp only [splitFirst_append ':' h d (fun hm => hhc ':' hm rfl)]

theorem pyHostname_auth_netloc (u : PyUrl) (user pass h portPart : List Char)
    (hnl : u.netloc = user ++ ':' :: pass ++ '@' :: (h ++ portPart))
    (hne : h ≠ []) (hidem : h.map asciiLower = h)
    (hhc : ∀ c ∈ h, c ≠ ':') (hnoat : '@' ∉ h ++ portPart)
    (hnobr : '[' ∉ h ++ portPart) (hnopc : '%' ∉ h)
    (hps : portPart = [] ∨ ∃ d, portPart = ':' :: d) :
    pyHostname u = some h := by
  unfold pyHostname
  rw [hnl]
  rcases hps with hp0 | ⟨d, hpd⟩
  · subst hp0
    rw [List.append_nil] at hnoat hnobr
    rw [show (user ++ ':' :: pass ++ '@' :: (h ++ [])) =
      (user ++ ':' :: pass ++ '@' :: h) from by simp]
    simp only [pyHostinfo_auth_noport user pass h hnoat hnobr hhc]
    rw [if_neg hne]
    simp only [splitFirst_not_mem '%' h hnopc]
    rw [hidem]
  · subst hpd
    simp only [pyHostinfo_auth_port user pass h d hnoat hnobr hhc]
    rw [if_neg hne]
    simp only [splitFirst_not_mem '%' h hnopc]
    rw [hidem]

theorem pyPort_auth_netloc_none (u : PyUrl) (user pass h : List Char)
    (hnl : u.netloc = user ++ ':' :: pass ++ '@' :: (h ++ []))
    (hhc : ∀ c ∈ h, c ≠ ':') (hnoat : '@' ∉ h ++ ([] : List Char))
    (hnobr : '[' ∉ h ++ ([] : List Char)) :
    pyPort u = some none := by
  unfold pyPort
  rw [List.append_nil] at hnoat hnobr
  rw [hnl, show (user ++ ':' :: pass ++ '@' :: (h ++ [])) =
    (user ++ ':' :: pass ++ '@' :: h) from by simp]
  simp only [pyHostinfo_auth_noport user pass h hnoat hnobr hhc]

theorem pyPort_auth_netloc_some (u : PyUrl) (user pass h digits : List Char) (n : Nat)
    (hnl : u.netloc = user ++ ':' :: pass ++ '@' :: (h ++ ':' :: digits))
    (hhc : ∀ c ∈ h, c ≠ ':') (hnoat : '@' ∉ h ++ ':' :: digits)
    (hnobr : '[' ∉ h ++ ':' :: digits)
    (hdne : digits ≠ []) (hdall : digits.all isDigitChar = true)
    (hval : digitsToNat digits = n) (hle : n ≤ 65535) :
    pyPort u = some (some n) := by
  unfold pyPort
  rw [hnl]
  simp only [pyHostinfo_auth_port user pass h digits hnoat hnobr hhc]
  rw [if_neg hdne]
  simp only
  rw [if_pos ⟨hdne, hdall⟩, hval, if_pos hle]

/-! ## Helper lemmas: scheme validity -/

theorem isAsciiAlpha_asciiLower {c : Char} (h : isAsciiAlpha c = true) :
    isAsciiAlpha (asciiLower c) = true := by
  rw [isAsciiAlpha, decide_eq_true_eq] at h
  rw [isAsciiAlpha, decide_eq_true_eq]
  rcases asciiLower_toNat c with h0 | ⟨h1, h2, h3⟩
  · rw [h0]; exact h
  · omega

theorem isSchemeChar_asciiLower {c : Char} (h : isSchemeChar c = true) :
    isSchemeChar (asciiLower c) = true := by
  rcases asciiLower_toNat c with h0 | ⟨h1, h2, h3⟩
  · rw [h0]; exact h
  · rw [isSchemeChar, isAlphaNumChar, isAsciiAlpha]
    simp only [Bool.or_eq_true, decide_eq_true_eq]
    left; left; left
    omega

/-- A nonempty parsed scheme is made of scheme characters, starts with an
ASCII letter, and is lower-case-fixed. -/
theorem splitScheme_fst_valid (s : List Char) :
    (splitScheme s).1 = [] ∨
      ((splitScheme s).1.all isSchemeChar = true ∧
        (∃ c0 r0, (splitScheme s).1 = c0 :: r0 ∧ isAsciiAlpha c0 = true) ∧
        (splitScheme s).1.map asciiLower = (splitScheme s).1) := by
  cases hsf : splitFirst ':' s with
  | none =>
    have hval : splitScheme s = ([], s) := by
      unfold splitScheme
      simp only [hsf]
    rw [hval]
    left; rfl
  | some p =>
    obtain ⟨pre, post⟩ := p
    by_cases hc : ((match pre.head? with
        | some c => isAsciiAlpha c
        | none => false) && pre.all isSchemeChar) = true
    · have hval : splitScheme s = (pre.map asciiLower, post) := by
        unfold splitScheme
        simp only [hsf]
        rw [if_pos hc]
      rw [hval]
      right
      rw [Bool.and_eq_true] at hc
      obtain ⟨hhead, hall⟩ := hc
      cases hpre : pre with
      | nil => rw [hpre] at hhead; simp at hhead
      | cons c0 r0 =>
        rw [hpre] at hhead hall
        have hhead' : isAsciiAlpha c0 = true := by simpa using hhead
        refine ⟨?_, ?_, map_asciiLower_idem _⟩
        · simp only [List.all_eq_true] at hall ⊢
          intro x hx
          have hx' : x ∈ List.map asciiLower (c0 :: r0) := hx
          obtain ⟨x0, hx0, hlx⟩ := List.mem_map.mp hx'
          rw [← hlx]
          exact isSchemeChar_asciiLower (hall x0 hx0)
        · exact ⟨asciiLower c0, r0.map asciiLower, by simp,
            isAsciiAlpha_asciiLower hhead'⟩
    · have hval : splitScheme s = ([], s) := by
        unfold splitScheme
        simp only [hsf]
        rw [if_neg hc]
      rw [hval]
      left; rfl

/-- Reparsing a valid scheme prefix recovers it. -/
theorem splitScheme_valid_append (sch X : List Char)
    (hall : sch.all isSchemeChar = true)
    (hhead : ∃ c0 r0, sch = c0 :: r0 ∧ isAsciiAlpha c0 = true)
    (hlow : sch.map asciiLower = sch) :
    splitScheme (sch ++ ':' :: X) = (sch, X) := by
  have hnc : ':' ∉ sch := by
    intro hm
    have := List.all_eq_true.mp hall _ hm
    exact absurd this (by decide)
  obtain ⟨c0, r0, hsch, ha⟩ := hhead
  subst hsch
  unfold splitScheme
  rw [splitFirst_append ':' (c0 :: r0) X hnc]
  simp only [List.head?_cons, ha, hall, Bool.true_and, Bool.and_self, if_true]
  rw [hlow]

/-- A string starting with `//` parses with an empty scheme. -/
theorem splitScheme_slashslash (rest : List Char) :
    splitScheme ('/' :: '/' :: rest) = ([], '/' :: '/' :: rest) := by
  cases hsf : splitFirst ':' ('/' :: '/' :: rest) with
  | none =>
    unfold splitScheme
    simp only [hsf]
  | some p =>
    obtain ⟨pre, post⟩ := p
    obtain ⟨hs, hnm⟩ := splitFirst_eq_some hsf
    have hpre : ∃ t, pre = '/' :: t := by
      cases hp : pre with
      | nil => rw [hp] at hs; simp at hs
      | cons x t =>
        rw [hp] at hs
        simp only [List.cons_append, List.cons.injEq] at hs
        exact ⟨t, by rw [hs.1]⟩
    obtain ⟨t, hp⟩ := hpre
    subst hp
    unfold splitScheme
    simp only [hsf, List.head?_cons]
    simp only [Bool.and_eq_true, List.all_cons, List.all_eq_true]
    rw [if_neg ?hfalse]
    case hfalse =>
      intro hcon
      exact absurd hcon.1 (by decide)

/-! ## Helper lemmas: decimal digits and the port -/

theorem digitsToNat_natDigitsAux :
    ∀ (fuel n : Nat), n ≤ fuel → digitsToNat (natDigitsAux fuel n) = n := by
  intro fuel
  induction fuel with
  | zero =>
    intro n hn
    interval_cases n
    rfl
  | succ f ih =>
    intro n hn
    cases n with
    | zero => rfl
    | succ m =>
      rw [natDigitsAux]
      unfold digitsToNat
      rw [List.foldl_append]
      have hd : (m + 1) / 10 ≤ f := by
        have := Nat.div_lt_self (Nat.succ_pos m) (by norm_num : 1 < 10)
        omega
      have hih := ih ((m + 1) / 10) hd
      unfold digitsToNat at hih
      rw [hih]
      simp only [List.foldl_cons, List.foldl_nil]
      rw [toNat_ofNat_of_lt (by omega : 48 + (m + 1) % 10 < 128)]
      have hm : (m + 1) % 10 < 10 := Nat.mod_lt _ (by norm_num)
      omega

theorem natDigitsAux_all_digits :
    ∀ (fuel n : Nat), ∀ c ∈ natDigitsAux fuel n, isDigitChar c = true := by
  intro fuel
  induction fuel with
  | zero => intro n c hc; cases hc
  | succ f ih =>
    intro n c hc
    cases n with
    | zero => cases hc
    | succ m =>
      rw [natDigitsAux] at hc
      rcases List.mem_append.mp hc with hc | hc
      · exact ih _ c hc
      · simp only [List.mem_singleton] at hc
        rw [hc, isDigitChar, decide_eq_true_eq,
          toNat_ofNat_of_lt (by omega : 48 + (m + 1) % 10 < 128)]
        have : (m + 1) % 10 < 10 := Nat.mod_lt _ (by norm_num)
        omega

theorem natDigitsAux_ne_nil (f m : Nat) : natDigitsAux (f + 1) (m + 1) ≠ [] := by
  rw [natDigitsAux]
  simp

theorem isDigitChar_toNat {c : Char} (h : isDigitChar c = true) :
    48 ≤ c.toNat ∧ c.toNat ≤ 57 := by
  rwa [isDigitChar, decide_eq_true_eq] at h

theorem isDigitChar_not_netlocEnd {c : Char} (h : isDigitChar c = true) :
    isNetlocEnd c = false := by
  obtain ⟨h1, h2⟩ := isDigitChar_toNat h
  cases hl : isNetlocEnd c
  · rfl
  · exfalso
    rw [isNetlocEnd, decide_eq_true_eq] at hl
    rcases hl with hl | hl | hl <;> (rw [hl] at h1 h2; revert h1 h2; decide)

theorem isDigitChar_ne {c : Char} (h : isDigitChar c = true) {b : Char}
    (hb : b.toNat < 48 ∨ 57 < b.toNat) : c ≠ b := by
  obtain ⟨h1, h2⟩ := isDigitChar_toNat h
  intro hc
  subst hc
  omega

theorem pyPort_le {u : PyUrl} {n : Nat} (h : pyPort u = some (some n)) :
    n ≤ 65535 := by
  unfold pyPort at h
  cases hsp : (pyHostinfo u.netloc).2 with
  | none => rw [hsp] at h; simp at h
  | some p =>
    rw [hsp] at h
    simp only at h
    by_cases hc : p ≠ [] ∧ p.all isDigitChar = true
    · rw [if_pos hc] at h
      by_cases hle : digitsToNat p ≤ 65535
      · rw [if_pos hle] at h
        injection h with h
        injection h with h
        omega
      · rw [if_neg hle] at h; cases h
    · rw [if_neg hc] at h; cases h

/-! ## Helper lemmas: reparsing an unparsed URL -/

theorem urlparseCore_eq_of_stages {s sch rest1 N rest2 af fr aq qu : List Char}
    (h1 : splitScheme s = (sch, rest1))
    (h2 : splitNetloc rest1 = (N, rest2))
    (h3 : splitFragment rest2 = (af, fr))
    (h4 : splitQuery af = (aq, qu)) :
    urlparseCore s =
      ⟨sch, N, (paramsSplit sch aq).1, (paramsSplit sch aq).2, qu, fr⟩ := by
  unfold urlparseCore
  simp only [h1, h2, h3, h4]

/-- Reparsing the string `urlunsplit` builds from well-behaved components
recovers every component, splitting the path-with-params part. -/
theorem urlparseCore_unparse (sch N pp qu fr : List Char)
    (hsch : sch = [] ∨ (sch.all isSchemeChar = true ∧
      (∃ c0 r0, sch = c0 :: r0 ∧ isAsciiAlpha c0 = true) ∧
      sch.map asciiLower = sch))
    (hN : N ≠ []) (hNc : ∀ c ∈ N, isNetlocEnd c = false)
    (hpp : pp = [] ∨ ∃ t, pp = '/' :: t)
    (hpp_hash : '#' ∉ pp) (hpp_q : '?' ∉ pp)
    (hqu : '#' ∉ qu) :
    urlparseCore (urlunsplit sch N pp qu fr) =
      ⟨sch, N, (paramsSplit sch pp).1, (paramsSplit sch pp).2, qu, fr⟩ := by
  have hin : ¬(pp ≠ [] ∧ pp.head? ≠ some '/') := by
    rcases hpp with h | ⟨t, h⟩
    · intro hcon; exact hcon.1 h
    · intro hcon; exact hcon.2 (by rw [h]; rfl)
  have hout : N ≠ [] ∨ (sch ≠ [] ∧ sch ∈ usesNetloc ∧ pp.take 2 ≠ ['/', '/']) :=
    Or.inl hN
  have hO : urlunsplit sch N pp qu fr =
      (if sch = [] then
        '/' :: '/' :: (N ++ (pp ++ ((if qu = [] then [] else '?' :: qu) ++
          (if fr = [] then [] else '#' :: fr))))
      else sch ++ ':' :: ('/' :: '/' :: (N ++ (pp ++
        ((if qu = [] then [] else '?' :: qu) ++
          (if fr = [] then [] else '#' :: fr)))))) := by
    unfold urlunsplit
    rw [if_pos hout, if_neg hin]
    by_cases hs : sch = [] <;> by_cases hq : qu = [] <;> by_cases hf : fr = [] <;>
      simp [hs, hq, hf, List.append_assoc]
  rw [hO]
  have hNp : ∀ c ∈ N, (fun c => !isNetlocEnd c) c = true := by
    intro c hc
    simp [hNc c hc]
  have htail : (pp ++ ((if qu = [] then [] else '?' :: qu) ++
      (if fr = [] then [] else '#' :: fr))) = [] ∨
      ∃ c t, (pp ++ ((if qu = [] then [] else '?' :: qu) ++
        (if fr = [] then [] else '#' :: fr))) = c :: t ∧ isNetlocEnd c = true := by
    rcases hpp with hp | ⟨t, hp⟩
    · subst hp
      by_cases hq : qu = []
      · by_cases hf : fr = []
        · left; simp [hq, hf]
        · right
          refine ⟨'#', fr, ?_, by decide⟩
          simp [hq, hf]
      · right
        refine ⟨'?', qu ++ (if fr = [] then [] else '#' :: fr), ?_, by decide⟩
        simp [hq, List.append_assoc]
    · subst hp
      right
      exact ⟨'/', t ++ ((if qu = [] then [] else '?' :: qu) ++
        (if fr = [] then [] else '#' :: fr)), by simp [List.append_assoc], by decide⟩
  have hnl : splitNetloc ('/' :: '/' :: (N ++ (pp ++
      ((if qu = [] then [] else '?' :: qu) ++
        (if fr = [] then [] else '#' :: fr))))) =
      (N, pp ++ ((if qu = [] then [] else '?' :: qu) ++
        (if fr = [] then [] else '#' :: fr))) := by
    unfold splitNetloc
    simp only [List.take_succ_cons, List.take_zero, List.drop_succ_cons, List.drop_zero,
      if_true]
    rw [takeWhile_append_all N _ hNp, dropWhile_append_all N _ hNp]
    rcases htail with ht | ⟨c, t, ht, hc⟩
    · rw [ht]; simp
    · rw [ht, List.takeWhile_cons_of_neg (by simp [hc]),
        List.dropWhile_cons_of_neg (by simp [hc])]
      simp
  have hhq : '#' ∉ pp ++ (if qu = [] then [] else '?' :: qu) := by
    intro hm
    rcases List.mem_append.mp hm with hm | hm
    · exact hpp_hash hm
    · by_cases hq : qu = []
      · rw [if_pos hq] at hm; cases hm
      · rw [if_neg hq] at hm
        rcases List.mem_cons.mp hm with hm | hm
        · cases hm
        · exact hqu hm
  have hfr2 : splitFragment (pp ++ ((if qu = [] then [] else '?' :: qu) ++
      (if fr = [] then [] else '#' :: fr))) =
      (pp ++ (if qu = [] then [] else '?' :: qu), fr) := by
    by_cases hf : fr = []
    · rw [hf]
      simp only [reduceIte, List.append_nil]
      unfold splitFragment
      rw [splitFirst_not_mem '#' _ hhq]
    · rw [if_neg hf]
      unfold splitFragment
      rw [show pp ++ ((if qu = [] then [] else '?' :: qu) ++ '#' :: fr) =
        (pp ++ (if qu = [] then [] else '?' :: qu)) ++ '#' :: fr from by
          simp [List.append_assoc]]
      simp only [splitFirst_append '#' _ fr hhq]
  have hqu2 : splitQuery (pp ++ (if qu = [] then [] else '?' :: qu)) = (pp, qu) := by
    by_cases hq : qu = []
    · rw [hq]
      simp only [reduceIte, List.append_nil]
      unfold splitQuery
      rw [splitFirst_not_mem '?' _ hpp_q]
    · rw [if_neg hq]
      unfold splitQuery
      simp only [splitFirst_append '?' pp qu hpp_q]
  rcases hsch with hs0 | ⟨hall, hhead, hlow⟩
  · subst hs0
    rw [if_pos rfl]
    exact urlparseCore_eq_of_stages (splitScheme_slashslash _) hnl hfr2 hqu2
  · have hs1 : sch ≠ [] := by
      obtain ⟨c0, r0, h, _⟩ := hhead
      rw [h]; simp
    rw [if_neg hs1]
    exact urlparseCore_eq_of_stages
      (splitScheme_valid_append sch _ hall hhead hlow) hnl hfr2 hqu2

theorem splitFragment_cons_hash (t : List Char) :
    splitFragment ('#' :: t) = ([], t) := by
  unfold splitFragment
  simp only [splitFirst_cons_self]

theorem splitQuery_cons_qmark (t : List Char) :
    splitQuery ('?' :: t) = ([], t) := by
  unfold splitQuery
  simp only [splitFirst_cons_self]

theorem splitFragment_fst_head {c : Char} (t : List Char) (hc : c ≠ '#') :
    ∃ t', (splitFragment (c :: t)).1 = c :: t' := by
  unfold splitFragment
  rw [splitFirst, if_neg hc]
  cases hsf : splitFirst '#' t with
  | none => exact ⟨t, by simp [hsf]⟩
  | some p => exact ⟨p.1, by simp [hsf]⟩

theorem splitQuery_fst_head {c : Char} (t : List Char) (hc : c ≠ '?') :
    ∃ t', (splitQuery (c :: t)).1 = c :: t' := by
  unfold splitQuery
  rw [splitFirst, if_neg hc]
  cases hsf : splitFirst '?' t with
  | none => exact ⟨t, by simp [hsf]⟩
  | some p => exact ⟨p.1, by simp [hsf]⟩

/-- With a nonempty netloc the path-with-params segment of the parse is
empty or starts with a slash. -/
theorem aq_shape {uri : List Char} (hne : (urlparseCore uri).netloc ≠ []) :
    (splitQuery (splitFragment (splitNetloc (splitScheme uri).2).2).1).1 = [] ∨
      ∃ t, (splitQuery (splitFragment
        (splitNetloc (splitScheme uri).2).2).1).1 = '/' :: t := by
  rcases netloc_rest_delim hne with hr | ⟨c, t, hr, hc⟩
  · rw [hr]
    left
    rfl
  · rw [hr]
    rw [isNetlocEnd, decide_eq_true_eq] at hc
    rcases hc with hc | hc | hc
    · subst hc
      obtain ⟨t1, ht1⟩ := splitFragment_fst_head (c := '/') t (by decide)
      rw [ht1]
      obtain ⟨t2, ht2⟩ := splitQuery_fst_head (c := '/') t1 (by decide)
      rw [ht2]
      exact Or.inr ⟨t2, rfl⟩
    · subst hc
      obtain ⟨t1, ht1⟩ := splitFragment_fst_head (c := '?') t (by decide)
      rw [ht1, splitQuery_cons_qmark]
      left
      rfl
    · subst hc
      rw [splitFragment_cons_hash]
      left
      rfl

/-! ## Helper lemmas: sanitisation of the injected output -/

theorem mem_sanitize_not_unsafe {s : List Char} {c : Char}
    (h : c ∈ sanitizeUrl s) : isUnsafeUrlByte c = false := by
  unfold sanitizeUrl at h
  have := List.mem_filter.mp h
  simpa using this.2

/-- `urlsplit`'s sanitisation is the identity on a string with no
tab/CR/LF whose first character is not C0-control-or-space. -/
theorem sanitize_noop (s : List Char)
    (hsafe : ∀ c ∈ s, isUnsafeUrlByte c = false)
    (hhead : s = [] ∨ ∃ c0 t, s = c0 :: t ∧ isC0ControlOrSpace c0 = false) :
    sanitizeUrl s = s := by
  unfold sanitizeUrl
  have hdw : s.dropWhile isC0ControlOrSpace = s := by
    rcases hhead with h0 | ⟨c0, t, hct, hc0⟩
    · rw [h0]; rfl
    · rw [hct, List.dropWhile_cons_of_neg (by simp [hc0])]
  rw [hdw, List.filter_eq_self]
  intro a ha
  simp [hsafe a ha]

theorem splitScheme_snd_subset {s : List Char} {c : Char}
    (h : c ∈ (splitScheme s).2) : c ∈ s := by
  cases hsf : splitFirst ':' s with
  | none =>
    have hval : splitScheme s = ([], s) := by
      unfold splitScheme
      simp only [hsf]
    rw [hval] at h
    exact h
  | some p =>
    obtain ⟨pre, post⟩ := p
    obtain ⟨hs, _⟩ := splitFirst_eq_some hsf
    by_cases hc : ((match pre.head? with
        | some c => isAsciiAlpha c
        | none => false) && pre.all isSchemeChar) = true
    · have hval : splitScheme s = (pre.map asciiLower, post) := by
        unfold splitScheme
        simp only [hsf]
        rw [if_pos hc]
      rw [hval] at h
      rw [hs]
      simp only [List.mem_append, List.mem_cons]
      exact Or.inr (Or.inr h)
    · have hval : splitScheme s = ([], s) := by
        unfold splitScheme
        simp only [hsf]
        rw [if_neg hc]
      rw [hval] at h
      exact h

theorem splitNetloc_fst_subset {s : List Char} {c : Char}
    (h : c ∈ (splitNetloc s).1) : c ∈ s := by
  unfold splitNetloc at h
  by_cases ht : s.take 2 = ['/', '/']
  · rw [if_pos ht] at h
    exact List.drop_subset 2 s (List.takeWhile_subset _ h)
  · rw [if_neg ht] at h
    cases h

theorem splitNetloc_snd_subset {s : List Char} {c : Char}
    (h : c ∈ (splitNetloc s).2) : c ∈ s := by
  unfold splitNetloc at h
  by_cases ht : s.take 2 = ['/', '/']
  · rw [if_pos ht] at h
    exact List.drop_subset 2 s (List.dropWhile_subset _ h)
  · rw [if_neg ht] at h
    exact h

theorem urlparseCore_netloc_subset {s : List Char} {c : Char}
    (h : c ∈ (urlparseCore s).netloc) : c ∈ s := by
  rw [urlparseCore_netloc] at h
  exact splitScheme_snd_subset (splitNetloc_fst_subset h)

theorem urlparseCore_rest2_subset {s : List Char} {c : Char}
    (h : c ∈ (splitNetloc (splitScheme s).2).2) : c ∈ s :=
  splitScheme_snd_subset (splitNetloc_snd_subset h)

theorem urlparseCore_path_subset {s : List Char} {c : Char}
    (h : c ∈ (urlparseCore s).path) : c ∈ s := by
  rw [urlparseCore_path] at h
  exact urlparseCore_rest2_subset
    (splitFragment_mem_fst (splitQuery_mem_fst (paramsSplit_mem_fst h)))

theorem urlparseCore_params_subset {s : List Char} {c : Char}
    (h : c ∈ (urlparseCore s).params) : c ∈ s := by
  rw [urlparseCore_params] at h
  exact urlparseCore_rest2_subset
    (splitFragment_mem_fst (splitQuery_mem_fst (paramsSplit_mem_snd h)))

theorem urlparseCore_query_subset {s : List Char} {c : Char}
    (h : c ∈ (urlparseCore s).query) : c ∈ s := by
  rw [urlparseCore_query] at h
  exact urlparseCore_rest2_subset (splitFragment_mem_fst (splitQuery_mem_snd h))

theorem urlparseCore_fragment_subset {s : List Char} {c : Char}
    (h : c ∈ (urlparseCore s).fragment) : c ∈ s := by
  rw [urlparseCore_fragment] at h
  exact urlparseCore_rest2_subset (splitFragment_mem_snd h)

theorem isAsciiAlpha_not_c0 {c : Char} (h : isAsciiAlpha c = true) :
    isC0ControlOrSpace c = false := by
  rw [isAsciiAlpha, decide_eq_true_eq] at h
  rw [isC0ControlOrSpace, decide_eq_false_iff_not]
  omega

theorem isSchemeChar_not_unsafe {c : Char} (h : isSchemeChar c = true) :
    isUnsafeUrlByte c = false := by
  have h43 : 43 ≤ c.toNat := by
    rw [isSchemeChar] at h
    simp only [Bool.or_eq_true, decide_eq_true_eq] at h
    rcases h with ((h | h) | h) | h
    · rcases isAlphaNumChar_toNat h with h1 | h1 | h1 <;> omega
    · subst h; decide
    · subst h; decide
    · subst h; decide
  rw [isUnsafeUrlByte, decide_eq_false_iff_not]
  intro hcon
  rcases hcon with hc | hc | hc <;> (subst hc; revert h43; decide)

theorem isUnsafeUrlByte_asciiLower {c : Char} (h : isUnsafeUrlByte c = false) :
    isUnsafeUrlByte (asciiLower c) = false := by
  rw [isUnsafeUrlByte, decide_eq_false_iff_not, not_or, not_or] at h
  rw [isUnsafeUrlByte, decide_eq_false_iff_not, not_or, not_or]
  obtain ⟨h1, h2, h3⟩ := h
  exact ⟨asciiLower_pres_ne (by decide) h1, asciiLower_pres_ne (by decide) h2,
    asciiLower_pres_ne (by decide) h3⟩

theorem isDigitChar_not_unsafe {c : Char} (h : isDigitChar c = true) :
    isUnsafeUrlByte c = false := by
  rw [isUnsafeUrlByte, decide_eq_false_iff_not]
  intro hcon
  obtain ⟨h1, h2⟩ := isDigitChar_toNat h
  rcases hcon with hc | hc | hc <;> (subst hc; revert h1; decide)

theorem injectSafe_netlocEnd {c : Char} (h : injectSafe c = true) :
    isNetlocEnd c = false := by
  rw [injectSafe] at h
  simp only [Bool.and_eq_true, Bool.not_eq_true'] at h
  exact h.1.1.2

theorem injectSafe_unsafe {c : Char} (h : injectSafe c = true) :
    isUnsafeUrlByte c = false := by
  rw [injectSafe] at h
  simp only [Bool.and_eq_true, Bool.not_eq_true'] at h
  exact h.1.2

theorem injectSafe_brackets {c : Char} (h : injectSafe c = true) :
    c ≠ '[' ∧ c ≠ ']' := by
  rw [injectSafe] at h
  simp only [Bool.and_eq_true, Bool.not_eq_true'] at h
  have h2 := h.2
  rw [decide_eq_false_iff_not, not_or] at h2
  exact h2

theorem mem_ite_cases {c : Char} {P : Prop} [Decidable P] {a b : List Char}
    (h : c ∈ (if P then a else b)) : c ∈ a ∨ c ∈ b := by
  by_cases hp : P
  · rw [if_pos hp] at h; exact Or.inl h
  · rw [if_neg hp] at h; exact Or.inr h

theorem mem_opt_suffix {c d : Char} {P : Prop} [Decidable P] {base tail : List Char}
    (h : c ∈ (if P then base ++ d :: tail else base)) :
    c ∈ base ∨ c = d ∨ c ∈ tail := by
  rcases mem_ite_cases h with h | h
  · rcases List.mem_append.mp h with h | h
    · exact Or.inl h
    rcases List.mem_cons.mp h with h | h
    · exact Or.inr (Or.inl h)
    · exact Or.inr (Or.inr h)
  · exact Or.inl h

theorem mem_opt_scheme {c d : Char} {P : Prop} [Decidable P] {pre tail : List Char}
    (h : c ∈ (if P then pre ++ d :: tail else tail)) :
    c ∈ pre ∨ c = d ∨ c ∈ tail := by
  rcases mem_ite_cases h with h | h
  · rcases List.mem_append.mp h with h | h
    · exact Or.inl h
    rcases List.mem_cons.mp h with h | h
    · exact Or.inr (Or.inl h)
    · exact Or.inr (Or.inr h)
  · exact Or.inr (Or.inr h)

/-- Every character of the unsplit URL comes from one of the components or
is an inserted delimiter. -/
theorem urlunsplit_subset {sch N url qu fr : List Char} {c : Char}
    (h : c ∈ urlunsplit sch N url qu fr) :
    c ∈ sch ∨ c ∈ N ∨ c ∈ url ∨ c ∈ qu ∨ c ∈ fr ∨
      c = ':' ∨ c = '/' ∨ c = '?' ∨ c = '#' := by
  rcases mem_opt_suffix h with h | hd | hfr
  · rcases mem_opt_suffix h with h | hd | hqu
    · rcases mem_opt_scheme h with hsch | hd | h
      · tauto
      · tauto
      · rcases mem_ite_cases h with h | hurl
        · rcases List.mem_cons.mp h with hd | h
          · tauto
          rcases List.mem_cons.mp h with hd | h
          · tauto
          rcases List.mem_append.mp h with hN | h
          · tauto
          rcases mem_ite_cases h with h | hurl
          · rcases List.mem_cons.mp h with hd | hurl
            · tauto
            · tauto
          · tauto
        · tauto
    · tauto
    · tauto
  · tauto
  · tauto

/-- Normal form of `urlunsplit` for a nonempty netloc and a path that is
empty or slash-headed. -/
theorem urlunsplit_normal (sch N pp qu fr : List Char) (hN : N ≠ [])
    (hin : ¬(pp ≠ [] ∧ pp.head? ≠ some '/')) :
    urlunsplit sch N pp qu fr =
      (if sch = [] then
        '/' :: '/' :: (N ++ (pp ++ ((if qu = [] then [] else '?' :: qu) ++
          (if fr = [] then [] else '#' :: fr))))
      else sch ++ ':' :: ('/' :: '/' :: (N ++ (pp ++
        ((if qu = [] then [] else '?' :: qu) ++
          (if fr = [] then [] else '#' :: fr)))))) := by
  unfold urlunsplit
  rw [if_pos (Or.inl hN : N ≠ [] ∨ (sch ≠ [] ∧ sch ∈ usesNetloc ∧
    pp.take 2 ≠ ['/', '/'])), if_neg hin]
  by_cases hs : sch = [] <;> by_cases hq : qu = [] <;> by_cases hf : fr = [] <;>
    simp [hs, hq, hf, List.append_assoc]

/-- `urlparse` succeeds on a string that sanitisation leaves unchanged and
whose core parse has a bracket-free netloc. -/
theorem urlparse_unsplit_some (out : List Char) (R : PyUrl)
    (hcore : urlparseCore out = R)
    (hsafe : ∀ c ∈ out, isUnsafeUrlByte c = false)
    (hhead : out = [] ∨ ∃ c0 t, out = c0 :: t ∧ isC0ControlOrSpace c0 = false)
    (hnb : '[' ∉ R.netloc) (hnb2 : ']' ∉ R.netloc) :
    urlparse out = some R := by
  have hsan : sanitizeUrl out = out := sanitize_noop out hsafe hhead
  have hnl : (splitNetloc (splitScheme out).2).1 = R.netloc := by
    rw [← urlparseCore_netloc, hcore]
  unfold urlparse
  rw [hsan, hnl, if_neg (by simp [invalidIPv6, hnb, hnb2]), hcore]

/-- Master reparse lemma for `inject_rtsp_auth`: on an already-sanitised
input whose parse has a benign netloc and carries a hostname, re-parsing
the URL unsplit from the credential-carrying netloc succeeds and recovers
every component. -/
theorem inject_reparse_master (u0 user pass h portPart : List Char)
    (hbrl : '[' ∉ (urlparseCore u0).netloc)
    (hbrr : ']' ∉ (urlparseCore u0).netloc)
    (hpct : '%' ∉ (urlparseCore u0).netloc)
    (hsafe0 : ∀ c ∈ u0, isUnsafeUrlByte c = false)
    (hh : pyHostname (urlparseCore u0) = some h)
    (hu : ∀ c ∈ user, injectSafe c = true)
    (hp : ∀ c ∈ pass, injectSafe c = true)
    (hppc : ∀ c ∈ portPart, isNetlocEnd c = false ∧ isUnsafeUrlByte c = false ∧
      c ≠ '[' ∧ c ≠ ']' ∧ c ≠ '@')
    (hps : portPart = [] ∨ ∃ d, portPart = ':' :: d) :
    urlparse (urlunsplit (urlparseCore u0).scheme
        (user ++ ':' :: pass ++ '@' :: (h ++ portPart))
        (if (urlparseCore u0).params ≠ [] then
          (urlparseCore u0).path ++ ';' :: (urlparseCore u0).params
        else (urlparseCore u0).path)
        (urlparseCore u0).query (urlparseCore u0).fragment) =
      some ⟨(urlparseCore u0).scheme,
        user ++ ':' :: pass ++ '@' :: (h ++ portPart),
        (urlparseCore u0).path, (urlparseCore u0).params,
        (urlparseCore u0).query, (urlparseCore u0).fragment⟩ := by
  have hbr : '[' ∉ hostinfo (urlparseCore u0).netloc :=
    fun hm => hbrl (hostinfo_mem hm)
  have hpchost : '%' ∉ hostinfo (urlparseCore u0).netloc :=
    fun hm => hpct (hostinfo_mem hm)
  obtain ⟨hhne, hidem, hchars⟩ := pyHostname_spec hbr hpchost hh
  have hnetne := pyHostname_netloc_ne hh
  have hhbr : '[' ∉ h := by
    intro hm
    obtain ⟨_, _, c0, hceq, hc0⟩ := hchars '[' hm
    have hc0eq : c0 = '[' := asciiLower_eq_of_toNat_lt97 c0 '[' (by decide) hceq.symm
    exact hbrl (hc0eq ▸ hc0)
  have hhbr2 : ']' ∉ h := by
    intro hm
    obtain ⟨_, _, c0, hceq, hc0⟩ := hchars ']' hm
    have hc0eq : c0 = ']' := asciiLower_eq_of_toNat_lt97 c0 ']' (by decide) hceq.symm
    exact hbrr (hc0eq ▸ hc0)
  have hhunsafe : ∀ c ∈ h, isUnsafeUrlByte c = false := by
    intro c hc
    obtain ⟨_, _, c0, hceq, hc0⟩ := hchars c hc
    rw [hceq]
    exact isUnsafeUrlByte_asciiLower (hsafe0 c0 (urlparseCore_netloc_subset hc0))
  have hu1 : ∀ c ∈ user, isNetlocEnd c = false :=
    fun c hc => injectSafe_netlocEnd (hu c hc)
  have hp1 : ∀ c ∈ pass, isNetlocEnd c = false :=
    fun c hc => injectSafe_netlocEnd (hp c hc)
  have hN : user ++ ':' :: pass ++ '@' :: (h ++ portPart) ≠ [] := by simp
  have hNc : ∀ c ∈ user ++ ':' :: pass ++ '@' :: (h ++ portPart),
      isNetlocEnd c = false := by
    intro c hc
    rcases List.mem_append.mp hc with hc1 | hc1
    · rcases List.mem_append.mp hc1 with hc2 | hc2
      · exact hu1 c hc2
      rcases List.mem_cons.mp hc2 with hc3 | hc3
      · rw [hc3]; decide
      · exact hp1 c hc3
    · rcases List.mem_cons.mp hc1 with hc2 | hc2
      · rw [hc2]; decide
      rcases List.mem_append.mp hc2 with hc3 | hc3
      · obtain ⟨_, _, c0, hceq, hc0mem⟩ := hchars c hc3
        rw [hceq]
        exact isNetlocEnd_asciiLower (netloc_isNetlocEnd_false hc0mem)
      · exact (hppc c hc3).1
  have hN1 : '[' ∉ user ++ ':' :: pass ++ '@' :: (h ++ portPart) := by
    intro hm
    rcases List.mem_append.mp hm with hc1 | hc1
    · rcases List.mem_append.mp hc1 with hc2 | hc2
      · exact (injectSafe_brackets (hu _ hc2)).1 rfl
      rcases List.mem_cons.mp hc2 with hc3 | hc3
      · exact absurd hc3 (by decide)
      · exact (injectSafe_brackets (hp _ hc3)).1 rfl
    · rcases List.mem_cons.mp hc1 with hc2 | hc2
      · exact absurd hc2 (by decide)
      rcases List.mem_append.mp hc2 with hc3 | hc3
      · exact hhbr hc3
      · exact (hppc _ hc3).2.2.1 rfl
  have hN2 : ']' ∉ user ++ ':' :: pass ++ '@' :: (h ++ portPart) := by
    intro hm
    rcases List.mem_append.mp hm with hc1 | hc1
    · rcases List.mem_append.mp hc1 with hc2 | hc2
      · exact (injectSafe_brackets (hu _ hc2)).2 rfl
      rcases List.mem_cons.mp hc2 with hc3 | hc3
      · exact absurd hc3 (by decide)
      · exact (injectSafe_brackets (hp _ hc3)).2 rfl
    · rcases List.mem_cons.mp hc1 with hc2 | hc2
      · exact absurd hc2 (by decide)
      rcases List.mem_append.mp hc2 with hc3 | hc3
      · exact hhbr2 hc3
      · exact (hppc _ hc3).2.2.2.1 rfl
  have haq := @aq_shape u0 hnetne
  have hpp : (if (urlparseCore u0).params ≠ [] then
        (urlparseCore u0).path ++ ';' :: (urlparseCore u0).params
      else (urlparseCore u0).path) = [] ∨
      ∃ t, (if (urlparseCore u0).params ≠ [] then
        (urlparseCore u0).path ++ ';' :: (urlparseCore u0).params
      else (urlparseCore u0).path) = '/' :: t := by
    rcases paramsSplit_spec (splitScheme u0).1
        (splitQuery (splitFragment (splitNetloc (splitScheme u0).2).2).1).1
      with hsp | hsp
    · have hpath : (urlparseCore u0).path =
          (splitQuery (splitFragment (splitNetloc (splitScheme u0).2).2).1).1 := by
        rw [urlparseCore_path, hsp]
      have hparams : (urlparseCore u0).params = [] := by
        rw [urlparseCore_params, hsp]
      rw [if_neg (by simp [hparams]), hpath]
      exact haq
    · rw [← urlparseCore_path, ← urlparseCore_params] at hsp
      rcases haq with haq0 | ⟨t, haqt⟩
      · rw [haq0] at hsp
        exact absurd hsp.symm (by simp)
      · rw [haqt] at hsp
        by_cases hpar : (urlparseCore u0).params = []
        · rw [if_neg (by simp [hpar])]
          cases hpa : (urlparseCore u0).path with
          | nil =>
            rw [hpa] at hsp
            simp only [List.nil_append, List.cons.injEq] at hsp
            exact absurd hsp.1 (by decide)
          | cons c0 t0 =>
            rw [hpa] at hsp
            simp only [List.cons_append, List.cons.injEq] at hsp
            exact Or.inr ⟨t0, by rw [← hsp.1]⟩
        · rw [if_pos hpar]
          exact Or.inr ⟨t, hsp.symm⟩
  have hpath_mem_aq : ∀ c ∈ (urlparseCore u0).path,
      c ∈ (splitQuery (splitFragment (splitNetloc (splitScheme u0).2).2).1).1 := by
    intro c hc
    rw [urlparseCore_path] at hc
    exact paramsSplit_mem_fst hc
  have hparams_mem_aq : ∀ c ∈ (urlparseCore u0).params,
      c ∈ (splitQuery (splitFragment (splitNetloc (splitScheme u0).2).2).1).1 := by
    intro c hc
    rw [urlparseCore_params] at hc
    exact paramsSplit_mem_snd hc
  have hpath_mem_af : ∀ c ∈ (urlparseCore u0).path,
      c ∈ (splitFragment (splitNetloc (splitScheme u0).2).2).1 :=
    fun c hc => splitQuery_mem_fst (hpath_mem_aq c hc)
  have hparams_mem_af : ∀ c ∈ (urlparseCore u0).params,
      c ∈ (splitFragment (splitNetloc (splitScheme u0).2).2).1 :=
    fun c hc => splitQuery_mem_fst (hparams_mem_aq c hc)
  have hpp_hash : '#' ∉ (if (urlparseCore u0).params ≠ [] then
      (urlparseCore u0).path ++ ';' :: (urlparseCore u0).params
    else (urlparseCore u0).path) := by
    intro hm
    by_cases hpar : (urlparseCore u0).params = []
    · rw [if_neg (by simp [hpar])] at hm
      exact splitFragment_fst_no_hash _ (hpath_mem_af '#' hm)
    · rw [if_pos hpar] at hm
      rcases List.mem_append.mp hm with hm | hm
      · exact splitFragment_fst_no_hash _ (hpath_mem_af '#' hm)
      rcases List.mem_cons.mp hm with hm | hm
      · cases hm
      · exact splitFragment_fst_no_hash _ (hparams_mem_af '#' hm)
  have hpp_q : '?' ∉ (if (urlparseCore u0).params ≠ [] then
      (urlparseCore u0).path ++ ';' :: (urlparseCore u0).params
    else (urlparseCore u0).path) := by
    intro hm
    by_cases hpar : (urlparseCore u0).params = []
    · rw [if_neg (by simp [hpar])] at hm
      exact splitQuery_fst_no_qmark _ (hpath_mem_aq '?' hm)
    · rw [if_pos hpar] at hm
      rcases List.mem_append.mp hm with hm | hm
      · exact splitQuery_fst_no_qmark _ (hpath_mem_aq '?' hm)
      rcases List.mem_cons.mp hm with hm | hm
      · cases hm
      · exact splitQuery_fst_no_qmark _ (hparams_mem_aq '?' hm)
  have hqu_hash : '#' ∉ (urlparseCore u0).query := by
    intro hm
    rw [urlparseCore_query] at hm
    exact splitFragment_fst_no_hash _ (splitQuery_mem_snd hm)
  have hsch : (urlparseCore u0).scheme = [] ∨
      ((urlparseCore u0).scheme.all isSchemeChar = true ∧
        (∃ c0 r0, (urlparseCore u0).scheme = c0 :: r0 ∧ isAsciiAlpha c0 = true) ∧
        (urlparseCore u0).scheme.map asciiLower = (urlparseCore u0).scheme) :=
    splitScheme_fst_valid u0
  have hmain := urlparseCore_unparse (urlparseCore u0).scheme
    (user ++ ':' :: pass ++ '@' :: (h ++ portPart))
    (if (urlparseCore u0).params ≠ [] then
      (urlparseCore u0).path ++ ';' :: (urlparseCore u0).params
    else (urlparseCore u0).path)
    (urlparseCore u0).query (urlparseCore u0).fragment
    hsch hN hNc hpp hpp_hash hpp_q hqu_hash
  have hstab : paramsSplit (urlparseCore u0).scheme
      (if (urlparseCore u0).params ≠ [] then
        (urlparseCore u0).path ++ ';' :: (urlparseCore u0).params
      else (urlparseCore u0).path) =
      ((urlparseCore u0).path, (urlparseCore u0).params) := by
    have h0 := paramsSplit_stable (splitScheme u0).1
      (splitQuery (splitFragment (splitNetloc (splitScheme u0).2).2).1).1
    rw [show (urlparseCore u0).scheme = (splitScheme u0).1 from rfl,
      show (urlparseCore u0).params =
        (paramsSplit (splitScheme u0).1 (splitQuery (splitFragment
          (splitNetloc (splitScheme u0).2).2).1).1).2 from rfl,
      show (urlparseCore u0).path =
        (paramsSplit (splitScheme u0).1 (splitQuery (splitFragment
          (splitNetloc (splitScheme u0).2).2).1).1).1 from rfl]
    rw [h0]
  have hcore : urlparseCore (urlunsplit (urlparseCore u0).scheme
      (user ++ ':' :: pass ++ '@' :: (h ++ portPart))
      (if (urlparseCore u0).params ≠ [] then
        (urlparseCore u0).path ++ ';' :: (urlparseCore u0).params
      else (urlparseCore u0).path)
      (urlparseCore u0).query (urlparseCore u0).fragment) =
      ⟨(urlparseCore u0).scheme,
        user ++ ':' :: pass ++ '@' :: (h ++ portPart),
        (urlparseCore u0).path, (urlparseCore u0).params,
        (urlparseCore u0).query, (urlparseCore u0).fragment⟩ := by
    rw [hmain, hstab]
  have hin : ¬((if (urlparseCore u0).params ≠ [] then
      (urlparseCore u0).path ++ ';' :: (urlparseCore u0).params
    else (urlparseCore u0).path) ≠ [] ∧
      (if (urlparseCore u0).params ≠ [] then
        (urlparseCore u0).path ++ ';' :: (urlparseCore u0).params
      else (urlparseCore u0).path).head? ≠ some '/') := by
    rcases hpp with h0 | ⟨t, h0⟩
    · intro hcon; exact hcon.1 h0
    · intro hcon; exact hcon.2 (by rw [h0]; rfl)
  have hnorm := urlunsplit_normal (urlparseCore u0).scheme
    (user ++ ':' :: pass ++ '@' :: (h ++ portPart))
    (if (urlparseCore u0).params ≠ [] then
      (urlparseCore u0).path ++ ';' :: (urlparseCore u0).params
    else (urlparseCore u0).path)
    (urlparseCore u0).query (urlparseCore u0).fragment hN hin
  have hheadout : urlunsplit (urlparseCore u0).scheme
      (user ++ ':' :: pass ++ '@' :: (h ++ portPart))
      (if (urlparseCore u0).params ≠ [] then
        (urlparseCore u0).path ++ ';' :: (urlparseCore u0).params
      else (urlparseCore u0).path)
      (urlparseCore u0).query (urlparseCore u0).fragment = [] ∨
      ∃ c0 t, urlunsplit (urlparseCore u0).scheme
        (user ++ ':' :: pass ++ '@' :: (h ++ portPart))
        (if (urlparseCore u0).params ≠ [] then
          (urlparseCore u0).path ++ ';' :: (urlparseCore u0).params
        else (urlparseCore u0).path)
        (urlparseCore u0).query (urlparseCore u0).fragment = c0 :: t ∧
        isC0ControlOrSpace c0 = false := by
    right
    rw [hnorm]
    rcases hsch with hs0 | ⟨_, ⟨c0, r0, hsc, ha⟩, _⟩
    · rw [if_pos hs0]
      exact ⟨'/', _, rfl, by decide⟩
    · rw [if_neg (by rw [hsc]; simp), hsc]
      exact ⟨c0, _, rfl, isAsciiAlpha_not_c0 ha⟩
  have hsafeout : ∀ c ∈ urlunsplit (urlparseCore u0).scheme
      (user ++ ':' :: pass ++ '@' :: (h ++ portPart))
      (if (urlparseCore u0).params ≠ [] then
        (urlparseCore u0).path ++ ';' :: (urlparseCore u0).params
      else (urlparseCore u0).path)
      (urlparseCore u0).query (urlparseCore u0).fragment,
      isUnsafeUrlByte c = false := by
    intro c hc
    rcases urlunsplit_subset hc with hc | hc | hc | hc | hc | hc | hc | hc | hc
    · rcases hsch with hs0 | ⟨hall, _, _⟩
      · rw [hs0] at hc; cases hc
      · exact isSchemeChar_not_unsafe (List.all_eq_true.mp hall c hc)
    · rcases List.mem_append.mp hc with hc1 | hc1
      · rcases List.mem_append.mp hc1 with hc2 | hc2
        · exact injectSafe_unsafe (hu c hc2)
        rcases List.mem_cons.mp hc2 with hc3 | hc3
        · rw [hc3]; decide
        · exact injectSafe_unsafe (hp c hc3)
      · rcases List.mem_cons.mp hc1 with hc2 | hc2
        · rw [hc2]; decide
        rcases List.mem_append.mp hc2 with hc3 | hc3
        · exact hhunsafe c hc3
        · exact (hppc c hc3).2.1
    · by_cases hpar : (urlparseCore u0).params = []
      · rw [if_neg (by simp [hpar])] at hc
        exact hsafe0 c (urlparseCore_path_subset hc)
      · rw [if_pos hpar] at hc
        rcases List.mem_append.mp hc with hm | hm
        · exact hsafe0 c (urlparseCore_path_subset hm)
        rcases List.mem_cons.mp hm with hm | hm
        · rw [hm]; decide
        · exact hsafe0 c (urlparseCore_params_subset hm)
    · exact hsafe0 c (urlparseCore_query_subset hc)
    · exact hsafe0 c (urlparseCore_fragment_subset hc)
    · rw [hc]; decide
    · rw [hc]; decide
    · rw [hc]; decide
    · rw [hc]; decide
  exact urlparse_unsplit_some _ _ hcore hsafeout hheadout hN1 hN2

/-- C7 counterexample: `inject_rtsp_auth` embeds credentials verbatim, so
a password containing `/` shifts the netloc boundary of the output: with
`rtsp://h/x` and password `p/w` the output is `rtsp://a:p/w@h/x`, whose
reparse has path `/w@h/x` instead of `/x` and hostname `a` instead of `h`,
and whose port read raises `ValueError` — the claimed round trip fails for
credentials containing reserved characters. -/
theorem claim7_counterexample :
    inject_rtsp_auth "rtsp://h/x".toList "a".toList "p/w".toList =
        some "rtsp://a:p/w@h/x".toList ∧
      (urlparse "rtsp://h/x".toList).map PyUrl.path = some "/x".toList ∧
      (urlparse "rtsp://a:p/w@h/x".toList).map PyUrl.path =
        some "/w@h/x".toList ∧
      (urlparse "rtsp://h/x".toList).map pyHostname = some (some "h".toList) ∧
      (urlparse "rtsp://a:p/w@h/x".toList).map pyHostname =
        some (some "a".toList) ∧
      (urlparse "rtsp://a:p/w@h/x".toList).map pyPort = some none := by
  refine ⟨?_, ?_, ?_, ?_, ?_, ?_⟩ <;> decide

/-- C7 (amended): for every URI whose parse succeeds with a benign netloc
(bracket-free, percent-free, ASCII), a hostname, and a port read other
than the falsy `0`, and credentials made of safe characters (ASCII, no
`/` `?` `#` `[` `]` or tab/CR/LF), `inject_rtsp_auth` succeeds and parsing
its output recovers the same scheme, hostname, port, path, query and
fragment, with the output netloc starting `user:pass@`. -/
theorem claim7_amended_inject_roundtrip (uri user pass h : List Char)
    (P : PyUrl) (po : Option Nat)
    (hP : urlparse uri = some P)
    (hbrl : '[' ∉ P.netloc) (hbrr : ']' ∉ P.netloc) (hpct : '%' ∉ P.netloc)
    (_hascii : ∀ c ∈ P.netloc, c.toNat ≤ 127)
    (hh : pyHostname P = some h)
    (hpt : pyPort P = some po) (hport0 : po ≠ some 0)
    (hu : ∀ c ∈ user, injectSafe c = true)
    (hp : ∀ c ∈ pass, injectSafe c = true) :
    ∃ out P2, inject_rtsp_auth uri user pass = some out ∧
      urlparse out = some P2 ∧
      P2.scheme = P.scheme ∧ pyHostname P2 = some h ∧ pyPort P2 = some po ∧
      P2.path = P.path ∧ P2.query = P.query ∧ P2.fragment = P.fragment ∧
      ∃ tail, P2.netloc = user ++ ':' :: pass ++ '@' :: tail := by
  have hP2 : P = urlparseCore (sanitizeUrl uri) := by
    unfold urlparse at hP
    by_cases hbad :
        invalidIPv6 (splitNetloc (splitScheme (sanitizeUrl uri)).2).1 = true
    · rw [if_pos hbad] at hP
      cases hP
    · rw [if_neg hbad] at hP
      injection hP with hP
      exact hP.symm
  subst hP2
  have hsafe0 : ∀ c ∈ sanitizeUrl uri, isUnsafeUrlByte c = false :=
    fun c hc => mem_sanitize_not_unsafe hc
  have hbr : '[' ∉ hostinfo (urlparseCore (sanitizeUrl uri)).netloc :=
    fun hm => hbrl (hostinfo_mem hm)
  have hpchost : '%' ∉ hostinfo (urlparseCore (sanitizeUrl uri)).netloc :=
    fun hm => hpct (hostinfo_mem hm)
  obtain ⟨hhne, hidem, hchars⟩ := pyHostname_spec hbr hpchost hh
  have hhc : ∀ c ∈ h, c ≠ ':' := fun c hc => (hchars c hc).1
  have hhat : ∀ c ∈ h, c ≠ '@' := fun c hc => (hchars c hc).2.1
  have hhbr : '[' ∉ h := by
    intro hm
    obtain ⟨_, _, c0, hceq, hc0⟩ := hchars '[' hm
    have hc0eq : c0 = '[' := asciiLower_eq_of_toNat_lt97 c0 '[' (by decide) hceq.symm
    exact hbrl (hc0eq ▸ hc0)
  have hhpc : '%' ∉ h := by
    intro hm
    obtain ⟨_, _, c0, hceq, hc0⟩ := hchars '%' hm
    have hc0eq : c0 = '%' := asciiLower_eq_of_toNat_lt97 c0 '%' (by decide) hceq.symm
    exact hpct (hc0eq ▸ hc0)
  cases po with
  | none =>
    have hinj : inject_rtsp_auth uri user pass =
        some (urlunsplit (urlparseCore (sanitizeUrl uri)).scheme
          (user ++ ':' :: pass ++ '@' :: (h ++ []))
          (if (urlparseCore (sanitizeUrl uri)).params ≠ [] then
            (urlparseCore (sanitizeUrl uri)).path ++ ';' ::
              (urlparseCore (sanitizeUrl uri)).params
          else (urlparseCore (sanitizeUrl uri)).path)
          (urlparseCore (sanitizeUrl uri)).query
          (urlparseCore (sanitizeUrl uri)).fragment) := by
      unfold inject_rtsp_auth urlunparse
      simp only [hP, hpt, hh, optToStr]
      rw [List.append_nil]
    have hparse := inject_reparse_master (sanitizeUrl uri) user pass h []
      hbrl hbrr hpct hsafe0 hh hu hp (fun c hc => by cases hc) (Or.inl rfl)
    have hnoat : '@' ∉ h ++ ([] : List Char) := by
      intro hm
      rw [List.append_nil] at hm
      exact hhat '@' hm rfl
    have hnobr : '[' ∉ h ++ ([] : List Char) := by
      intro hm
      rw [List.append_nil] at hm
      exact hhbr hm
    refine ⟨_, _, hinj, hparse, rfl, ?_, ?_, rfl, rfl, rfl, ⟨h ++ [], rfl⟩⟩
    · exact pyHostname_auth_netloc _ user pass h [] rfl hhne hidem hhc hnoat
        hnobr hhpc (Or.inl rfl)
    · exact pyPort_auth_netloc_none _ user pass h rfl hhc hnoat hnobr
  | some p =>
    have hpne : p ≠ 0 := by
      intro hcon
      exact hport0 (by rw [hcon])
    obtain ⟨m, rfl⟩ : ∃ m, p = m + 1 := ⟨p - 1, by omega⟩
    have hinj : inject_rtsp_auth uri user pass =
        some (urlunsplit (urlparseCore (sanitizeUrl uri)).scheme
          (user ++ ':' :: pass ++ '@' :: (h ++ ':' :: natToDigits (m + 1)))
          (if (urlparseCore (sanitizeUrl uri)).params ≠ [] then
            (urlparseCore (sanitizeUrl uri)).path ++ ';' ::
              (urlparseCore (sanitizeUrl uri)).params
          else (urlparseCore (sanitizeUrl uri)).path)
          (urlparseCore (sanitizeUrl uri)).query
          (urlparseCore (sanitizeUrl uri)).fragment) := by
      unfold inject_rtsp_auth urlunparse
      simp only [hP, hpt, hh, optToStr]
      rw [if_pos hpne]
      simp [List.append_assoc]
    have hppc : ∀ c ∈ ':' :: natToDigits (m + 1),
        isNetlocEnd c = false ∧ isUnsafeUrlByte c = false ∧
          c ≠ '[' ∧ c ≠ ']' ∧ c ≠ '@' := by
      intro c hc
      rcases List.mem_cons.mp hc with hc | hc
      · rw [hc]
        exact ⟨by decide, by decide, by decide, by decide, by decide⟩
      · have hd := natDigitsAux_all_digits _ _ c hc
        exact ⟨isDigitChar_not_netlocEnd hd, isDigitChar_not_unsafe hd,
          isDigitChar_ne hd (by decide), isDigitChar_ne hd (by decide),
          isDigitChar_ne hd (by decide)⟩
    have hparse := inject_reparse_master (sanitizeUrl uri) user pass h
      (':' :: natToDigits (m + 1)) hbrl hbrr hpct hsafe0 hh hu hp hppc
      (Or.inr ⟨_, rfl⟩)
    have hnoat : '@' ∉ h ++ ':' :: natToDigits (m + 1) := by
      intro hm
      rcases List.mem_append.mp hm with hm | hm
      · exact hhat '@' hm rfl
      rcases List.mem_cons.mp hm with hm | hm
      · exact absurd hm (by decide)
      · exact isDigitChar_ne (natDigitsAux_all_digits _ _ '@' hm) (by decide) rfl
    have hnobr : '[' ∉ h ++ ':' :: natToDigits (m + 1) := by
      intro hm
      rcases List.mem_append.mp hm with hm | hm
      · exact hhbr hm
      rcases List.mem_cons.mp hm with hm | hm
      · exact absurd hm (by decide)
      · exact isDigitChar_ne (natDigitsAux_all_digits _ _ '[' hm) (by decide) rfl
    refine ⟨_, _, hinj, hparse, rfl, ?_, ?_, rfl, rfl, rfl,
      ⟨h ++ ':' :: natToDigits (m + 1), rfl⟩⟩
    · exact pyHostname_auth_netloc _ user pass h (':' :: natToDigits (m + 1)) rfl
        hhne hidem hhc hnoat hnobr hhpc (Or.inr ⟨_, rfl⟩)
    · exact pyPort_auth_netloc_some _ user pass h (natToDigits (m + 1)) (m + 1)
        rfl hhc hnoat hnobr (natDigitsAux_ne_nil m m)
        (List.all_eq_true.mpr (fun c hc => natDigitsAux_all_digits _ _ c hc))
        (digitsToNat_natDigitsAux (m + 1) (m + 1) le_rfl)
        (pyPort_le hpt)

theorem claim7_amended_witness :
    ∃ out P2,
      inject_rtsp_auth "rtsp://CamHost:554/a/b?x=1&y=2#frag".toList
          "alice".toList "secret".toList = some out ∧
      urlparse out = some P2 ∧
      P2.scheme = (PyUrl.mk "rtsp".toList "CamHost:554".toList "/a/b".toList []
        "x=1&y=2".toList "frag".toList).scheme ∧
      pyHostname P2 = some "camhost".toList ∧
      pyPort P2 = some (some 554) ∧
      P2.path = (PyUrl.mk "rtsp".toList "CamHost:554".toList "/a/b".toList []
        "x=1&y=2".toList "frag".toList).path ∧
      P2.query = (PyUrl.mk "rtsp".toList "CamHost:554".toList "/a/b".toList []
        "x=1&y=2".toList "frag".toList).query ∧
      P2.fragment = (PyUrl.mk "rtsp".toList "CamHost:554".toList "/a/b".toList []
        "x=1&y=2".toList "frag".toList).fragment ∧
      ∃ tail, P2.netloc = "alice".toList ++ ':' :: "secret".toList ++ '@' :: tail :=
  claim7_amended_inject_roundtrip "rtsp://CamHost:554/a/b?x=1&y=2#frag".toList
    "alice".toList "secret".toList "camhost".toList
    (PyUrl.mk "rtsp".toList "CamHost:554".toList "/a/b".toList []
      "x=1&y=2".toList "frag".toList) (some 554)
    (by decide) (by decide) (by decide) (by decide) (by decide) (by decide)
    (by decide) (by decide) (by decide) (by decide)

end OnvifRtsp
